import Mathlib

/-!
# gocacto: a verification development

A shallow embedding of the security-relevant core of the `cacto-cms` Go
sources (component defaults and rendering, the permission model, the CSRF
guard, the authentication middleware chain, password hashing, the
authentication service, the error taxonomy and error responses, the
configuration, upload checks, rate limiting, tokens and slugs), followed by
the theorems that settle the specification's claims about them.

Conventions of the embedding:

* Go `string` is `String`; the empty string is the zero value.
* Go pointers to structs that are mutated in place are modelled by passing
  the struct value and returning the updated value.
* A Go `map[K]V` is a function `K → Option V` (lookup), with update and
  delete as function update.
* `time.Time` is a `Nat` (nanoseconds on the monotonic clock),
  `t.After(u)` is `u < t`, and `time.Duration` is a `Nat` of nanoseconds.
* An `http.Handler` is a function from the request and the state of the
  world (the log of calls made on the `http.ResponseWriter`, the
  process-wide CSRF token pool and the clock) to the new state of the world.
* A Go `error` is a value of the type `error` below (`error.nil` is `nil`);
  a function that returns a value or an error returns an `Except`, and one
  that returns `(bool, error)` returns the pair.
* A call that may panic returns a `MayPanic`.
* A byte is a `Nat` below 256.
* A rune is a `Char`; where a function works on the bytes of a string
  (`len`, a slice expression) the bytes are the UTF-8 encoding of its runes.
  The predicates of package `unicode` are exact on Latin-1 and read a table
  parameter above it.
* A part of the program whose source is absent is modelled after the
  specification, in a definition marked `Modelled from the spec:`.
-/

set_option autoImplicit false

/-! ## `app/domain/component/entity.go` -/

namespace domain.component

/-- Go: `type Type string`. -/
abbrev ComponentType := String

def TypeHero : ComponentType := "hero"
def TypeAbout : ComponentType := "about"
def TypeText : ComponentType := "text"
def TypeImage : ComponentType := "image"
def TypeCTA : ComponentType := "cta"
def TypeGrid : ComponentType := "grid"
def TypeList : ComponentType := "list"

/-- Go: `type Component struct`.  The field `Type` is spelled `Type_`. -/
structure Component where
  ID : Int := 0
  Type_ : ComponentType := ""
  Name : String := ""
  Title : String := ""
  Subtitle : String := ""
  Content : String := ""
  ImageURL : String := ""
  LinkURL : String := ""
  LinkText : String := ""
  DataJSON : String := ""
  deriving DecidableEq, Repr

/-- Go: `func (c *Component) Defaults() *Component`.  For the three types
with defaults a fresh struct is returned (unset fields are zero values); for
every other type the receiver itself is returned. -/
def Component.Defaults (c : Component) : Component :=
  if c.Type_ = TypeHero then
    { Type_ := TypeHero
      Title := "Welcome"
      Subtitle := "Modern and performant solutions"
      LinkText := "Explore"
      LinkURL := "/" }
  else if c.Type_ = TypeAbout then
    { Type_ := TypeAbout
      Title := "About Us"
      Content := "About us content will appear here." }
  else if c.Type_ = TypeText then
    { Type_ := TypeText
      Content := "Text content will appear here." }
  else c

/-- Go: `func (c *Component) MergeWithDefaults() *Component`.

The Go code computes `defaults := c.Defaults()` once and then assigns to the
fields of `c` one after the other.  In the `default:` branch of `Defaults`
the pointer `defaults` aliases `c`, so a read of `defaults.X` sees the
assignments already made.  Reading `(Defaults cur).X` at the current value
`cur` of `*c` is exactly that: for the three known types `Defaults cur` is
the fresh struct of `cur.Type_` (which no assignment changes), and otherwise
it is `cur` itself. -/
def Component.MergeWithDefaults (c : Component) : Component :=
  let c := if c.Title = "" then { c with Title := c.Defaults.Title } else c
  let c := if c.Subtitle = "" then { c with Subtitle := c.Defaults.Subtitle } else c
  let c := if c.Content = "" then { c with Content := c.Defaults.Content } else c
  let c := if c.LinkText = "" then { c with LinkText := c.Defaults.LinkText } else c
  let c := if c.LinkURL = "" then { c with LinkURL := c.Defaults.LinkURL } else c
  c

/-- Filling a field: the value when it is set, the default otherwise. -/
def fill (x d : String) : String := if x = "" then d else x

/-- The first assignment of `MergeWithDefaults`. -/
def stepTitle (c : Component) : Component :=
  if c.Title = "" then { c with Title := c.Defaults.Title } else c

/-- The second assignment of `MergeWithDefaults`. -/
def stepSubtitle (c : Component) : Component :=
  if c.Subtitle = "" then { c with Subtitle := c.Defaults.Subtitle } else c

/-- The third assignment of `MergeWithDefaults`. -/
def stepContent (c : Component) : Component :=
  if c.Content = "" then { c with Content := c.Defaults.Content } else c

/-- The fourth assignment of `MergeWithDefaults`. -/
def stepLinkText (c : Component) : Component :=
  if c.LinkText = "" then { c with LinkText := c.Defaults.LinkText } else c

/-- The fifth assignment of `MergeWithDefaults`. -/
def stepLinkURL (c : Component) : Component :=
  if c.LinkURL = "" then { c with LinkURL := c.Defaults.LinkURL } else c

/-- The types for which `Defaults` builds a fresh struct. -/
def KnownType (ty : ComponentType) : Prop :=
  ty = TypeHero ∨ ty = TypeAbout ∨ ty = TypeText

end domain.component

/-! ## `app/domain/user/entity.go` -/

namespace domain.user

/-- Go: `type Role string`. -/
abbrev Role := String

def RoleAdmin : Role := "admin"
def RoleEditor : Role := "editor"
def RoleAuthor : Role := "author"
def RoleViewer : Role := "viewer"

/-- Go: `type User struct`.  Timestamps are nanosecond counts. -/
structure User where
  ID : Int := 0
  Email : String := ""
  PasswordHash : String := ""
  Name : String := ""
  Role : Role := ""
  IsActive : Bool := false
  LastLoginAt : Option Nat := none
  CreatedAt : Nat := 0
  UpdatedAt : Nat := 0
  deriving DecidableEq, Repr

/-- The map literal `permissions` of `HasPermission`, as its list of
entries. -/
def permissions : List (Role × List String) :=
  [ (RoleEditor, ["pages:read", "pages:write", "pages:delete", "components:read", "components:write"]),
    (RoleAuthor, ["pages:read", "pages:write", "components:read"]),
    (RoleViewer, ["pages:read", "components:read"]) ]

/-- Go: `rolePerms, exists := permissions[u.Role]`. -/
def permissionsLookup (r : Role) : Option (List String) :=
  (permissions.find? (fun e => e.1 == r)).map (fun e => e.2)

/-- Go: `func (u *User) HasPermission(permission string) bool`. -/
def User.HasPermission (u : User) (permission : String) : Bool :=
  if !u.IsActive then false
  else if u.Role = RoleAdmin then true
  else
    match permissionsLookup u.Role with
    | none => false
    | some rolePerms => rolePerms.any (fun perm => perm == permission)

end domain.user


/-! ## Collaborators outside the repository: `net/http`, `context`, `strings`, `encoding/base64`, `templ` -/

/-- Go: `time.Time`, as nanoseconds on the monotonic clock. -/
abbrev Time := Nat

/-- Go: `t.After(u)`. -/
def Time.After (t u : Time) : Bool := decide (u < t)

/-- Go: `time.Hour`, in nanoseconds. -/
def time.Hour : Nat := 3600 * 1000000000

namespace strings

/-- Splitting a list of characters at every occurrence of `sep`. -/
def splitChars (sep : Char) : List Char → List (List Char)
  | [] => [[]]
  | c :: cs =>
    if c = sep then [] :: splitChars sep cs
    else
      match splitChars sep cs with
      | [] => [[c]]
      | p :: ps => (c :: p) :: ps

/-- Go: `strings.Split(s, sep)` for a separator of one character (the
source calls it with `" "` only): all substrings of `s` separated by `sep`;
a string without `sep` gives the one-element list `[s]`. -/
def Split (s : String) (sep : Char) : List String :=
  (splitChars sep s.toList).map String.mk

end strings

namespace base64

/-- The alphabet of `base64.URLEncoding`. -/
def encodeURL : List Char :=
  "ABCDEFGHIJKLMNOPQRSTUVWXYZabcdefghijklmnopqrstuvwxyz0123456789-_".toList

/-- The character of a six-bit value. -/
def digit (n : Nat) : Char := encodeURL.getD (n % 64) 'A'

/-- Encoding of a byte sequence, three bytes to four characters, padded with `=`. -/
def encodeBytes : List Nat → List Char
  | a :: b :: c :: rest =>
    let n := (a % 256) * 65536 + (b % 256) * 256 + c % 256
    digit (n / 262144) :: digit (n / 4096) :: digit (n / 64) :: digit n :: encodeBytes rest
  | [a, b] =>
    let n := (a % 256) * 65536 + (b % 256) * 256
    [digit (n / 262144), digit (n / 4096), digit (n / 64), '=']
  | [a] =>
    let n := (a % 256) * 65536
    [digit (n / 262144), digit (n / 4096), '=', '=']
  | [] => []

/-- Go: `base64.URLEncoding.EncodeToString(bytes)`. -/
def URLEncoding.EncodeToString (bytes : List Nat) : String :=
  String.mk (encodeBytes bytes)

end base64

/-- Go: a value of type `interface{}` stored in a context: `nil`, an `int`,
a `string`, or a value of some other dynamic type (named by `typeName`). -/
inductive Any where
  | nil
  | int (n : Int)
  | string (s : String)
  | other (typeName : String) (repr : String)
  deriving DecidableEq, Repr

/-- Go: `type contextKey string` of the middleware package. -/
structure contextKey where
  name : String
  deriving DecidableEq, Repr

/-- Go: `context.Context`, as the chain of `WithValue` pairs, innermost
(latest) first. -/
abbrev Context := List (contextKey × Any)

/-- Go: `ctx.Value(key)`: the value of the latest pair with that key, `nil`
when there is none. -/
def Context.Value (ctx : Context) (key : contextKey) : Any :=
  match ctx.find? (fun kv => kv.1 == key) with
  | some kv => kv.2
  | none => Any.nil

/-- Go: `context.WithValue(ctx, key, val)`. -/
def Context.WithValue (ctx : Context) (key : contextKey) (val : Any) : Context :=
  (key, val) :: ctx

/-- First value of a key in a list of pairs. -/
def lookupFirst (kvs : List (String × String)) (key : String) : Option String :=
  (kvs.find? (fun kv => kv.1 == key)).map (fun kv => kv.2)

/-- Go: `*http.Request`, with the parts the handlers read: method, URL
path, headers, cookies, form values, the router's URL parameters and the
context (`r.Context()` is the field `ctx`). -/
structure Request where
  Method : String := "GET"
  URLPath : String := "/"
  Header : List (String × String) := []
  Cookies : List (String × String) := []
  Form : List (String × String) := []
  URLParams : List (String × String) := []
  ctx : Context := []
  deriving DecidableEq, Repr

/-- Go: `r.Header.Get(key)`: the first value of the header, `""` when absent. -/
def Request.HeaderGet (r : Request) (key : String) : String :=
  (lookupFirst r.Header key).getD ""

/-- Go: `r.Cookie(name)`: the cookie's value, `none` for `http.ErrNoCookie`. -/
def Request.Cookie (r : Request) (name : String) : Option String :=
  lookupFirst r.Cookies name

/-- Go: `r.FormValue(key)`: the first value of the form field, `""` when absent. -/
def Request.FormValue (r : Request) (key : String) : String :=
  (lookupFirst r.Form key).getD ""

/-- Go: `chi.URLParam(r, key)`. -/
def Request.URLParam (r : Request) (key : String) : String :=
  (lookupFirst r.URLParams key).getD ""

/-- Go: `r.WithContext(ctx)`. -/
def Request.WithContext (r : Request) (ctx : Context) : Request :=
  { r with ctx := ctx }

/-- A JSON value as built by the handlers from `map[string]interface{}`
literals and strings. -/
inductive JSONValue where
  | str (s : String)
  | obj (fields : List (String × JSONValue))

def http.StatusSeeOther : Nat := 303
def http.StatusUnauthorized : Nat := 401
def http.StatusForbidden : Nat := 403
def http.StatusInternalServerError : Nat := 500

/-! ## `app/shared/seo` -/

namespace seo

/-- Go: `type Meta struct`; `JsonLd` is `none` for the nil map. -/
structure Meta where
  Title : String := ""
  Description : String := ""
  Keywords : String := ""
  OGImage : String := ""
  Canonical : String := ""
  Type_ : String := ""
  JsonLd : Option JSONValue := none

/-- Go: `func NewMeta(title, description string) *Meta`. -/
def NewMeta (title description : String) : Meta :=
  { Title := title, Description := description, Type_ := "website" }

/-- Go: `func (m *Meta) WithKeywords(keywords string) *Meta`. -/
def Meta.WithKeywords (m : Meta) (keywords : String) : Meta := { m with Keywords := keywords }

/-- Go: `func (m *Meta) WithOGImage(image string) *Meta`. -/
def Meta.WithOGImage (m : Meta) (image : String) : Meta := { m with OGImage := image }

/-- Go: `func (m *Meta) WithCanonical(url string) *Meta`. -/
def Meta.WithCanonical (m : Meta) (url : String) : Meta := { m with Canonical := url }

/-- Go: `type Manager struct`. -/
structure Manager where
  baseURL : String
  siteName : String
  siteDescription : String
  deriving DecidableEq, Repr

/-- Go: `func (m *Manager) ForPage(title, description, keywords, ogImage, slug string) *Meta`. -/
def Manager.ForPage (m : Manager) (title description keywords ogImage slug : String) : Meta :=
  let meta := NewMeta title description
  let meta := if keywords ≠ "" then meta.WithKeywords keywords else meta
  let meta := if ogImage ≠ "" then meta.WithOGImage ogImage else meta
  let canonical := if slug ≠ "" ∧ slug ≠ "/" then m.baseURL ++ "/" ++ slug else m.baseURL
  meta.WithCanonical canonical

/-- Go: `func (m *Manager) ForPageWithDefaults(...) *Meta`. -/
def Manager.ForPageWithDefaults (m : Manager)
    (pageTitle pageDescription pageKeywords pageOGImage slug : String) : Meta :=
  let title := if pageTitle = "" then m.siteName else pageTitle
  let description := if pageDescription = "" then m.siteDescription else pageDescription
  m.ForPage title description pageKeywords pageOGImage slug

end seo

/-! ## The generated templates (`app/interfaces/templates`) and `templ` -/

namespace templates

/-- The argument struct of the `components.Hero` template, with the fields
`renderHero` fills. -/
structure HeroData where
  Title : String
  Subtitle : String
  ButtonText : String
  ButtonLink : String
  deriving DecidableEq, Repr

/-- The argument struct of the `components.About` template. -/
structure AboutData where
  Title : String
  Content : String
  deriving DecidableEq, Repr

/-- The argument struct of the `components.Text` template. -/
structure TextData where
  Content : String
  deriving DecidableEq, Repr

end templates

namespace templ

/-- Go: `templ.Component`.  The templates are generated code outside the
sources; a template call is recorded as the template's name applied to the
arguments it is given. -/
inductive Component where
  | Hero (data : templates.HeroData)
  | About (data : templates.AboutData)
  | Text (data : templates.TextData)
  | SimpleContent (title : String) (content : String)
  | PageWithComponents (components : List Component)
  | Base (m : seo.Meta) (content : Component)

end templ

/-- A call made on the `http.ResponseWriter` (directly or through a
library function that is handed the writer). -/
inductive WriterCall where
  | HeaderSet (key value : String)
  | WriteHeader (statusCode : Nat)
  | JSONEncode (v : JSONValue)
  | Error (error : String) (code : Nat)
  | Redirect (url : String) (code : Nat)
  | NotFound
  | Render (c : templ.Component)

/-- The state a handler acts on: the calls made so far on the
`http.ResponseWriter` of the request, the process-wide CSRF token pool
(`csrfTokens`), and the clock: `clock n` is what the `n`-th call of
`time.Now()` returns and `ticks` counts the calls made so far. -/
structure World where
  w : List WriterCall := []
  csrfTokens : String → Option Time := fun _ => none
  clock : Nat → Time := fun _ => 0
  ticks : Nat := 0

/-- Go: `time.Now()`. -/
def World.timeNow (s : World) : Time × World :=
  (s.clock s.ticks, { s with ticks := s.ticks + 1 })

/-- Appending calls to the log of the response writer. -/
def World.write (s : World) (calls : List WriterCall) : World :=
  { s with w := s.w ++ calls }

/-- Go: `http.Handler` (its `ServeHTTP(w, r)`). -/
abbrev Handler := Request → World → World

/-! ## `app/shared/sanitize` -/

namespace sanitize

/-- Go: the `bluemonday` policy `UGC`, a library value outside the
sources: its `Sanitize` method. -/
structure Policy where
  Sanitize : String → String

/-- Go: `func HTML(html string) string`, with the package variable `UGC`
passed explicitly. -/
def HTML (UGC : Policy) (html : String) : String := UGC.Sanitize html

end sanitize

/-! ## `app/shared/component/renderer.go` -/

namespace shared.component

open domain.component

/-- Go: `type RenderFunc func(c *component.Component) (templ.Component, error)`;
an error is its message. -/
abbrev RenderFunc := Component → Except String templ.Component

/-- Go: `type Renderer struct`, the registry map. -/
structure Renderer where
  registry : ComponentType → Option RenderFunc

/-- Go: `func (r *Renderer) Register(componentType component.Type, renderFunc RenderFunc)`. -/
def Renderer.Register (r : Renderer) (componentType : ComponentType) (renderFunc : RenderFunc) :
    Renderer :=
  { registry := fun t => if t = componentType then some renderFunc else r.registry t }

/-- Go: `func (r *Renderer) renderHero(c *Component) (templ.Component, error)`. -/
def renderHero (c : Component) : Except String templ.Component :=
  let data : templates.HeroData :=
    { Title := c.Title
      Subtitle := c.Subtitle
      ButtonText := c.LinkText
      ButtonLink := c.LinkURL }
  .ok (templ.Component.Hero data)

/-- Go: `func (r *Renderer) renderAbout(c *Component) (templ.Component, error)`. -/
def renderAbout (UGC : sanitize.Policy) (c : Component) : Except String templ.Component :=
  let data : templates.AboutData :=
    { Title := c.Title
      Content := sanitize.HTML UGC c.Content }
  .ok (templ.Component.About data)

/-- Go: `func (r *Renderer) renderText(c *Component) (templ.Component, error)`. -/
def renderText (UGC : sanitize.Policy) (c : Component) : Except String templ.Component :=
  let data : templates.TextData :=
    { Content := sanitize.HTML UGC c.Content }
  .ok (templ.Component.Text data)

/-- Go: `func NewRenderer() *Renderer`. -/
def NewRenderer (UGC : sanitize.Policy) : Renderer :=
  let r : Renderer := { registry := fun _ => none }
  let r := r.Register TypeHero renderHero
  let r := r.Register TypeAbout (renderAbout UGC)
  let r := r.Register TypeText (renderText UGC)
  r

/-- Go: `func (r *Renderer) Render(c *Component) (templ.Component, error)`. -/
def Renderer.Render (r : Renderer) (c : Component) : Except String templ.Component :=
  match r.registry c.Type_ with
  | none => .error ("no renderer registered for component type: " ++ c.Type_)
  | some renderFunc => renderFunc c

/-- Go: `func (r *Renderer) RenderMultiple(components []*Component) ([]templ.Component, error)`:
the loop, with `rendered` the slice built so far. -/
def Renderer.RenderMultiple.loop (r : Renderer) :
    List Component → List templ.Component → Except String (List templ.Component)
  | [], rendered => .ok rendered
  | c :: rest, rendered =>
    let c := c.MergeWithDefaults
    match r.Render c with
    | .error err => .error ("failed to render component " ++ c.Name ++ ": " ++ err)
    | .ok comp => Renderer.RenderMultiple.loop r rest (rendered ++ [comp])

/-- Go: `func (r *Renderer) RenderMultiple(components []*Component) ([]templ.Component, error)`. -/
def Renderer.RenderMultiple (r : Renderer) (components : List Component) :
    Except String (List templ.Component) :=
  Renderer.RenderMultiple.loop r components []

end shared.component

/-! ## `app/domain/page` and `app/application/page/service.go` -/

namespace page

/-- Go: `type Component struct` of package `page`. -/
structure Component where
  ID : Int := 0
  Type_ : String := ""
  Name : String := ""
  Title : String := ""
  Subtitle : String := ""
  Content : String := ""
  ImageURL : String := ""
  LinkURL : String := ""
  LinkText : String := ""
  DataJSON : String := ""
  Position : Int := 0
  deriving DecidableEq, Repr

/-- Go: `type Page struct` of package `page`. -/
structure Page where
  ID : Int := 0
  Slug : String := ""
  Title : String := ""
  Content : String := ""
  MetaTitle : String := ""
  MetaDescription : String := ""
  MetaKeywords : String := ""
  OGImage : String := ""
  Status : String := ""
  CreatedAt : Time := 0
  UpdatedAt : Time := 0
  Components : List Component := []
  deriving DecidableEq, Repr

/-- Go: `type Repository interface`, the two methods `GetPageBySlug` calls;
an error is its message. -/
structure Repository where
  FindBySlug : String → Except String Page
  GetComponents : Int → Except String (List Component)

/-- Go: `type Service struct` of the page application package. -/
structure Service where
  repo : Repository

/-- Go: `func (s *Service) GetPageBySlug(slug string) (*page.Page, error)`. -/
def Service.GetPageBySlug (s : Service) (slug : String) : Except String Page :=
  match s.repo.FindBySlug slug with
  | .error err => .error err
  | .ok p =>
    match s.repo.GetComponents p.ID with
    | .ok components => .ok { p with Components := components }
    | .error _ => .ok p

end page

/-! ## `app/interfaces/http/controller/page_controller.go` -/

namespace controller

/-- Go: `type PageController struct`, with the fields the two page handlers
use and the sanitizer policy that package `sanitize` holds. -/
structure PageController where
  pageService : page.Service
  componentRenderer : shared.component.Renderer
  seoManager : seo.Manager
  UGC : sanitize.Policy

/-- Go: `func NewPageController(baseURL, pageService, componentService, seoManager)`,
for the fields kept in `PageController`; `UGC` is the policy of package
`sanitize`, which the renderers of `NewRenderer` use as well. -/
def NewPageController (UGC : sanitize.Policy) (pageService : page.Service)
    (seoManager : seo.Manager) : PageController :=
  { pageService := pageService
    componentRenderer := shared.component.NewRenderer UGC
    seoManager := seoManager
    UGC := UGC }

/-- The conversion of a `page.Component` to a `component.Component` in the
loop of `ShowHome` and `ShowPage`, followed by its `MergeWithDefaults()`. -/
def toDomainComponent (comp : page.Component) : domain.component.Component :=
  let c : domain.component.Component :=
    { ID := comp.ID
      Type_ := comp.Type_
      Name := comp.Name
      Title := comp.Title
      Subtitle := comp.Subtitle
      Content := comp.Content
      ImageURL := comp.ImageURL
      LinkURL := comp.LinkURL
      LinkText := comp.LinkText
      DataJSON := comp.DataJSON }
  c.MergeWithDefaults

/-- The block `// Get page components` of `ShowHome` and `ShowPage`: the
rendered components of the page, or the error of `RenderMultiple`. -/
def PageController.renderedComponents (c : PageController) (p : page.Page) :
    Except String (List templ.Component) :=
  if p.Components.length > 0 then
    let domainComponents := p.Components.map toDomainComponent
    c.componentRenderer.RenderMultiple domainComponents
  else
    let sanitizedContent := sanitize.HTML c.UGC p.Content
    .ok [templ.Component.SimpleContent p.Title sanitizedContent]

/-- Go: `func (c *BaseController) Render(w, r, meta, content)`. -/
def PageController.Render (s : World) (m : seo.Meta) (content : templ.Component) : World :=
  s.write [WriterCall.Render (templ.Component.Base m content)]

/-- Go: `func (c *PageController) ShowPage(w http.ResponseWriter, r *http.Request)`. -/
def PageController.ShowPage (c : PageController) : Handler := fun r s =>
  let slug := r.URLParam "slug"
  match c.pageService.GetPageBySlug slug with
  | .error _ => s.write [WriterCall.NotFound]
  | .ok p =>
    match c.renderedComponents p with
    | .error _ =>
      s.write [WriterCall.Error "Failed to render components" http.StatusInternalServerError]
    | .ok renderedComponents =>
      let pageComponent := templ.Component.PageWithComponents renderedComponents
      let m := c.seoManager.ForPageWithDefaults
        p.MetaTitle p.MetaDescription p.MetaKeywords p.OGImage p.Slug
      PageController.Render s m pageComponent

/-- Go: `func (c *PageController) ShowHome(w http.ResponseWriter, r *http.Request)`. -/
def PageController.ShowHome (c : PageController) : Handler := fun _ s =>
  match c.pageService.GetPageBySlug "" with
  | .error _ => s.write [WriterCall.NotFound]
  | .ok p =>
    match c.renderedComponents p with
    | .error _ =>
      s.write [WriterCall.Error "Failed to render components" http.StatusInternalServerError]
    | .ok renderedComponents =>
      let pageComponent := templ.Component.PageWithComponents renderedComponents
      let m := c.seoManager.ForPageWithDefaults
        p.MetaTitle p.MetaDescription p.MetaKeywords p.OGImage ""
      PageController.Render s m pageComponent

end controller

/-! ## Go's `error` values, panics, and `app/shared/errors/errors.go` -/

/-- Go: a value of the interface type `error`: `nil`, an error made by
`errors.New` or returned by a library (known by its text), an error of
`fmt.Errorf` that wraps another one with `%w`, or an `*errors.AppError` with
its four fields (`Err` is `nil` when nothing is wrapped). -/
inductive error where
  | nil
  | New (text : String)
  | Errorf (text : String) (err : error)
  | AppError (Code : String) (Message : String) (HTTPStatus : Int) (Err : error)
  deriving DecidableEq, Repr

deriving instance DecidableEq for Except

/-- The outcome of a call that may panic instead of returning. -/
inductive MayPanic (α : Type) where
  | returned (a : α)
  | panicked
  deriving DecidableEq, Repr

def http.StatusBadRequest : Nat := 400
def http.StatusNotFound : Nat := 404
def http.StatusConflict : Nat := 409

namespace errors

/-- Go: `type ErrorCode string`. -/
abbrev ErrorCode := String

def ErrCodeNotFound : ErrorCode := "NOT_FOUND"
def ErrCodeValidation : ErrorCode := "VALIDATION_ERROR"
def ErrCodeUnauthorized : ErrorCode := "UNAUTHORIZED"
def ErrCodeForbidden : ErrorCode := "FORBIDDEN"
def ErrCodeInternal : ErrorCode := "INTERNAL_ERROR"
def ErrCodeConflict : ErrorCode := "CONFLICT"
def ErrCodeBadRequest : ErrorCode := "BAD_REQUEST"

/-- Go: `func New(code ErrorCode, message string, httpStatus int) *AppError`. -/
def New (code : ErrorCode) (message : String) (httpStatus : Int) : error :=
  error.AppError code message httpStatus error.nil

/-- Go: `func Wrap(err error, code ErrorCode, message string, httpStatus int) *AppError`. -/
def Wrap (err : error) (code : ErrorCode) (message : String) (httpStatus : Int) : error :=
  error.AppError code message httpStatus err

/-- Go: `func NewNotFound(message string) *AppError`. -/
def NewNotFound (message : String) : error :=
  New ErrCodeNotFound message http.StatusNotFound

/-- Go: `func NewValidation(message string) *AppError`. -/
def NewValidation (message : String) : error :=
  New ErrCodeValidation message http.StatusBadRequest

/-- Go: `func NewUnauthorized(message string) *AppError`. -/
def NewUnauthorized (message : String) : error :=
  let message := if message = "" then "Unauthorized" else message
  New ErrCodeUnauthorized message http.StatusUnauthorized

/-- Go: `func NewForbidden(message string) *AppError`. -/
def NewForbidden (message : String) : error :=
  let message := if message = "" then "Forbidden" else message
  New ErrCodeForbidden message http.StatusForbidden

/-- Go: `func NewInternal(message string, err error) *AppError`. -/
def NewInternal (message : String) (err : error) : error :=
  Wrap err ErrCodeInternal message http.StatusInternalServerError

/-- Go: `func NewConflict(message string) *AppError`. -/
def NewConflict (message : String) : error :=
  New ErrCodeConflict message http.StatusConflict

/-- Go: `func NewBadRequest(message string) *AppError`. -/
def NewBadRequest (message : String) : error :=
  New ErrCodeBadRequest message http.StatusBadRequest

end errors

/-! ## `app/shared/auth`: the token manager (its source file is not among the sources) -/

namespace auth

/-- Go: `type Claims struct` of package `auth`, with the three fields
`AuthMiddleware` reads: `GenerateToken(u.ID, u.Email, string(u.Role))` fixes
them as an `int` and two `string`s. -/
structure Claims where
  UserID : Int
  Email : String
  Role : String
  deriving DecidableEq, Repr

/-- Go: `*auth.JWTManager`, through the method the middleware calls,
`ValidateToken(token) (*Claims, error)`, and the method `Login` calls,
`GenerateToken(userID, email, role) (string, error)`, both at the instant of
the request. -/
structure JWTManager where
  ValidateToken : String → Except String Claims
  GenerateToken : Int → String → String → Except error String

end auth

/-! ## `app/interfaces/http/middleware/csrf.go` -/

namespace middleware

/-- Go: `csrfTTL = 24 * time.Hour`. -/
def csrfTTL : Nat := 24 * time.Hour

/-- Go: `type CSRFProtection struct`. -/
structure CSRFProtection where
  exemptPaths : List String
  deriving DecidableEq, Repr

/-- Go: `func GenerateToken() (string, error)`.  `randRead` is what
`rand.Read(bytes)` does to the 32-byte buffer: an error, or the bytes read. -/
def GenerateToken (randRead : Except String (List Nat)) (s : World) :
    Except String String × World :=
  match randRead with
  | .error err => (.error err, s)
  | .ok bytes =>
    let token := base64.URLEncoding.EncodeToString bytes
    let (now, s) := s.timeNow
    (.ok token,
      { s with csrfTokens := fun k => if k = token then some (now + csrfTTL) else s.csrfTokens k })

/-- Go: `func ValidateToken(token string) bool`. -/
def ValidateToken (token : String) (s : World) : Bool × World :=
  match s.csrfTokens token with
  | none => (false, s)
  | some expires =>
    let (now, s) := s.timeNow
    if Time.After now expires then
      (false, { s with csrfTokens := fun k => if k = token then none else s.csrfTokens k })
    else
      (true, s)

/-- Go: `http.Error(w, "Invalid CSRF token", http.StatusForbidden)`. -/
def csrfReject (s : World) : World :=
  s.write [WriterCall.Error "Invalid CSRF token" http.StatusForbidden]

/-- The last part of the handler of `CSRFProtection.Middleware`, from
`// Validate token` on. -/
def CSRFProtection.validateSupplied (next : Handler) (token : String) : Handler := fun r s =>
  if token = "" then csrfReject s
  else
    let (ok, s) := ValidateToken token s
    if !ok then csrfReject s
    else next r s

/-- Go: `func (c *CSRFProtection) Middleware(next http.Handler) http.Handler`. -/
def CSRFProtection.Middleware (c : CSRFProtection) (next : Handler) : Handler := fun r s =>
  if c.exemptPaths.any (fun path => r.URLPath == path) then next r s
  else if r.Method = "GET" ∨ r.Method = "HEAD" ∨ r.Method = "OPTIONS" then next r s
  else
    let token := r.HeaderGet "X-CSRF-Token"
    let token := if token = "" then r.FormValue "csrf_token" else token
    match r.Cookie "csrf_token" with
    | some cookieToken =>
      if cookieToken ≠ "" then
        if token = cookieToken then
          let (ok, s) := ValidateToken token s
          if ok then next r s
          else CSRFProtection.validateSupplied next token r s
        else CSRFProtection.validateSupplied next token r s
      else CSRFProtection.validateSupplied next token r s
    | none => CSRFProtection.validateSupplied next token r s

/-- The token a request supplies: the `X-CSRF-Token` header, or the
`csrf_token` form field when that header is empty. -/
def suppliedToken (r : Request) : String :=
  if r.HeaderGet "X-CSRF-Token" = "" then r.FormValue "csrf_token" else r.HeaderGet "X-CSRF-Token"

/-- A request the middleware lets through without a token check. -/
def CSRFProtection.skips (c : CSRFProtection) (r : Request) : Prop :=
  r.URLPath ∈ c.exemptPaths ∨ r.Method = "GET" ∨ r.Method = "HEAD" ∨ r.Method = "OPTIONS"

/-- Validating a token `n` times in a row: the answers, and the final state. -/
def validateRepeatedly (token : String) : Nat → World → List Bool × World
  | 0, s => ([], s)
  | n + 1, s =>
    let (ok, s) := ValidateToken token s
    let (oks, s) := validateRepeatedly token n s
    (ok :: oks, s)

/-! ## `app/interfaces/http/middleware/auth.go` -/

def UserIDKey : contextKey := ⟨"user_id"⟩
def UserEmailKey : contextKey := ⟨"user_email"⟩
def UserRoleKey : contextKey := ⟨"user_role"⟩

/-- Go: `func AuthMiddleware(jwtManager *auth.JWTManager) func(http.Handler) http.Handler`. -/
def AuthMiddleware (jwtManager : auth.JWTManager) (next : Handler) : Handler := fun r s =>
  let authHeader := r.HeaderGet "Authorization"
  let authHeader : Option String :=
    if authHeader = "" then
      match r.Cookie "auth_token" with
      | none => none
      | some cookieValue => some ("Bearer " ++ cookieValue)
    else some authHeader
  match authHeader with
  | none => next r s
  | some authHeader =>
    let parts := strings.Split authHeader ' '
    if parts.length ≠ 2 ∨ parts.getD 0 "" ≠ "Bearer" then next r s
    else
      let token := parts.getD 1 ""
      match jwtManager.ValidateToken token with
      | .error _ => next r s
      | .ok claims =>
        let ctx := r.ctx.WithValue UserIDKey (Any.int claims.UserID)
        let ctx := ctx.WithValue UserEmailKey (Any.string claims.Email)
        let ctx := ctx.WithValue UserRoleKey (Any.string claims.Role)
        next (r.WithContext ctx) s

/-- Go: `func RequireAuth(next http.Handler) http.Handler`. -/
def RequireAuth (next : Handler) : Handler := fun r s =>
  let userID := r.ctx.Value UserIDKey
  if userID = Any.nil then
    let accept := r.HeaderGet "Accept"
    if accept = "application/json" then
      s.write
        [ WriterCall.HeaderSet "Content-Type" "application/json",
          WriterCall.WriteHeader http.StatusUnauthorized,
          WriterCall.JSONEncode
            (JSONValue.obj
              [("error", JSONValue.obj
                [("code", JSONValue.str "UNAUTHORIZED"),
                 ("message", JSONValue.str "Unauthorized")])]) ]
    else
      s.write [WriterCall.Redirect "/admin/login" http.StatusSeeOther]
  else next r s

/-- Go: `func RequireRole(roles ...string) func(http.Handler) http.Handler`. -/
def RequireRole (roles : List String) (next : Handler) : Handler := fun r s =>
  match r.ctx.Value UserRoleKey with
  | Any.string userRole =>
    let hasRole := roles.any (fun role => userRole == role)
    if !hasRole then s.write [WriterCall.Error "Forbidden" http.StatusForbidden]
    else next r s
  | _ => s.write [WriterCall.Error "Forbidden" http.StatusForbidden]

/-- The credential string `AuthMiddleware` examines: the `Authorization`
header when it is non-empty, otherwise `"Bearer "` followed by the value of
the `auth_token` cookie, and none when there is neither. -/
def credential (r : Request) : Option String :=
  if r.HeaderGet "Authorization" ≠ "" then some (r.HeaderGet "Authorization")
  else (r.Cookie "auth_token").map (fun v => "Bearer " ++ v)

/-- The context with the identity of the claims attached. -/
def withIdentity (ctx : Context) (claims : auth.Claims) : Context :=
  ((ctx.WithValue UserIDKey (Any.int claims.UserID)).WithValue
    UserEmailKey (Any.string claims.Email)).WithValue UserRoleKey (Any.string claims.Role)

end middleware

/-! ## Collaborators outside the repository: `fmt.Sscanf`, `base64.RawStdEncoding`, `argon2` -/

namespace fmt

/-- Go: `isSpace` of package `fmt`, the table of space characters. -/
def isSpace (r : Char) : Bool :=
  let n := r.toNat
  (0x09 ≤ n && n ≤ 0x0d) || n == 0x20 || n == 0x85 || n == 0xa0 || n == 0x1680 ||
    (0x2000 ≤ n && n ≤ 0x200a) || n == 0x2028 || n == 0x2029 || n == 0x202f ||
    n == 0x205f || n == 0x3000

/-- Go: `(*ss).SkipSpace` as `Sscanf` uses it (newlines are not spaces): it
skips spaces and stops with the error `unexpected newline` at a newline. -/
def SkipSpace : List Char → Except error (List Char)
  | [] => .ok []
  | c :: cs =>
    if c = '\n' then .error (error.New "unexpected newline")
    else if isSpace c then SkipSpace cs
    else .ok (c :: cs)

/-- Go: `(*ss).advance` on a stretch of the format without spaces and
verbs: every character of the format has to be the next character of the
input. -/
def advance : List Char → List Char → Except error (List Char)
  | [], input => .ok input
  | _ :: _, [] => .error (error.New "unexpected EOF")
  | f :: fs, c :: cs =>
    if f = c then advance fs cs else .error (error.New "input does not match format")

/-- A decimal digit. -/
def isDigit (c : Char) : Bool := '0' ≤ c && c ≤ '9'

/-- The digits at the head of the input, and the rest. -/
def takeDigits : List Char → List Char × List Char
  | [] => ([], [])
  | c :: cs =>
    if isDigit c then ((takeDigits cs).1.cons c, (takeDigits cs).2) else ([], c :: cs)

/-- The number a string of decimal digits denotes. -/
def decimalValue (ds : List Char) : Nat :=
  ds.foldl (fun n d => 10 * n + (d.toNat - '0'.toNat)) 0

/-- Go: `(*ss).scanNumber(digits, false)` for decimal digits: at least one
digit (`io.EOF` when the input has ended, `expected integer` otherwise), and
all the digits that follow. -/
def scanNumber : List Char → Except error (List Char × List Char)
  | [] => .error (error.New "EOF")
  | c :: cs =>
    if isDigit c then .ok (takeDigits (c :: cs)) else .error (error.New "expected integer")

/-- Go: `(*ss).scanInt('d', bitSize)`: spaces, an optional sign, a decimal
number; `strconv.ParseInt` rejects what does not fit 64 bits, and the
scanner what does not fit `bitSize` bits. -/
def scanInt (bitSize : Nat) (input : List Char) : Except error (Int × List Char) :=
  match SkipSpace input with
  | .error err => .error err
  | .ok [] => .error (error.New "EOF")
  | .ok (c :: cs) =>
    let negative := decide (c = '-')
    let rest := if c = '+' ∨ c = '-' then cs else c :: cs
    match scanNumber rest with
    | .error err => .error err
    | .ok (tok, rest) =>
      let v := decimalValue tok
      let i : Int := if negative then -(v : Int) else (v : Int)
      if i < -(2 ^ 63 : Int) ∨ (2 ^ 63 : Int) ≤ i then
        .error (error.New "strconv.ParseInt: value out of range")
      else if i < -(2 ^ (bitSize - 1) : Int) ∨ (2 ^ (bitSize - 1) : Int) ≤ i then
        .error (error.New "integer overflow")
      else .ok (i, rest)

/-- Go: `(*ss).scanUint('d', bitSize)`: spaces and a decimal number without
sign; `strconv.ParseUint` rejects what does not fit 64 bits, and the scanner
what does not fit `bitSize` bits. -/
def scanUint (bitSize : Nat) (input : List Char) : Except error (Nat × List Char) :=
  match SkipSpace input with
  | .error err => .error err
  | .ok rest =>
    match scanNumber rest with
    | .error err => .error err
    | .ok (tok, rest) =>
      let v := decimalValue tok
      if 2 ^ 64 ≤ v then .error (error.New "strconv.ParseUint: value out of range")
      else if 2 ^ bitSize ≤ v then .error (error.New "unsigned integer overflow")
      else .ok (v, rest)

/-- Go: `fmt.Sscanf(str, "v=%d", &version)` with `version` an `int` (64
bits): the scanned version, or the error.  Input after the number is not
looked at. -/
def Sscanf_v (str : String) : Except error Int :=
  match advance "v=".toList str.toList with
  | .error err => .error err
  | .ok rest =>
    match SkipSpace rest with
    | .error err => .error err
    | .ok rest =>
      match scanInt 64 rest with
      | .error err => .error err
      | .ok (version, _) => .ok version

/-- Go: `fmt.Sscanf(str, "m=%d,t=%d,p=%d", &memory, &iterations, &parallelism)`
with `memory` and `iterations` of type `uint32` and `parallelism` of type
`uint8`: the three scanned numbers, or the error. -/
def Sscanf_mtp (str : String) : Except error (Nat × Nat × Nat) :=
  match advance "m=".toList str.toList with
  | .error err => .error err
  | .ok rest =>
    match SkipSpace rest with
    | .error err => .error err
    | .ok rest =>
      match scanUint 32 rest with
      | .error err => .error err
      | .ok (memory, rest) =>
        match advance ",t=".toList rest with
        | .error err => .error err
        | .ok rest =>
          match SkipSpace rest with
          | .error err => .error err
          | .ok rest =>
            match scanUint 32 rest with
            | .error err => .error err
            | .ok (iterations, rest) =>
              match advance ",p=".toList rest with
              | .error err => .error err
              | .ok rest =>
                match SkipSpace rest with
                | .error err => .error err
                | .ok rest =>
                  match scanUint 8 rest with
                  | .error err => .error err
                  | .ok (parallelism, _) => .ok (memory, iterations, parallelism)

/-- Go: the verb `%d` of `fmt.Sprintf` on an unsigned number. -/
def formatDecimal (n : Nat) : String := Nat.repr n

end fmt

namespace base64

/-- The alphabet of `base64.StdEncoding`. -/
def encodeStd : List Char :=
  "ABCDEFGHIJKLMNOPQRSTUVWXYZabcdefghijklmnopqrstuvwxyz0123456789+/".toList

/-- The six-bit values of the encoding of a byte sequence without padding:
four for three bytes, three for two bytes at the end, two for one. -/
def sextets : List Nat → List Nat
  | a :: b :: c :: rest =>
    let val := (a % 256) * 65536 + (b % 256) * 256 + c % 256
    (val / 262144 % 64) :: (val / 4096 % 64) :: (val / 64 % 64) :: (val % 64) :: sextets rest
  | [a, b] =>
    let val := (a % 256) * 65536 + (b % 256) * 256
    [val / 262144 % 64, val / 4096 % 64, val / 64 % 64]
  | [a] =>
    let val := (a % 256) * 65536
    [val / 262144 % 64, val / 4096 % 64]
  | [] => []

/-- Go: `base64.RawStdEncoding.EncodeToString(bytes)`. -/
def RawStdEncoding.EncodeToString (bytes : List Nat) : String :=
  String.mk ((sextets bytes).map (fun v => encodeStd.getD v 'A'))

/-- The decode map of `base64.StdEncoding`: the six-bit value of a
character of the alphabet. -/
def decodeMapStd (c : Char) : Option Nat :=
  if encodeStd.indexOf c < 64 then some (encodeStd.indexOf c) else none

/-- The six-bit values of the characters of an encoded string: `\r` and
`\n` are skipped, and a character outside the alphabet is an error. -/
def decodeValues : List Char → Except error (List Nat)
  | [] => .ok []
  | c :: cs =>
    if c = '\n' ∨ c = '\r' then decodeValues cs
    else
      match decodeMapStd c with
      | none => .error (error.New "illegal base64 data")
      | some v =>
        match decodeValues cs with
        | .error err => .error err
        | .ok vs => .ok (v :: vs)

/-- The bytes of a sequence of six-bit values, without padding: three for
four values, two for three values at the end, one for two; one value left
over is an error. -/
def decodeQuanta : List Nat → Except error (List Nat)
  | a :: b :: c :: d :: rest =>
    let val := a * 262144 + b * 4096 + c * 64 + d
    match decodeQuanta rest with
    | .error err => .error err
    | .ok bytes => .ok ((val / 65536 % 256) :: (val / 256 % 256) :: (val % 256) :: bytes)
  | [a, b, c] =>
    let val := a * 262144 + b * 4096 + c * 64
    .ok [val / 65536 % 256, val / 256 % 256]
  | [a, b] =>
    let val := a * 262144 + b * 4096
    .ok [val / 65536 % 256]
  | [_] => .error (error.New "illegal base64 data")
  | [] => .ok []

/-- Go: `base64.RawStdEncoding.DecodeString(s)`. -/
def RawStdEncoding.DecodeString (s : String) : Except error (List Nat) :=
  match decodeValues s.toList with
  | .error err => .error err
  | .ok vs => decodeQuanta vs

end base64

namespace argon2

/-- Go: `argon2.Version`, `0x13`. -/
def Version : Nat := 19

/-- Go: the key derivation of `golang.org/x/crypto/argon2`, a library
outside the sources.  `derive password salt time memory threads keyLen` is
the key `argon2.IDKey` returns, of `keyLen` bytes; `panics time memory
threads keyLen` tells whether the call panics instead.  The library panics
when `time < 1` (`argon2: number of rounds too small`) and when
`threads < 1` (`argon2: parallelism degree too low`), and returns when
`time`, `threads` and `keyLen` are all at least 1. -/
structure KDF where
  derive : String → List Nat → Nat → Nat → Nat → Nat → List Nat
  panics : Nat → Nat → Nat → Nat → Bool
  derive_length : ∀ password salt time memory threads keyLen,
    (derive password salt time memory threads keyLen).length = keyLen
  derive_bytes : ∀ password salt time memory threads keyLen,
    ∀ b ∈ derive password salt time memory threads keyLen, b < 256
  panics_time : ∀ memory threads keyLen, panics 0 memory threads keyLen = true
  panics_threads : ∀ time memory keyLen, panics time memory 0 keyLen = true
  returns_normally : ∀ time memory threads keyLen,
    1 ≤ time → 1 ≤ threads → 1 ≤ keyLen → panics time memory threads keyLen = false

/-- Go: `argon2.IDKey([]byte(password), salt, time, memory, threads, keyLen)`. -/
def IDKey (kdf : KDF) (password : String) (salt : List Nat) (time memory threads keyLen : Nat) :
    MayPanic (List Nat) :=
  if kdf.panics time memory threads keyLen then .panicked
  else .returned (kdf.derive password salt time memory threads keyLen)

end argon2

/-- Go: `subtle.ConstantTimeCompare(x, y)`: 1 when the two slices have the
same length and contents, 0 otherwise. -/
def subtle.ConstantTimeCompare (x y : List Nat) : Nat := if x = y then 1 else 0

/-! ## `app/shared/auth/password.go` -/

namespace auth

/-- Go: `ErrInvalidHash = errors.New("invalid hash format")`. -/
def ErrInvalidHash : error := error.New "invalid hash format"

/-- Go: `ErrIncompatibleVersion = errors.New("incompatible version")`. -/
def ErrIncompatibleVersion : error := error.New "incompatible version"

/-- Go: `type PasswordHasher struct` (`uint32` and `uint8` fields). -/
structure PasswordHasher where
  memory : Nat
  iterations : Nat
  parallelism : Nat
  saltLength : Nat
  keyLength : Nat
  deriving DecidableEq, Repr

/-- Go: `func NewPasswordHasher() *PasswordHasher`. -/
def NewPasswordHasher : PasswordHasher :=
  { memory := 64 * 1024
    iterations := 3
    parallelism := 2
    saltLength := 16
    keyLength := 32 }

/-- Go: `func (h *PasswordHasher) HashPassword(password string) (string, error)`.
`randRead` is what `rand.Read(salt)` does to the buffer of `h.saltLength`
bytes: an error, or the bytes read. -/
def PasswordHasher.HashPassword (kdf : argon2.KDF) (h : PasswordHasher)
    (randRead : Except error (List Nat)) (password : String) : MayPanic (String × error) :=
  match randRead with
  | .error err => .returned ("", err)
  | .ok salt =>
    match argon2.IDKey kdf password salt h.iterations h.memory h.parallelism h.keyLength with
    | .panicked => .panicked
    | .returned hash =>
      let b64Salt := base64.RawStdEncoding.EncodeToString salt
      let b64Hash := base64.RawStdEncoding.EncodeToString hash
      .returned
        ("$argon2id$v=" ++ fmt.formatDecimal argon2.Version ++
          "$m=" ++ fmt.formatDecimal h.memory ++
          ",t=" ++ fmt.formatDecimal h.iterations ++
          ",p=" ++ fmt.formatDecimal h.parallelism ++
          "$" ++ b64Salt ++ "$" ++ b64Hash,
         error.nil)

/-- Go: `func (h *PasswordHasher) VerifyPassword(password, encodedHash string) (bool, error)`. -/
def PasswordHasher.VerifyPassword (kdf : argon2.KDF) (_h : PasswordHasher)
    (password encodedHash : String) : MayPanic (Bool × error) :=
  let parts := strings.Split encodedHash '$'
  if parts.length ≠ 6 then .returned (false, ErrInvalidHash)
  else if parts.getD 1 "" ≠ "argon2id" then .returned (false, ErrInvalidHash)
  else
    match fmt.Sscanf_v (parts.getD 2 "") with
    | .error err => .returned (false, err)
    | .ok version =>
      if version ≠ (argon2.Version : Int) then .returned (false, ErrIncompatibleVersion)
      else
        match fmt.Sscanf_mtp (parts.getD 3 "") with
        | .error err => .returned (false, err)
        | .ok (memory, iterations, parallelism) =>
          match base64.RawStdEncoding.DecodeString (parts.getD 4 "") with
          | .error err => .returned (false, err)
          | .ok salt =>
            match base64.RawStdEncoding.DecodeString (parts.getD 5 "") with
            | .error err => .returned (false, err)
            | .ok hash =>
              match argon2.IDKey kdf password salt iterations memory parallelism hash.length with
              | .panicked => .panicked
              | .returned otherHash =>
                if subtle.ConstantTimeCompare hash otherHash = 1 then .returned (true, error.nil)
                else .returned (false, error.nil)

end auth

/-! ## `app/domain/user/repository.go` and `app/application/user/service.go` -/

namespace domain.user

/-- Go: `type Repository interface`, the three methods the authentication
service reaches, acting on a store of type `σ`.  `FindByEmail` returns the
user or an error; `Create` returns an error or the id the store assigned,
which the implementation of the persistence package writes to `u.ID`;
`UpdateLastLogin` returns its error (`nil` when there is none). -/
structure Repository (σ : Type) where
  FindByEmail : String → σ → Except error User
  Create : User → σ → Except error Int × σ
  UpdateLastLogin : Int → σ → error × σ

end domain.user

namespace application.user

open domain.user

/-- Go: `type Service struct` of the user application package. -/
structure Service (σ : Type) where
  repo : Repository σ

/-- Go: `func (s *Service) GetUserByEmail(email string) (*user.User, error)`. -/
def Service.GetUserByEmail {σ : Type} (s : Service σ) (email : String) (db : σ) :
    Except error User :=
  match s.repo.FindByEmail email db with
  | .error err => .error (errors.Wrap err errors.ErrCodeNotFound "User not found" 404)
  | .ok u => .ok u

/-- Go: `func (s *Service) CreateUser(u *user.User) error`: the error
returned, the user as the call leaves it, and the store.  `now` is the
reading of `time.Now()`. -/
def Service.CreateUser {σ : Type} (s : Service σ) (u : User) (now : Time) (db : σ) :
    (error × User) × σ :=
  match s.repo.FindByEmail u.Email db with
  | .ok _ => ((errors.NewConflict "User with this email already exists", u), db)
  | .error _ =>
    let u := if u.Role = "" then { u with Role := RoleViewer } else u
    let u := { u with CreatedAt := now, UpdatedAt := now, IsActive := true }
    match s.repo.Create u db with
    | (.error err, db) => ((err, u), db)
    | (.ok id, db) => ((error.nil, { u with ID := id }), db)

/-- Go: `func (s *Service) UpdateLastLogin(id int) error`. -/
def Service.UpdateLastLogin {σ : Type} (s : Service σ) (id : Int) (db : σ) : error × σ :=
  s.repo.UpdateLastLogin id db

end application.user

/-! ## `app/application/auth/service.go` -/

namespace application.auth

open domain.user

/-- Go: `type Service struct` of the authentication package. -/
structure Service (σ : Type) where
  userService : application.user.Service σ
  jwtManager : auth.JWTManager
  hasher : auth.PasswordHasher

/-- Go: `func NewService(userService, jwtSecret, tokenDuration) *Service`,
with the token manager `auth.NewJWTManager(jwtSecret, tokenDuration)` passed
in. -/
def NewService {σ : Type} (userService : application.user.Service σ)
    (jwtManager : auth.JWTManager) : Service σ :=
  { userService := userService
    jwtManager := jwtManager
    hasher := auth.NewPasswordHasher }

/-- Go: `type LoginRequest struct`. -/
structure LoginRequest where
  Email : String
  Password : String
  deriving DecidableEq, Repr

/-- Go: `type LoginResponse struct`. -/
structure LoginResponse where
  Token : String
  User : User
  deriving DecidableEq, Repr

/-- Go: `func (s *Service) Login(req *LoginRequest) (*LoginResponse, error)`:
the response or the error, and the store afterwards. -/
def Service.Login {σ : Type} (kdf : argon2.KDF) (s : Service σ) (req : LoginRequest) (db : σ) :
    MayPanic (Except error LoginResponse × σ) :=
  match s.userService.GetUserByEmail req.Email db with
  | .error _ => .returned (.error (errors.NewUnauthorized "Invalid credentials"), db)
  | .ok u =>
    if !u.IsActive then
      .returned (.error (errors.NewForbidden "User account is inactive"), db)
    else
      match s.hasher.VerifyPassword kdf req.Password u.PasswordHash with
      | .panicked => .panicked
      | .returned (valid, err) =>
        if err ≠ error.nil then
          .returned (.error (errors.NewInternal "Failed to verify password" err), db)
        else if !valid then
          .returned (.error (errors.NewUnauthorized "Invalid credentials"), db)
        else
          match s.jwtManager.GenerateToken u.ID u.Email u.Role with
          | .error err =>
            .returned (.error (errors.NewInternal "Failed to generate token" err), db)
          | .ok token =>
            let (_, db) := s.userService.UpdateLastLogin u.ID db
            .returned (.ok { Token := token, User := u }, db)

/-- Go: `type RegisterRequest struct`. -/
structure RegisterRequest where
  Email : String
  Password : String
  Name : String
  Role : String := ""
  deriving DecidableEq, Repr

/-- The role `Register` determines from the requested one. -/
def registerRole (requested : String) : Role :=
  if requested ≠ "" then
    if requested = "admin" then RoleAdmin
    else if requested = "editor" then RoleEditor
    else if requested = "author" then RoleAuthor
    else RoleViewer
  else RoleViewer

/-- Go: `func (s *Service) Register(req *RegisterRequest) (*user.User, error)`:
the user or the error, and the store afterwards.  `randRead` is the outcome
of `rand.Read` in `HashPassword` and `now` the reading of `time.Now()` in
`CreateUser`. -/
def Service.Register {σ : Type} (kdf : argon2.KDF) (s : Service σ)
    (randRead : Except error (List Nat)) (now : Time) (req : RegisterRequest) (db : σ) :
    MayPanic (Except error User × σ) :=
  match s.userService.GetUserByEmail req.Email db with
  | .ok _ => .returned (.error (errors.NewConflict "User with this email already exists"), db)
  | .error _ =>
    match s.hasher.HashPassword kdf randRead req.Password with
    | .panicked => .panicked
    | .returned (passwordHash, err) =>
      if err ≠ error.nil then
        .returned (.error (errors.NewInternal "Failed to hash password" err), db)
      else
        let role := registerRole req.Role
        let newUser : User :=
          { Email := req.Email
            PasswordHash := passwordHash
            Name := req.Name
            Role := role
            IsActive := true }
        match s.userService.CreateUser newUser now db with
        | ((err, newUser), db) =>
          if err ≠ error.nil then
            .returned (.error (errors.NewInternal "Failed to create user" err), db)
          else .returned (.ok newUser, db)

end application.auth

/-! ## `config/config.go` -/

namespace config

/-- Go: `type Config struct`; `MaxUploadSize` is an `int64` and
`JWTExpiration` a `time.Duration` (nanoseconds). -/
structure Config where
  ServerPort : String := ""
  BaseURL : String := ""
  Environment : String := ""
  UseHTTPS : Bool := false
  DBPath : String := ""
  UploadDir : String := ""
  MaxUploadSize : Int := 0
  JWTSecret : String := ""
  JWTExpiration : Int := 0
  SiteName : String := ""
  SiteDescription : String := ""
  AllowedOrigins : List String := []
  deriving DecidableEq, Repr

/-- Go: `func (c *Config) IsDevelopment() bool`. -/
def Config.IsDevelopment (c : Config) : Bool :=
  c.Environment == "development" || c.Environment == "dev"

/-- Go: `func (c *Config) IsProduction() bool`. -/
def Config.IsProduction (c : Config) : Bool :=
  c.Environment == "production" || c.Environment == "prod"

/-- Go: `func (c *Config) GetCookieSecure() bool`. -/
def Config.GetCookieSecure (c : Config) : Bool :=
  c.UseHTTPS || c.IsProduction

end config

/-! ## `errors.As`, `AsAppError` and `app/interfaces/http/middleware/error_handler.go` -/

/-- Go: the field `Code` of an `*AppError`. -/
def error.Code : error → String
  | .AppError Code _ _ _ => Code
  | _ => ""

/-- Go: the field `Message` of an `*AppError`. -/
def error.Message : error → String
  | .AppError _ Message _ _ => Message
  | _ => ""

/-- Go: the field `HTTPStatus` of an `*AppError`. -/
def error.HTTPStatus : error → Int
  | .AppError _ _ HTTPStatus _ => HTTPStatus
  | _ => 0

/-- Go: the field `Err` of an `*AppError`. -/
def error.Err : error → error
  | .AppError _ _ _ Err => Err
  | _ => error.nil

namespace errors

/-- Go: `errors.As(err, &appErr)` of the standard library with a target of
type `*AppError`: the error itself when it is an `*AppError`, otherwise the
search goes on in what `Unwrap()` returns (`fmt.Errorf` with `%w` and
`AppError.Unwrap` unwrap, an error of `errors.New` does not); `none` is the
result `false`. -/
def As : error → Option error
  | .nil => none
  | .New _ => none
  | .Errorf _ err => As err
  | .AppError Code Message HTTPStatus Err => some (.AppError Code Message HTTPStatus Err)

/-- Go: `func IsAppError(err error) bool`. -/
def IsAppError (err : error) : Bool :=
  (As err).isSome

/-- Go: `func AsAppError(err error) *AppError`. -/
def AsAppError (err : error) : error :=
  match As err with
  | some appErr => appErr
  | none => NewInternal "Unexpected error" err

def ErrNotFound : error := New ErrCodeNotFound "Resource not found" http.StatusNotFound
def ErrUnauthorized : error := New ErrCodeUnauthorized "Unauthorized" http.StatusUnauthorized
def ErrForbidden : error := New ErrCodeForbidden "Forbidden" http.StatusForbidden
def ErrInternal : error :=
  New ErrCodeInternal "Internal server error" http.StatusInternalServerError
def ErrBadRequest : error := New ErrCodeBadRequest "Bad request" http.StatusBadRequest
def ErrConflict : error := New ErrCodeConflict "Resource conflict" http.StatusConflict

end errors

/-- Go: the check that `w.WriteHeader(code)` of `net/http` makes first
(`checkWriteHeaderCode`): a code below 100 or above 999 makes the call
panic. -/
def http.validWriteHeaderCode (code : Int) : Bool :=
  decide (100 ≤ code ∧ code ≤ 999)

namespace middleware

/-- Go: `func handleError(w http.ResponseWriter, statusCode int, err error, cfg *config.Config)`.
The two `log.Printf` calls write to the process log and not to the response
writer; they leave no trace in the state.  The call panics in
`w.WriteHeader` when the status of the error is not a code that `net/http`
accepts. -/
def handleError (statusCode : Int) (err : error) (cfg : config.Config) (s : World) :
    MayPanic World :=
  let appErr :=
    if err ≠ error.nil then errors.AsAppError err
    else if statusCode = http.StatusNotFound then errors.ErrNotFound
    else if statusCode = http.StatusUnauthorized then errors.ErrUnauthorized
    else if statusCode = http.StatusForbidden then errors.ErrForbidden
    else if statusCode = http.StatusInternalServerError then errors.ErrInternal
    else errors.New errors.ErrCodeInternal "An error occurred" statusCode
  let errorMessage :=
    if cfg.IsProduction && decide (statusCode ≥ 500) then "An internal error occurred"
    else appErr.Message
  let s := s.write [WriterCall.HeaderSet "Content-Type" "application/json"]
  if http.validWriteHeaderCode appErr.HTTPStatus then
    MayPanic.returned (s.write
      [ WriterCall.WriteHeader appErr.HTTPStatus.toNat,
        WriterCall.JSONEncode
          (JSONValue.obj
            [("error", JSONValue.obj
              [("code", JSONValue.str appErr.Code), ("message", JSONValue.str errorMessage)])]) ])
  else MayPanic.panicked

/-- Go: `func ErrorResponse(w http.ResponseWriter, err error, cfg *config.Config)`. -/
def ErrorResponse (err : error) (cfg : config.Config) (s : World) : MayPanic World :=
  let appErr := errors.AsAppError err
  handleError appErr.HTTPStatus err cfg s

end middleware

/-! ## `app/interfaces/http/controller/auth_controller.go`: the session cookie -/

/-- Go: `http.Cookie`, with the fields the handlers set. -/
structure http.Cookie where
  Name : String := ""
  Value : String := ""
  Path : String := ""
  MaxAge : Int := 0
  HttpOnly : Bool := false
  Secure : Bool := false
  SameSite : String := ""
  deriving DecidableEq, Repr

def http.SameSiteStrictMode : String := "Strict"

namespace controller

/-- Go: `type AuthController struct`, the field the cookie is built from. -/
structure AuthController where
  config : config.Config

/-- Go: the `&http.Cookie` literal that `AuthController.Login` hands to
`http.SetCookie` once the login succeeded, `token` being `response.Token`. -/
def AuthController.loginCookie (c : AuthController) (token : String) : http.Cookie :=
  { Name := "auth_token",
    Value := token,
    Path := "/",
    HttpOnly := true,
    Secure := c.config.GetCookieSecure,
    SameSite := http.SameSiteStrictMode }

end controller

/-! ## Collaborators outside the repository: `unicode`, `unicode/utf8`, `path/filepath`, `io`, `mime` -/

namespace unicode

def MaxASCII : Nat := 0x7F
def MaxLatin1 : Nat := 0xFF

/-- Go: the tables of package `unicode` above the fast paths of its
predicates: `isExcludingLatin(Letter, r)`, `isExcludingLatin(Number, r)`,
`isExcludingLatin(Digit, r)` and `isExcludingLatin(White_Space, r)` for a
rune above Latin-1, and `To(LowerCase, r)` for a rune above ASCII. -/
structure Tables where
  Letter : Char → Bool
  Number : Char → Bool
  Digit : Char → Bool
  White_Space : Char → Bool
  LowerCase : Char → Char

/-- Go: `properties[uint8(r)]&(pLmask) != 0`, the letters of Latin-1. -/
def latin1Letter (v : Nat) : Bool :=
  (0x41 ≤ v && v ≤ 0x5A) || (0x61 ≤ v && v ≤ 0x7A) || v == 0xAA || v == 0xB5 || v == 0xBA ||
    (0xC0 ≤ v && v ≤ 0xD6) || (0xD8 ≤ v && v ≤ 0xF6) || (0xF8 ≤ v && v ≤ 0xFF)

/-- Go: `properties[uint8(r)]&pN != 0`, the numbers of Latin-1. -/
def latin1Number (v : Nat) : Bool :=
  (0x30 ≤ v && v ≤ 0x39) || v == 0xB2 || v == 0xB3 || v == 0xB9 || v == 0xBC || v == 0xBD ||
    v == 0xBE

/-- Go: `func IsLetter(r rune) bool`. -/
def IsLetter (t : Tables) (r : Char) : Bool :=
  if r.toNat ≤ MaxLatin1 then latin1Letter r.toNat else t.Letter r

/-- Go: `func IsNumber(r rune) bool`. -/
def IsNumber (t : Tables) (r : Char) : Bool :=
  if r.toNat ≤ MaxLatin1 then latin1Number r.toNat else t.Number r

/-- Go: `func IsDigit(r rune) bool`: in Latin-1 the decimal digits `0` to `9`. -/
def IsDigit (t : Tables) (r : Char) : Bool :=
  if r.toNat ≤ MaxLatin1 then decide ('0'.toNat ≤ r.toNat ∧ r.toNat ≤ '9'.toNat) else t.Digit r

/-- Go: `func IsSpace(r rune) bool`: in Latin-1 the runes `\t`, `\n`,
`\v`, `\f`, `\r`, the space, U+0085 and U+00A0. -/
def IsSpace (t : Tables) (r : Char) : Bool :=
  if r.toNat ≤ MaxLatin1 then
    r.toNat == 0x09 || r.toNat == 0x0A || r.toNat == 0x0B || r.toNat == 0x0C ||
      r.toNat == 0x0D || r.toNat == 0x20 || r.toNat == 0x85 || r.toNat == 0xA0
  else t.White_Space r

/-- Go: `func ToLower(r rune) rune`. -/
def ToLower (t : Tables) (r : Char) : Char :=
  if r.toNat ≤ MaxASCII then
    if 'A'.toNat ≤ r.toNat ∧ r.toNat ≤ 'Z'.toNat then Char.ofNat (r.toNat + ('a'.toNat - 'A'.toNat))
    else r
  else t.LowerCase r

end unicode

namespace utf8

/-- Go: `utf8.AppendRune(nil, r)`, the bytes of a rune in a string. -/
def EncodeRune (r : Char) : List Nat :=
  let v := r.toNat
  if v ≤ 0x7F then [v]
  else if v ≤ 0x7FF then [0xC0 + v / 64, 0x80 + v % 64]
  else if v ≤ 0xFFFF then [0xE0 + v / 4096, 0x80 + v / 64 % 64, 0x80 + v % 64]
  else [0xF0 + v / 262144, 0x80 + v / 4096 % 64, 0x80 + v / 64 % 64, 0x80 + v % 64]

/-- The bytes of a Go string given by its runes. -/
def bytes : List Char → List Nat
  | [] => []
  | r :: rest => EncodeRune r ++ bytes rest

end utf8

namespace filepath

/-- Go: `func Base(path string) string` with the separator `/`: the
trailing separators are stripped and the last element is returned, `.` for
the empty path and `/` for a path of separators only. -/
def Base (path : String) : String :=
  if path = "" then "."
  else
    let stripped := path.toList.reverse.dropWhile (fun c => c == '/')
    let last := stripped.takeWhile (fun c => c != '/')
    if last = [] then "/" else String.mk last.reverse

/-- Go: the loop of `Ext`, from the last byte backwards; `seen` holds the
bytes passed so far, in order. -/
def Ext.scan : List Char → List Char → List Char
  | [], _ => []
  | c :: rest, seen =>
    if c = '/' then []
    else if c = '.' then c :: seen
    else Ext.scan rest (c :: seen)

/-- Go: `func Ext(path string) string`: the suffix of the last element that
starts at its last dot, empty when there is none. -/
def Ext (path : String) : String :=
  String.mk (Ext.scan path.toList.reverse [])

end filepath

namespace io

/-- Go: `io.EOF`. -/
def EOF : error := error.New "EOF"

/-- Go: an `io.Reader` as `ValidateMimeType` uses it, for one call of
`Read(p)`: given `len(p)`, the bytes put into `p` (`p[:n]`) and the error. -/
structure Reader where
  Read : Nat → List Nat × error

end io

/-! ## `app/shared/upload/security.go` -/

namespace upload

/-- Go: `func detectContentType(content []byte) string`. -/
def detectContentType (content : List Nat) : String :=
  let at_ := fun (i : Nat) => content.getD i 0
  if content.length = 0 then "application/octet-stream"
  else if content.length ≥ 2 ∧ at_ 0 = 0xFF ∧ at_ 1 = 0xD8 then "image/jpeg"
  else if content.length ≥ 2 ∧ content.length ≥ 4 ∧ at_ 0 = 0x89 ∧ at_ 1 = 0x50 ∧
      at_ 2 = 0x4E ∧ at_ 3 = 0x47 then "image/png"
  else if content.length ≥ 2 ∧ content.length ≥ 4 ∧ at_ 0 = 0x47 ∧ at_ 1 = 0x49 ∧
      at_ 2 = 0x46 ∧ at_ 3 = 0x38 then "image/gif"
  else if content.length ≥ 4 ∧ content.take 4 = utf8.bytes "%PDF".toList then "application/pdf"
  else "application/octet-stream"

/-- Go: `func SanitizeFilename(filename string) string`.  The argument is
given by its runes (a byte that is not valid UTF-8 reads as U+FFFD in the
`range` loop, and the byte-wise steps before it look for ASCII bytes only);
the result is given by its bytes, since the slice expression
`sanitized[:255-len(ext)]` cuts at a byte offset, and the call panics when
that offset is negative. -/
def SanitizeFilename (t : unicode.Tables) (filename : String) : MayPanic (List Nat) :=
  let filename := filepath.Base filename
  let filename := filename.toList.filter (fun c => c != '/')
  let filename := filename.filter (fun c => c != '\\')
  let filename := filename.filter (fun c => c != Char.ofNat 0)
  let result := filename.filter (fun r =>
    unicode.IsLetter t r || unicode.IsNumber t r || r == '.' || r == '-' || r == '_')
  let sanitized := if result = [] then "file".toList else result
  if (utf8.bytes sanitized).length > 255 then
    let ext := utf8.bytes (filepath.Ext (String.mk sanitized)).toList
    let high : Int := 255 - (ext.length : Int)
    if high < 0 ∨ high > ((utf8.bytes sanitized).length : Int) then MayPanic.panicked
    else MayPanic.returned ((utf8.bytes sanitized).take high.toNat ++ ext)
  else MayPanic.returned (utf8.bytes sanitized)

/-- Go: the slice `allowedTypes` of `ValidateMimeType`. -/
def allowedTypes : List String :=
  [ "image/jpeg", "image/png", "image/gif", "image/webp",
    "video/mp4", "video/webm",
    "application/pdf",
    "text/plain", "text/csv" ]

/-- Go: `func ValidateMimeType(content io.Reader, declaredMimeType string, filename string) (bool, error)`;
`TypeByExtension` is `mime.TypeByExtension`, whose table depends on the
host.  The `if` that compares the detected types with the declared one has
an empty body. -/
def ValidateMimeType (TypeByExtension : String → String) (content : io.Reader)
    (declaredMimeType : String) (filename : String) : Bool × error :=
  let (buffer, err) := content.Read 512
  if err ≠ error.nil ∧ err ≠ io.EOF then (false, err)
  else
    let detectedMimeType := detectContentType buffer
    let ext := filepath.Ext filename
    let extMimeType := TypeByExtension ext
    let declaredAllowed := allowedTypes.any (fun allowed => declaredMimeType == allowed)
    if !declaredAllowed then
      (false, error.New ("MIME type not allowed: " ++ declaredMimeType))
    else if detectedMimeType ≠ declaredMimeType ∧ extMimeType ≠ declaredMimeType then
      (true, error.nil)
    else (true, error.nil)

end upload

/-! ## `app/application/page/service.go`: slugs -/

namespace strings

/-- Go: `strings.ToLower(s)`: `unicode.ToLower` on every rune of the string. -/
def ToLower (t : unicode.Tables) (s : String) : String :=
  String.mk (s.toList.map (unicode.ToLower t))

/-- Go: `strings.Trim(s, cutset)` for a cutset of the one character `cut`:
the leading and the trailing occurrences of `cut` are removed. -/
def Trim (s : List Char) (cut : Char) : List Char :=
  (s.dropWhile (fun c => c == cut)).rdropWhile (fun c => c == cut)

/-- Go: `strings.Contains(s, substr)` for `substr` made of two characters `c`. -/
def ContainsDouble (c : Char) : List Char → Bool
  | [] => false
  | [_] => false
  | a :: b :: rest => (a == c && b == c) || ContainsDouble c (b :: rest)

/-- Go: `strings.ReplaceAll(s, old, new)` for `old` made of two characters
`c` and `new` of one: the occurrences are replaced from the left, without
overlap. -/
def ReplaceAllDouble (c : Char) : List Char → List Char
  | [] => []
  | [a] => [a]
  | a :: b :: rest =>
    if a = c ∧ b = c then c :: ReplaceAllDouble c rest
    else a :: ReplaceAllDouble c (b :: rest)

end strings

namespace page

def StatusDraft : String := "draft"
def StatusPublished : String := "published"
def StatusArchived : String := "archived"

/-- Go: the map literal `replacements` of `GenerateSlug`, by its entries. -/
def replacementEntries : List (Char × String) :=
  [ ('ç', "c"), ('ğ', "g"), ('ı', "i"), ('ö', "o"), ('ş', "s"), ('ü', "u"),
    ('Ç', "c"), ('Ğ', "g"), ('İ', "i"), ('Ö', "o"), ('Ş', "s"), ('Ü', "u") ]

/-- Go: `replacements[r]`, `none` when the rune is no key of the map. -/
def replacements (r : Char) : Option String :=
  replacementEntries.lookup r

/-- Go: the body of the `range` loop of `GenerateSlug`: what is written to
the builder for the rune `r`. -/
def GenerateSlug.write (t : unicode.Tables) (r : Char) : List Char :=
  match replacements r with
  | some replacement => replacement.toList
  | none =>
    if unicode.IsLetter t r || unicode.IsNumber t r then [r]
    else if unicode.IsSpace t r || r == '-' || r == '_' then ['-']
    else []

/-- Go: the `range` loop of `GenerateSlug`, with the content of the builder
so far. -/
def GenerateSlug.build (t : unicode.Tables) : List Char → List Char → List Char
  | [], result => result
  | r :: rest, result => GenerateSlug.build t rest (result ++ GenerateSlug.write t r)

/-- Go: the loop `for strings.Contains(slug, "--")` of `GenerateSlug`, run
for at most `fuel` rounds. -/
def GenerateSlug.collapse : Nat → List Char → List Char
  | 0, slug => slug
  | fuel + 1, slug =>
    if strings.ContainsDouble '-' slug then
      GenerateSlug.collapse fuel (strings.ReplaceAllDouble '-' slug)
    else slug

/-- Go: `func GenerateSlug(text string) string`.  The last loop is given as
many rounds as the slug has characters when the loop is entered. -/
def GenerateSlug (t : unicode.Tables) (text : String) : String :=
  let slug := strings.ToLower t text
  let result := GenerateSlug.build t slug.toList []
  let slug := strings.Trim result '-'
  String.mk (GenerateSlug.collapse slug.length slug)

/-- Go: `func (s *Service) ValidateSlug(slug string, excludeID int) error`. -/
def Service.ValidateSlug (t : unicode.Tables) (s : Service) (slug : String) (excludeID : Int) :
    error :=
  if slug = "" then error.New "slug cannot be empty"
  else if slug ≠ GenerateSlug t slug then error.New "slug contains invalid characters"
  else
    match s.repo.FindBySlug slug with
    | .ok existing =>
      if existing.ID ≠ excludeID then error.New "slug already exists" else error.nil
    | .error _ => error.nil

/-- Go: `func (s *Service) CreatePage(p *page.Page) error`: the page as the
call leaves it and the error; `Create` is the method `Create` of the
repository and `now` what `time.Now()` returns. -/
def Service.CreatePage (t : unicode.Tables) (_s : Service) (Create : Page → error) (now : Time)
    (p : Page) : Page × error :=
  let p := if p.Slug = "" then { p with Slug := GenerateSlug t p.Title } else p
  let p := { p with CreatedAt := now, UpdatedAt := now }
  let p := if p.Status = "" then { p with Status := StatusDraft } else p
  (p, Create p)

end page

/-! ## `app/interfaces/http/middleware/ratelimit.go` and the limiter of `github.com/go-chi/httprate` -/

/-- Go: `func (e *AppError) Error() string` and the `Error()` of the other
errors: the text of an error of `errors.New` or `fmt.Errorf`, and for an
`AppError` its message, followed by `: ` and the text of the wrapped error
when there is one. -/
def error.Error : error → String
  | .nil => "<nil>"
  | .New text => text
  | .Errorf text _ => text
  | .AppError _ Message _ Err =>
    match Err with
    | .nil => Message
    | _ => Message ++ ": " ++ error.Error Err

/-- Go: `time.Minute`, in nanoseconds. -/
def time.Minute : Nat := 60 * 1000000000

def http.StatusTooManyRequests : Nat := 429
def http.StatusPreconditionRequired : Nat := 428

namespace httprate

/-- Go: the counts that the limiter of `github.com/go-chi/httprate` keeps
in its `LimitCounter`: for a key and the start of a window, the number of
requests counted in that window.  The counter is read at the current and
the previous window only. -/
abbrev Counters := String → Time → Nat

/-- Go: `IncrementBy(key, currentWindow, amount)` of the `LimitCounter`. -/
def Counters.IncrementBy (counters : Counters) (key : String) (currentWindow : Time)
    (amount : Nat) : Counters :=
  fun k w => if k = key ∧ w = currentWindow then counters k w + amount else counters k w

/-- Go: `t.Truncate(d)`: the instant rounded down to a multiple of `d`. -/
def Truncate (t : Time) (d : Nat) : Time :=
  t - t % d

/-- Go: the first result of `Get(key, currentWindow, previousWindow)`, the
count of the window that holds `now`. -/
def currCount (windowLength : Nat) (counters : Counters) (key : String) (now : Time) : Nat :=
  counters key (Truncate now windowLength)

/-- Go: the second result of `Get(key, currentWindow, previousWindow)`, the
count of the window before the one that holds `now` (`currentWindow.Add(-windowLength)`),
zero when the clock has no such window. -/
def prevCount (windowLength : Nat) (counters : Counters) (key : String) (now : Time) : Nat :=
  if windowLength ≤ Truncate now windowLength then
    counters key (Truncate now windowLength - windowLength)
  else 0

/-- Go: `int(math.Round(rate))` for the rate of `calculateRate`,
`prevCount * (windowLength - diff) / windowLength + currCount` with `diff`
the time since the start of the current window: the count of the previous
window weighs by the part of it that the sliding window still covers.  The
rounding to the nearest integer (halves upwards) is computed on the
integers. -/
def rate (windowLength : Nat) (counters : Counters) (key : String) (now : Time) : Nat :=
  let diff := now - Truncate now windowLength
  currCount windowLength counters key now +
    (2 * prevCount windowLength counters key now * (windowLength - diff) + windowLength) /
      (2 * windowLength)

/-- Go: the decision of the limiter for one request of `key` at `now`, and
the counts afterwards: the request is rejected when the rate has reached
the limit (`rate+1 > limit`), and otherwise counted in the current window
and allowed. -/
def Allow (requestLimit windowLength : Nat) (counters : Counters) (key : String) (now : Time) :
    Bool × Counters :=
  if rate windowLength counters key now + 1 > requestLimit then (false, counters)
  else (true, counters.IncrementBy key (Truncate now windowLength) 1)

/-- Go: the middleware of
`httprate.Limit(requestLimit, windowLength, httprate.WithKeyFuncs(keyFunc))`,
on the counts of the limiter and the state of the request.  A request whose
key cannot be computed is answered with the error; a request over the limit
is answered with `Too Many Requests` and the handler is not run.  The clock
is read once, and the informative headers that the library sets
(`X-RateLimit-Limit` and the like, `Retry-After`) are left out of the log. -/
def Limit (requestLimit windowLength : Nat) (keyFunc : Request → String × error)
    (next : Handler) (r : Request) (st : Counters × World) : Counters × World :=
  let (key, err) := keyFunc r
  if err ≠ error.nil then
    (st.1, st.2.write [WriterCall.Error err.Error http.StatusPreconditionRequired])
  else
    let (now, s) := st.2.timeNow
    let (allowed, counters) := Allow requestLimit windowLength st.1 key now
    if allowed then (counters, next r s)
    else (counters, s.write [WriterCall.Error "Too Many Requests" http.StatusTooManyRequests])

end httprate

namespace middleware

/-- Go: the key function that `RateLimit` hands to `httprate.WithKeyFuncs`;
`KeyByIP` is `httprate.KeyByIP`. -/
def RateLimit.keyFunc (KeyByIP : Request → String × error) (r : Request) : String × error :=
  let (ip, err) := KeyByIP r
  if err ≠ error.nil then ("", err) else (ip, error.nil)

/-- Go: `func RateLimit(requestsPerMinute int) func(http.Handler) http.Handler`. -/
def RateLimit (KeyByIP : Request → String × error) (requestsPerMinute : Nat) (next : Handler) :
    Request → httprate.Counters × World → httprate.Counters × World :=
  httprate.Limit requestsPerMinute (1 * time.Minute) (RateLimit.keyFunc KeyByIP) next

/-- Go: `func RateLimitAuth() func(http.Handler) http.Handler`. -/
def RateLimitAuth (KeyByIP : Request → String × error) (next : Handler) :
    Request → httprate.Counters × World → httprate.Counters × World :=
  RateLimit KeyByIP 5 next

/-- Go: `func RateLimitAPI() func(http.Handler) http.Handler`. -/
def RateLimitAPI (KeyByIP : Request → String × error) (next : Handler) :
    Request → httprate.Counters × World → httprate.Counters × World :=
  RateLimit KeyByIP 60 next

end middleware

/-! ## `app/shared/auth`: the token manager, after the specification -/

namespace auth

/-- Modelled from the spec: the content of a token of the token manager
(`app/shared/auth/jwt.go` is not among the sources), after
`Claims: { userID, email, role, issuedAt, expiresAt }`, `embedded (signed)
inside a token string`. -/
structure TokenClaims where
  UserID : Int
  Email : String
  Role : String
  IssuedAt : Time
  ExpiresAt : Time
  deriving DecidableEq, Repr

/-- Modelled from the spec: the armour of one character of a field of a
token: two characters, none of them the dot that separates the parts of a
token, the bar that separates the fields, or the space. -/
def armourChar (c : Char) : List Char :=
  if c = '.' then ['1', 'a']
  else if c = '|' then ['1', 'b']
  else if c = ' ' then ['1', 'c']
  else ['0', c]

/-- Modelled from the spec: the armour of a field of a token. -/
def armour : List Char → List Char
  | [] => []
  | c :: rest => armourChar c ++ armour rest

/-- Modelled from the spec: the character that two characters of an
armoured field stand for. -/
def unarmourPair (m c : Char) : Option Char :=
  if m = '0' then
    if c = '.' ∨ c = '|' ∨ c = ' ' then none else some c
  else if m = '1' then
    if c = 'a' then some '.'
    else if c = 'b' then some '|'
    else if c = 'c' then some ' '
    else none
  else none

/-- Modelled from the spec: reading an armoured field back. -/
def unarmour : List Char → Option (List Char)
  | [] => some []
  | [_] => none
  | m :: c :: rest =>
    match unarmourPair m c, unarmour rest with
    | some x, some xs => some (x :: xs)
    | _, _ => none

/-- Modelled from the spec: the decimal digits of a number, the lowest
first; `fuel` bounds their count. -/
def digitsOf : Nat → Nat → List Nat
  | 0, _ => []
  | fuel + 1, n => if n < 10 then [n] else n % 10 :: digitsOf fuel (n / 10)

/-- Modelled from the spec: the number of a list of decimal digits, the
lowest first. -/
def natOfDigits : List Nat → Nat
  | [] => 0
  | d :: ds => d + 10 * natOfDigits ds

/-- Modelled from the spec: a number in a token, in decimal. -/
def natChars (n : Nat) : List Char :=
  ((digitsOf (n + 1) n).map (fun d => Char.ofNat (48 + d))).reverse

/-- Modelled from the spec: reading a decimal number of a token. -/
def charsNat (l : List Char) : Option Nat :=
  if l ≠ [] ∧ l.all (fun c => decide (48 ≤ c.toNat ∧ c.toNat ≤ 57)) = true then
    some (natOfDigits (l.reverse.map (fun c => c.toNat - 48)))
  else none

/-- Modelled from the spec: the user id in a token, in decimal with a
leading `-` when negative. -/
def intChars (i : Int) : List Char :=
  if i < 0 then '-' :: natChars i.natAbs else natChars i.natAbs

/-- Modelled from the spec: reading the user id of a token. -/
def charsInt (l : List Char) : Option Int :=
  match l with
  | [] => none
  | c :: rest =>
    if c = '-' then (charsNat rest).map (fun n => -Int.ofNat n)
    else (charsNat (c :: rest)).map (fun n => Int.ofNat n)

/-- Modelled from the spec: the serialisation of the claims of a token: the
five fields, armoured and separated by bars. -/
def encodeClaims (c : TokenClaims) : String :=
  String.mk (armour (intChars c.UserID) ++ '|' :: (armour c.Email.toList ++ '|' ::
    (armour c.Role.toList ++ '|' :: (armour (natChars c.IssuedAt) ++ '|' ::
      armour (natChars c.ExpiresAt)))))

/-- Modelled from the spec: reading the claims of a token back. -/
def decodeClaims (payload : String) : Option TokenClaims :=
  match strings.splitChars '|' payload.toList with
  | [f1, f2, f3, f4, f5] =>
    match (unarmour f1).bind charsInt, unarmour f2, unarmour f3,
      (unarmour f4).bind charsNat, (unarmour f5).bind charsNat with
    | some userID, some email, some role, some issuedAt, some expiresAt =>
      some { UserID := userID, Email := String.mk email, Role := String.mk role,
             IssuedAt := issuedAt, ExpiresAt := expiresAt }
    | _, _, _, _, _ => none
  | _ => none

/-- Modelled from the spec: the signature of a serialisation under the
signing key (`Signing key is process-wide configuration`), as a symbolic
one: the term of the key and the serialisation, written out in armour, so
that a signature stands for one key and one serialisation.  The algorithm
itself is not in the specification. -/
def sign (secretKey payload : String) : String :=
  String.mk (armour (secretKey.toList ++ '|' :: payload.toList))

/-- Modelled from the spec: the claims of a token issued at the instant
`now`: `expiration is fixed at issuance`, the lifetime of a token after
`now`. -/
def issuedClaims (tokenDuration : Nat) (now : Time) (userID : Int) (email role : String) :
    TokenClaims :=
  { UserID := userID
    Email := email
    Role := role
    IssuedAt := now
    ExpiresAt := now + tokenDuration }

/-- Modelled from the spec: `issue(userID, email, role) -> token`: `a
signed, time-bounded token binding identity and role; expiration is fixed at
issuance`: the serialised claims, a dot, and their signature under the key. -/
def issue (secretKey : String) (tokenDuration : Nat) (now : Time)
    (userID : Int) (email role : String) : String :=
  let payload := encodeClaims (issuedClaims tokenDuration now userID email role)
  payload ++ "." ++ sign secretKey payload

/-- Modelled from the spec: `validate(token) -> Claims`: `expired or
signature-invalid tokens fail with a single undifferentiated` error; a token
is expired once the clock has passed its `expiresAt`. -/
def validate (secretKey : String) (now : Time) (token : String) : Except String Claims :=
  match strings.Split token '.' with
  | [payload, signature] =>
    if signature = sign secretKey payload then
      match decodeClaims payload with
      | some c =>
        if c.ExpiresAt < now then .error "invalid or expired token"
        else .ok { UserID := c.UserID, Email := c.Email, Role := c.Role }
      | none => .error "invalid or expired token"
    else .error "invalid or expired token"
  | _ => .error "invalid or expired token"

/-- Modelled from the spec: `auth.NewJWTManager(secretKey, tokenDuration)`,
the token manager with its signing key and the lifetime of its tokens, at
the instant `now` of a request. -/
def NewJWTManager (secretKey : String) (tokenDuration : Nat) (now : Time) : JWTManager :=
  { GenerateToken := fun userID email role =>
      .ok (issue secretKey tokenDuration now userID email role)
    ValidateToken := fun token => validate secretKey now token }

end auth

namespace application.auth

/-- Go: `func (s *Service) ValidateToken(tokenString string) (*auth.Claims, error)`. -/
def Service.ValidateToken {σ : Type} (s : Service σ) (tokenString : String) :
    Except error auth.Claims :=
  match s.jwtManager.ValidateToken tokenString with
  | .error _ => .error (errors.NewUnauthorized "Invalid or expired token")
  | .ok claims => .ok claims

end application.auth

/-! ## Notions used in the statements -/

/-- The `Content` argument a template call is handed, when the template
takes one: the `About` and `Text` components and the `SimpleContent` block
do, the `Hero` component and the wrappers do not. -/
def templ.Component.contentPassed : templ.Component → Option String
  | .Hero _ => none
  | .About data => some data.Content
  | .Text data => some data.Content
  | .SimpleContent _ content => some content
  | .PageWithComponents _ => none
  | .Base _ _ => none

/-- Go: `strings.Contains(s, substr)`. -/
def strings.Contains (s substr : String) : Prop := substr.toList <:+: s.toList

/-- The errors of the model of `fmt.Sscanf`: the texts stand for the
errors of the library (`io.EOF`, `io.ErrUnexpectedEOF`, the errors of the
scanner and of `strconv`, the latter two abridged). -/
def fmt.scanErrors : List error :=
  [ error.New "unexpected newline",
    error.New "EOF",
    error.New "unexpected EOF",
    error.New "input does not match format",
    error.New "expected integer",
    error.New "strconv.ParseInt: value out of range",
    error.New "integer overflow",
    error.New "strconv.ParseUint: value out of range",
    error.New "unsigned integer overflow" ]

/-- The pattern `$argon2id$v=<int>$m=<int>,t=<int>,p=<int>$<base64 salt>$<base64 digest>`
on a field: a prefix followed by one or more decimal digits. -/
def auth.isNumberField (name : String) (field : List Char) : Bool :=
  name.toList.isPrefixOf field &&
    (field.drop name.length != [] && (field.drop name.length).all fmt.isDigit)

/-- The pattern on the parameter field: `m=<int>,t=<int>,p=<int>`. -/
def auth.isParamsField (field : String) : Bool :=
  match strings.splitChars ',' field.toList with
  | [m, t, p] =>
    auth.isNumberField "m=" m && auth.isNumberField "t=" t && auth.isNumberField "p=" p
  | _ => false

/-- The pattern on a base64 field: characters of the standard alphabet only. -/
def auth.isBase64Field (field : String) : Bool :=
  field.toList.all (fun c => (base64.decodeMapStd c).isSome)

/-- A well-formed encoding, after the words of the specification:
`$argon2id$v=<int>$m=<int>,t=<int>,p=<int>$<base64 salt>$<base64 digest>`. -/
def auth.wellFormedEncoding (encodedHash : String) : Bool :=
  match strings.Split encodedHash '$' with
  | [p0, p1, p2, p3, p4, p5] =>
    p0 == "" && p1 == "argon2id" && auth.isNumberField "v=" p2.toList &&
      auth.isParamsField p3 && auth.isBase64Field p4 && auth.isBase64Field p5
  | _ => false

/-- Go: `errors.Unwrap` followed to the end: the error, then what it
wraps, and so on; `nil` ends the chain. -/
def error.chain : error → List error
  | .nil => []
  | .New text => [.New text]
  | .Errorf text err => .Errorf text err :: error.chain err
  | .AppError Code Message HTTPStatus Err =>
    .AppError Code Message HTTPStatus Err :: error.chain Err

/-- An error value of the dynamic type `*AppError`. -/
def error.isAppError : error → Bool
  | .AppError _ _ _ _ => true
  | _ => false

/-- The JSON body of an error response: `\x7b"error": \x7b"code": ..., "message": ...\x7d\x7d`. -/
def errorBody (code message : String) : JSONValue :=
  JSONValue.obj
    [("error", JSONValue.obj [("code", JSONValue.str code), ("message", JSONValue.str message)])]

/-- The calls made on the writer by a call that returned; `none` for a
call that panicked. -/
def responseOf : MayPanic World → Option (List WriterCall)
  | .returned s => some s.w
  | .panicked => none

/-- The calls an error response makes on the writer: the content type, the
status line and the JSON body. -/
def errorResponseCalls (status : Nat) (code message : String) : List WriterCall :=
  [ WriterCall.HeaderSet "Content-Type" "application/json",
    WriterCall.WriteHeader status,
    WriterCall.JSONEncode (errorBody code message) ]

/-- The characters of a slug: letters, numbers and the dash. -/
def page.slugRune (t : unicode.Tables) (c : Char) : Prop :=
  unicode.IsLetter t c = true ∨ unicode.IsNumber t c = true ∨ c = '-'

/-- What the `range` loop of `GenerateSlug` writes for a list of runes. -/
def page.GenerateSlug.writeAll (t : unicode.Tables) : List Char → List Char
  | [] => []
  | r :: rest => page.GenerateSlug.write t r ++ page.GenerateSlug.writeAll t rest

/-- A rune the loop writes back unchanged, also after lowering. -/
def page.fixedRune (t : unicode.Tables) (c : Char) : Prop :=
  unicode.ToLower t c = c ∧ page.GenerateSlug.write t c = [c]

/-- The decisions of the limiter for the requests that one key makes at the
instants of a list, one after the other. -/
def httprate.decisions (requestLimit windowLength : Nat) (key : String) :
    httprate.Counters → List Time → List Bool
  | _, [] => []
  | counters, now :: rest =>
    (httprate.Allow requestLimit windowLength counters key now).1 ::
      httprate.decisions requestLimit windowLength key
        (httprate.Allow requestLimit windowLength counters key now).2 rest

/-- One byte of a token changed: the two strings agree everywhere but at
one position.  A string is a sequence of characters here, and a character
of ASCII is a byte; a change of one byte that leaves a string valid UTF-8
changes one character of it and no other, and every change of one character
is admitted. -/
def oneByteChanged (a b : String) : Prop :=
  ∃ (pre : List Char) (x y : Char) (post : List Char),
    x ≠ y ∧ a.toList = pre ++ x :: post ∧ b.toList = pre ++ y :: post

/-! ## Sample values for the concrete instances -/

namespace sample

/-- A toy sanitizer policy: it drops every `<`. -/
def policy : sanitize.Policy :=
  { Sanitize := fun html => String.mk (html.toList.filter (fun ch => ch != '<')) }

/-- A page without components. -/
def barePage : page.Page :=
  { ID := 1, Slug := "about", Title := "About", Content := "<b>hi" }

/-- A store holding `barePage` under every slug, and no components. -/
def repo : page.Repository :=
  { FindBySlug := fun _ => .ok barePage
    GetComponents := fun _ => .ok [] }

/-- A page controller over `repo`. -/
def pageController : controller.PageController :=
  controller.NewPageController policy { repo := repo }
    { baseURL := "https://example.org", siteName := "Site", siteDescription := "A site" }

/-- A text component with markup in its content. -/
def textComponent : domain.component.Component :=
  { ID := 7, Type_ := "text", Name := "intro", Content := "<script>x" }

/-- A next handler that answers 200. -/
def okHandler : Handler := fun _ s => s.write [WriterCall.WriteHeader 200]

/-- A CSRF guard with one exempt path. -/
def csrf : middleware.CSRFProtection := { exemptPaths := ["/api/auth/login"] }

/-- A world whose pool holds the token `"tok"`, expiring at 100, at time 50. -/
def poolWorld : World :=
  { csrfTokens := fun k => if k = "tok" then some 100 else none
    clock := fun _ => 50 }

/-- A world whose clock starts at 10 and advances by one at every reading. -/
def tickingWorld : World := { clock := fun n => 10 + n }

/-- A POST whose header token is `"tok"` and whose cookie token is `"other"`. -/
def mismatchRequest : Request :=
  { Method := "POST"
    URLPath := "/admin/pages"
    Header := [("X-CSRF-Token", "tok")]
    Cookies := [("csrf_token", "other")] }

/-- A token manager that accepts the one token `"good"`. -/
def jwtManager : auth.JWTManager :=
  { ValidateToken := fun token =>
      if token = "good" then .ok { UserID := 1, Email := "admin@example.org", Role := "admin" }
      else .error "invalid or expired token"
    GenerateToken := fun _ email _ => .ok ("token:" ++ email) }

/-- A request with the bearer token `"good"` in its `Authorization` header. -/
def bearerRequest : Request :=
  { URLPath := "/admin/dashboard"
    Header := [("Authorization", "Bearer good")] }

/-- A request whose header is not of the bearer form and whose cookie
holds the token `"good"`. -/
def basicRequest : Request :=
  { URLPath := "/admin/dashboard"
    Header := [("Authorization", "Basic good")]
    Cookies := [("auth_token", "good")] }

/-- The context `AuthMiddleware` builds for the claims of `"good"`. -/
def adminContext : Context :=
  middleware.withIdentity [] { UserID := 1, Email := "admin@example.org", Role := "admin" }

/-- A component of a type without defaults, with a title. -/
def galleryComponent : domain.component.Component :=
  { ID := 3, Type_ := "image", Name := "gallery", Title := "Gallery" }

/-- A component of a type no renderer is registered for. -/
def clipComponent : domain.component.Component :=
  { ID := 4, Type_ := "video", Name := "clip" }

/-- The default renderer with a render function for `image` that fails. -/
def failingRenderer : shared.component.Renderer :=
  (shared.component.NewRenderer policy).Register "image" (fun _ => .error "boom")

/-- A key derivation for the concrete instances: the key is `keyLen` bytes,
each the length of the password modulo 256; it panics when `time`,
`threads` or `keyLen` is zero. -/
def kdf : argon2.KDF :=
  { derive := fun password _ _ _ _ keyLen => List.replicate keyLen (password.length % 256)
    panics := fun time _ threads keyLen => decide (time < 1 ∨ threads < 1 ∨ keyLen < 1)
    derive_length := by intros; simp
    derive_bytes := by
      intro password _ _ _ _ keyLen b hb
      rw [List.eq_of_mem_replicate hb]
      exact Nat.mod_lt _ (by decide)
    panics_time := by intros; simp
    panics_threads := by intros; simp
    returns_normally := by
      intro time memory threads keyLen h1 h2 h3
      simp only [decide_eq_false_iff_not]
      omega }

/-- An active user whose stored hash is that of the password `secretpw`
with the salt `salt` under `kdf`. -/
def alice : domain.user.User :=
  { ID := 5
    Email := "alice@example.com"
    PasswordHash := "$argon2id$v=19$m=65536,t=3,p=2$c2FsdA$CAgICAgICAgICAgICAgICAgICAgICAgICAgICAgICAg"
    Name := "Alice"
    Role := "viewer"
    IsActive := true }

/-- A user store: the list of its users. -/
abbrev UserStore := List domain.user.User

/-- A repository over `UserStore`: lookup by email, creation with the id
`length + 1` at the end of the list, and a last-login update that always
fails. -/
def userRepo : domain.user.Repository UserStore :=
  { FindByEmail := fun email db =>
      match db.find? (fun u => u.Email == email) with
      | some u => .ok u
      | none => .error (error.New "user not found")
    Create := fun u db => (.ok (db.length + 1), db ++ [{ u with ID := db.length + 1 }])
    UpdateLastLogin := fun _ db => (error.New "database is locked", db) }

/-- The authentication service over `userRepo`. -/
def authService : application.auth.Service UserStore :=
  application.auth.NewService { repo := userRepo } jwtManager

/-- A production configuration served over plain HTTP. -/
def prodHttp : config.Config :=
  { Environment := "production", BaseURL := "http://cms.example.com", UseHTTPS := false }

/-- A development configuration served over plain HTTP. -/
def devHttp : config.Config :=
  { Environment := "development", BaseURL := "http://localhost:8080", UseHTTPS := false }

/-- An internal error that wraps a database failure. -/
def dbFailure : error :=
  errors.NewInternal "Failed to create user" (error.New "UNIQUE constraint failed: users.email")

/-- A bad-request error whose message is the text of the error it wraps. -/
def echoedError : error :=
  errors.Wrap (error.New "sql: no rows in result set") errors.ErrCodeBadRequest
    "sql: no rows in result set" 400

/-- An application error with a status that is no HTTP status. -/
def statuslessError : error :=
  errors.New "X" "m" 0

/-- A validation error returned through `fmt.Errorf` with `%w`. -/
def wrappedValidation : error :=
  error.Errorf "register" (errors.NewValidation "email is required")

/-- A deactivated user with the stored hash of `alice`. -/
def mallory : domain.user.User :=
  { alice with ID := 6, Email := "mallory@example.com", Name := "Mallory", IsActive := false }

/-- A component of the declared type `image`. -/
def imageComponent : domain.component.Component :=
  { ID := 9, Type_ := domain.component.TypeImage, Name := "banner", ImageURL := "/banner.png" }

/-- A file name whose extension is 301 bytes long: `a.` followed by 300 times `b`. -/
def longExtension : String :=
  String.mk ('a' :: '.' :: List.replicate 300 'b')

/-- A file name of 200 two-byte letters. -/
def accentedName : String :=
  String.mk (List.replicate 200 'é')

/-- The first bytes of a PNG file. -/
def pngBytes : List Nat :=
  [0x89, 0x50, 0x4E, 0x47, 0x0D, 0x0A, 0x1A, 0x0A]

/-- A reader over `pngBytes` that reads without an error. -/
def pngReader : io.Reader :=
  { Read := fun n => (pngBytes.take n, error.nil) }

/-- A table of `mime.TypeByExtension` with two entries. -/
def TypeByExtension (ext : String) : String :=
  if ext = ".png" then "image/png"
  else if ext = ".pdf" then "application/pdf"
  else ""

/-- An excerpt of the tables of package `unicode`: the letters of Latin
Extended-A and B, the spaces U+2000 to U+200A, and the lower case of six
capital letters of the Turkish alphabet. -/
def unicodeTables : unicode.Tables :=
  { Letter := fun c => decide (0x100 ≤ c.toNat ∧ c.toNat ≤ 0x24F)
    Number := fun _ => false
    Digit := fun _ => false
    White_Space := fun c => decide (0x2000 ≤ c.toNat ∧ c.toNat ≤ 0x200A)
    LowerCase := fun c =>
      if c = 'İ' then 'i'
      else if c = 'Ö' then 'ö'
      else if c = 'Ü' then 'ü'
      else if c = 'Ç' then 'ç'
      else if c = 'Ğ' then 'ğ'
      else if c = 'Ş' then 'ş'
      else c }

/-- A page title with capitals, punctuation, runs of separators and
letters of the Turkish alphabet. -/
def title : String := "  Hello,  World_-_İstanbul Öğle --"

/-- A page that is created without a slug. -/
def untitledPage : page.Page :=
  { Title := title, Content := "<p>hi</p>" }

/-- A key function that reads the address of the client from the header
`X-Real-IP`. -/
def KeyByIP (r : Request) : String × error :=
  (r.HeaderGet "X-Real-IP", error.nil)

/-- A request of the client `203.0.113.7` to the login endpoint. -/
def loginRequest : Request :=
  { Method := "POST", URLPath := "/api/auth/login", Header := [("X-Real-IP", "203.0.113.7")] }

/-- The token issued to `alice` under the key `s3cret` at the instant 1000
with a lifetime of 24 hours. -/
def aliceToken : String :=
  auth.issue "s3cret" (24 * time.Hour) 1000 5 "alice@example.com" "viewer"

/-- A request that carries `aliceToken` in its `Authorization` header. -/
def tokenRequest : Request :=
  { URLPath := "/admin/dashboard"
    Header := [("Authorization", "Bearer " ++ aliceToken)] }

/-- The string `aliceToken` with its first byte changed from `0` to `1`. -/
def tamperedToken : String :=
  "15|0a0l0i0c0e0@0e0x0a0m0p0l0e1a0c0o0m|0v0i0e0w0e0r|01000000|0806040000000000000001000000.0s030c0r0e0t1b00051b000a000l000i000c000e000@000e000x000a000m000p000l000e010a000c000o000m1b000v000i000e000w000e000r1b00010000000000001b00080006000400000000000000000000000000000001000000000000"

/-- A request that carries `tamperedToken` in its `Authorization` header. -/
def tamperedRequest : Request :=
  { URLPath := "/admin/dashboard"
    Header := [("Authorization", "Bearer " ++ tamperedToken)] }

/-- An active user whose stored hash carries the parameter `t=0`. -/
def zeroRounds : domain.user.User :=
  { ID := 7
    Email := "zero@example.com"
    PasswordHash := "$argon2id$v=19$m=65536,t=0,p=2$c2FsdA$aGFzaA"
    Name := "Zero"
    Role := "viewer"
    IsActive := true }

end sample

/-! ## Theorems -/

section ComponentDefaults

open domain.component

theorem fill_fill (x d : String) : fill (fill x d) d = fill x d := by
  unfold fill; split_ifs <;> simp_all

theorem fill_self (x : String) : fill x x = x := by
  unfold fill; split_ifs <;> rfl

theorem Defaults_unknown (c : Component) (h : ¬ KnownType c.Type_) : c.Defaults = c := by
  unfold KnownType at h
  push_neg at h
  simp [Component.Defaults, h.1, h.2.1, h.2.2]

theorem Defaults_known (c c' : Component) (h : KnownType c.Type_) (e : c'.Type_ = c.Type_) :
    c'.Defaults = c.Defaults := by
  unfold KnownType at h
  unfold Component.Defaults
  rw [e]
  rcases h with h | h | h <;> simp [h, TypeHero, TypeAbout, TypeText]

theorem MergeWithDefaults_steps (c : Component) :
    c.MergeWithDefaults =
      stepLinkURL (stepLinkText (stepContent (stepSubtitle (stepTitle c)))) := rfl

theorem stepTitle_eq (d : Component) (ty : ComponentType)
    (hd : ∀ c' : Component, c'.Type_ = ty → c'.Defaults = d) (c : Component) (ht : c.Type_ = ty) :
    stepTitle c = { c with Title := fill c.Title d.Title } := by
  unfold stepTitle fill; rw [hd c ht]; split_ifs <;> rfl

theorem stepSubtitle_eq (d : Component) (ty : ComponentType)
    (hd : ∀ c' : Component, c'.Type_ = ty → c'.Defaults = d) (c : Component) (ht : c.Type_ = ty) :
    stepSubtitle c = { c with Subtitle := fill c.Subtitle d.Subtitle } := by
  unfold stepSubtitle fill; rw [hd c ht]; split_ifs <;> rfl

theorem stepContent_eq (d : Component) (ty : ComponentType)
    (hd : ∀ c' : Component, c'.Type_ = ty → c'.Defaults = d) (c : Component) (ht : c.Type_ = ty) :
    stepContent c = { c with Content := fill c.Content d.Content } := by
  unfold stepContent fill; rw [hd c ht]; split_ifs <;> rfl

theorem stepLinkText_eq (d : Component) (ty : ComponentType)
    (hd : ∀ c' : Component, c'.Type_ = ty → c'.Defaults = d) (c : Component) (ht : c.Type_ = ty) :
    stepLinkText c = { c with LinkText := fill c.LinkText d.LinkText } := by
  unfold stepLinkText fill; rw [hd c ht]; split_ifs <;> rfl

theorem stepLinkURL_eq (d : Component) (ty : ComponentType)
    (hd : ∀ c' : Component, c'.Type_ = ty → c'.Defaults = d) (c : Component) (ht : c.Type_ = ty) :
    stepLinkURL c = { c with LinkURL := fill c.LinkURL d.LinkURL } := by
  unfold stepLinkURL fill; rw [hd c ht]; split_ifs <;> rfl

/-- When every component of the type of `c` has the defaults `d`, merging
fills the five fields from `d`. -/
theorem merge_of_const (c d : Component)
    (hd : ∀ c' : Component, c'.Type_ = c.Type_ → c'.Defaults = d) :
    c.MergeWithDefaults =
      { c with
        Title := fill c.Title d.Title
        Subtitle := fill c.Subtitle d.Subtitle
        Content := fill c.Content d.Content
        LinkText := fill c.LinkText d.LinkText
        LinkURL := fill c.LinkURL d.LinkURL } := by
  rw [MergeWithDefaults_steps]
  rw [stepTitle_eq d c.Type_ hd c rfl, stepSubtitle_eq d c.Type_ hd,
    stepContent_eq d c.Type_ hd, stepLinkText_eq d c.Type_ hd, stepLinkURL_eq d c.Type_ hd]
  all_goals rfl

/-- A component of a type without defaults is left as it is. -/
theorem merge_unknown (c : Component) (h : ¬ KnownType c.Type_) : c.MergeWithDefaults = c := by
  have hd : c.Defaults = c := Defaults_unknown c h
  rw [MergeWithDefaults_steps]
  have e1 : stepTitle c = c := by unfold stepTitle; rw [hd]; split_ifs <;> rfl
  have e2 : stepSubtitle c = c := by unfold stepSubtitle; rw [hd]; split_ifs <;> rfl
  have e3 : stepContent c = c := by unfold stepContent; rw [hd]; split_ifs <;> rfl
  have e4 : stepLinkText c = c := by unfold stepLinkText; rw [hd]; split_ifs <;> rfl
  have e5 : stepLinkURL c = c := by unfold stepLinkURL; rw [hd]; split_ifs <;> rfl
  rw [e1, e2, e3, e4, e5]

/-- Merging, field by field. -/
theorem merge_fields (c : Component) :
    c.MergeWithDefaults =
      { c with
        Title := fill c.Title c.Defaults.Title
        Subtitle := fill c.Subtitle c.Defaults.Subtitle
        Content := fill c.Content c.Defaults.Content
        LinkText := fill c.LinkText c.Defaults.LinkText
        LinkURL := fill c.LinkURL c.Defaults.LinkURL } := by
  by_cases h : KnownType c.Type_
  · exact merge_of_const c c.Defaults (fun c' e => Defaults_known c c' h e)
  · rw [merge_unknown c h, Defaults_unknown c h]
    simp only [fill_self]

theorem merge_Type (c : Component) : c.MergeWithDefaults.Type_ = c.Type_ := by
  rw [merge_fields]

/-- C1: `MergeWithDefaults` is idempotent: for every component `c`, of any
type (the types without defaults included), merging the merged component
gives the merged component again, equal in every field. -/
theorem MergeWithDefaults_idempotent (c : Component) :
    c.MergeWithDefaults.MergeWithDefaults = c.MergeWithDefaults := by
  by_cases h : KnownType c.Type_
  · have hd : ∀ c' : Component, c'.Type_ = c.Type_ → c'.Defaults = c.Defaults :=
      fun c' e => Defaults_known c c' h e
    have hd' : ∀ c' : Component,
        c'.Type_ = c.MergeWithDefaults.Type_ → c'.Defaults = c.Defaults :=
      fun c' e => hd c' (by rw [e, merge_Type])
    rw [merge_of_const c.MergeWithDefaults c.Defaults hd']
    rw [merge_of_const c c.Defaults hd]
    simp only [fill_fill]
  · rw [merge_unknown c h, merge_unknown c h]

end ComponentDefaults

section Permissions

open domain.user

theorem any_beq_iff_mem (l : List String) (p : String) :
    l.any (fun perm => perm == p) = decide (p ∈ l) := by
  induction l with
  | nil => simp
  | cons a l ih =>
    rw [List.any_cons, ih]
    by_cases h : a = p
    · subst h; simp
    · have h' : ¬ p = a := fun e => h e.symm
      simp [h, h']

theorem permissionsLookup_editor :
    permissionsLookup "editor" =
      some ["pages:read", "pages:write", "pages:delete", "components:read",
        "components:write"] := by
  decide

theorem permissionsLookup_author :
    permissionsLookup "author" = some ["pages:read", "pages:write", "components:read"] := by
  decide

theorem permissionsLookup_viewer :
    permissionsLookup "viewer" = some ["pages:read", "components:read"] := by
  decide

theorem permissionsLookup_other (role : Role) (h2 : role ≠ "editor") (h3 : role ≠ "author")
    (h4 : role ≠ "viewer") : permissionsLookup role = none := by
  have e2 : ("editor" == role) = false := by simpa using fun e => h2 e.symm
  have e3 : ("author" == role) = false := by simpa using fun e => h3 e.symm
  have e4 : ("viewer" == role) = false := by simpa using fun e => h4 e.symm
  simp [permissionsLookup, permissions, RoleEditor, RoleAuthor, RoleViewer, List.find?, e2, e3, e4]

/-- C3: `HasPermission(u, p)` holds exactly when `u` is active and either
is an admin, or is an editor, author or viewer and `p` is on the allow-list
of that role.  In particular an inactive user has no permission, an active
admin has every permission (any string at all), and a role other than the
four has none. -/
theorem HasPermission_iff (u : User) (p : String) :
    (u.HasPermission p = true ↔
      u.IsActive = true ∧
        (u.Role = "admin" ∨
         (u.Role = "editor" ∧
            p ∈ ["pages:read", "pages:write", "pages:delete", "components:read",
                  "components:write"]) ∨
         (u.Role = "author" ∧ p ∈ ["pages:read", "pages:write", "components:read"]) ∨
         (u.Role = "viewer" ∧ p ∈ ["pages:read", "components:read"]))) ∧
    ({ u with IsActive := false }.HasPermission p = false) ∧
    ({ u with IsActive := true, Role := "admin" }.HasPermission p = true) ∧
    (u.Role ∉ ["admin", "editor", "author", "viewer"] → u.HasPermission p = false) := by
  obtain ⟨id, em, ph, nm, role, act, ll, ca, ua⟩ := u
  refine ⟨?_, ?_, ?_, ?_⟩
  · cases act
    · simp [User.HasPermission]
    · by_cases h1 : role = "admin"
      · simp [User.HasPermission, h1, RoleAdmin]
      · by_cases h2 : role = "editor"
        · subst h2
          simp only [User.HasPermission, permissionsLookup_editor, any_beq_iff_mem]
          simp [RoleAdmin]
        · by_cases h3 : role = "author"
          · subst h3
            simp only [User.HasPermission, permissionsLookup_author, any_beq_iff_mem]
            simp [RoleAdmin]
          · by_cases h4 : role = "viewer"
            · subst h4
              simp only [User.HasPermission, permissionsLookup_viewer, any_beq_iff_mem]
              simp [RoleAdmin]
            · simp [User.HasPermission, RoleAdmin, permissionsLookup_other role h2 h3 h4,
                h1, h2, h3, h4]
  · simp [User.HasPermission]
  · simp [User.HasPermission, RoleAdmin]
  · intro h
    simp only [List.mem_cons, List.mem_singleton, List.not_mem_nil, or_false, not_or] at h
    obtain ⟨h1, h2, h3, h4⟩ := h
    cases act <;>
    simp [User.HasPermission, RoleAdmin, permissionsLookup_other role h2 h3 h4, h1]

/-- C3, at a concrete user: a user whose role is `"guest"` may not read pages. -/
theorem HasPermission_iff_witness :
    ("guest" ∉ ["admin", "editor", "author", "viewer"]) ∧
      ({ Role := "guest", IsActive := true } : User).HasPermission "pages:read" = false :=
  ⟨by decide,
    (HasPermission_iff { Role := "guest", IsActive := true } "pages:read").2.2.2 (by decide)⟩

end Permissions

section Rendering

open domain.component shared.component controller

/-- What `Render` of the default renderer gives, by component type. -/
theorem NewRenderer_Render (UGC : sanitize.Policy) (c : Component) :
    (NewRenderer UGC).Render c =
      if c.Type_ = TypeText then renderText UGC c
      else if c.Type_ = TypeAbout then renderAbout UGC c
      else if c.Type_ = TypeHero then renderHero c
      else .error ("no renderer registered for component type: " ++ c.Type_) := by
  unfold Renderer.Render NewRenderer Renderer.Register
  by_cases h1 : c.Type_ = TypeText
  · simp only [if_pos h1]
  · by_cases h2 : c.Type_ = TypeAbout
    · simp only [if_neg h1, if_pos h2]
    · by_cases h3 : c.Type_ = TypeHero
      · simp only [if_neg h1, if_neg h2, if_pos h3]
      · simp only [if_neg h1, if_neg h2, if_neg h3]

/-- Every content string the default renderer hands to a template is the
sanitized content of the component. -/
theorem NewRenderer_Render_content (UGC : sanitize.Policy) (c : Component) (t : templ.Component)
    (h : (NewRenderer UGC).Render c = .ok t) (x : String) (hx : t.contentPassed = some x) :
    x = sanitize.HTML UGC c.Content := by
  rw [NewRenderer_Render] at h
  split_ifs at h
  · simp only [renderText, Except.ok.injEq] at h
    subst h
    simpa [templ.Component.contentPassed] using hx.symm
  · simp only [renderAbout, Except.ok.injEq] at h
    subst h
    simpa [templ.Component.contentPassed] using hx.symm
  · simp only [renderHero, Except.ok.injEq] at h
    subst h
    simp [templ.Component.contentPassed] at hx

/-- An invariant of the loop of `RenderMultiple`: what holds of every
rendered component holds of every element of the result. -/
theorem RenderMultiple_loop_all (r : Renderer) (P : templ.Component → Prop)
    (hr : ∀ c t, r.Render c = .ok t → P t) :
    ∀ (cs : List Component) (acc out : List templ.Component),
      (∀ t ∈ acc, P t) → Renderer.RenderMultiple.loop r cs acc = .ok out → ∀ t ∈ out, P t := by
  intro cs
  induction cs with
  | nil =>
    intro acc out hacc h
    simp only [Renderer.RenderMultiple.loop, Except.ok.injEq] at h
    subst h
    exact hacc
  | cons c rest ih =>
    intro acc out hacc h
    simp only [Renderer.RenderMultiple.loop] at h
    cases hc : r.Render c.MergeWithDefaults with
    | error e => rw [hc] at h; simp at h
    | ok comp =>
      rw [hc] at h
      refine ih (acc ++ [comp]) out ?_ h
      intro t ht
      rcases List.mem_append.mp ht with h1 | h1
      · exact hacc t h1
      · rw [List.mem_singleton] at h1
        subst h1
        exact hr _ _ hc

/-- C2: sanitization happens on every render path.  `renderAbout` and
`renderText` hand their template exactly `sanitize.HTML(Content)`,
`renderHero` hands over no content; whatever content a renderer registered
by `NewRenderer` passes is the sanitized content of its component; every
content string among the blocks a page controller renders is an output of
the sanitizer; and for a page without components the fallback block gets
`sanitize.HTML(page.Content)`, in `ShowPage` and `ShowHome` alike. -/
theorem sanitize_on_every_render_path (UGC : sanitize.Policy) (c : Component)
    (svc : page.Service) (seoManager : seo.Manager) (p : page.Page) (r : Request) (s : World) :
    renderAbout UGC c =
        .ok (templ.Component.About { Title := c.Title, Content := sanitize.HTML UGC c.Content }) ∧
    renderText UGC c =
        .ok (templ.Component.Text { Content := sanitize.HTML UGC c.Content }) ∧
    (∃ t, renderHero c = .ok t ∧ t.contentPassed = none) ∧
    (∀ t, (NewRenderer UGC).Render c = .ok t →
        ∀ x, t.contentPassed = some x → x = sanitize.HTML UGC c.Content) ∧
    (∀ blocks, (NewPageController UGC svc seoManager).renderedComponents p = .ok blocks →
        ∀ t ∈ blocks, ∀ x, t.contentPassed = some x → ∃ raw, x = sanitize.HTML UGC raw) ∧
    (p.Components = [] →
        (NewPageController UGC svc seoManager).renderedComponents p =
          .ok [templ.Component.SimpleContent p.Title (sanitize.HTML UGC p.Content)]) ∧
    (svc.GetPageBySlug (r.URLParam "slug") = .ok p → p.Components = [] →
        (NewPageController UGC svc seoManager).ShowPage r s =
          s.write [WriterCall.Render (templ.Component.Base
            (seoManager.ForPageWithDefaults p.MetaTitle p.MetaDescription p.MetaKeywords
              p.OGImage p.Slug)
            (templ.Component.PageWithComponents
              [templ.Component.SimpleContent p.Title (sanitize.HTML UGC p.Content)]))]) ∧
    (svc.GetPageBySlug "" = .ok p → p.Components = [] →
        (NewPageController UGC svc seoManager).ShowHome r s =
          s.write [WriterCall.Render (templ.Component.Base
            (seoManager.ForPageWithDefaults p.MetaTitle p.MetaDescription p.MetaKeywords
              p.OGImage "")
            (templ.Component.PageWithComponents
              [templ.Component.SimpleContent p.Title (sanitize.HTML UGC p.Content)]))]) := by
  have hfallback : p.Components = [] →
      (NewPageController UGC svc seoManager).renderedComponents p =
        .ok [templ.Component.SimpleContent p.Title (sanitize.HTML UGC p.Content)] := by
    intro hp
    simp [PageController.renderedComponents, NewPageController, hp]
  refine ⟨rfl, rfl, ⟨_, rfl, rfl⟩, ?_, ?_, hfallback, ?_, ?_⟩
  · intro t h x hx
    exact NewRenderer_Render_content UGC c t h x hx
  · intro blocks h t ht x hx
    unfold PageController.renderedComponents at h
    split_ifs at h with hlen
    · have key := RenderMultiple_loop_all (NewRenderer UGC)
        (fun t => ∀ x, t.contentPassed = some x → ∃ raw, x = sanitize.HTML UGC raw)
        (fun c' t' h' x' hx' => ⟨c'.Content, NewRenderer_Render_content UGC c' t' h' x' hx'⟩)
        (p.Components.map toDomainComponent) [] blocks (by simp) h
      exact key t ht x hx
    · simp only [Except.ok.injEq] at h
      subst h
      rw [List.mem_singleton] at ht
      subst ht
      simp only [templ.Component.contentPassed, Option.some.injEq] at hx
      exact ⟨p.Content, hx.symm⟩
  · intro hget hp
    simp only [PageController.ShowPage]
    rw [show (NewPageController UGC svc seoManager).pageService = svc from rfl, hget]
    simp only [hfallback hp]
    rfl
  · intro hget hp
    simp only [PageController.ShowHome]
    rw [show (NewPageController UGC svc seoManager).pageService = svc from rfl, hget]
    simp only [hfallback hp]
    rfl

/-- C2, at concrete inputs: the text component `sample.textComponent` and
the page `sample.barePage`, with the policy that drops `<`. -/
theorem sanitize_on_every_render_path_witness :
    (∀ t, (NewRenderer sample.policy).Render sample.textComponent = .ok t →
        ∀ x, t.contentPassed = some x → x = "script>x") ∧
    sample.pageController.renderedComponents sample.barePage =
        .ok [templ.Component.SimpleContent "About" "b>hi"] ∧
    (sample.pageController.ShowPage { URLParams := [("slug", "about")] } { }).w =
        [WriterCall.Render (templ.Component.Base
          ((sample.pageController.seoManager).ForPageWithDefaults "" "" "" "" "about")
          (templ.Component.PageWithComponents
            [templ.Component.SimpleContent "About" "b>hi"]))] :=
  have h := sanitize_on_every_render_path sample.policy sample.textComponent
    { repo := sample.repo }
    { baseURL := "https://example.org", siteName := "Site", siteDescription := "A site" }
    sample.barePage { URLParams := [("slug", "about")] } { }
  ⟨h.2.2.2.1, h.2.2.2.2.2.1 rfl, congrArg World.w (h.2.2.2.2.2.2.1 rfl rfl)⟩

end Rendering

section CSRF

open middleware

theorem ValidateToken_absent (k : String) (s : World) (h : s.csrfTokens k = none) :
    ValidateToken k s = (false, s) := by
  simp only [ValidateToken, h]

theorem ValidateToken_live (k : String) (s : World) (e : Time) (h : s.csrfTokens k = some e)
    (hlive : s.clock s.ticks ≤ e) :
    ValidateToken k s = (true, { s with ticks := s.ticks + 1 }) := by
  have hn : ¬ e < s.clock s.ticks := Nat.not_lt.mpr hlive
  simp [ValidateToken, h, World.timeNow, Time.After, hn]

theorem ValidateToken_expired (k : String) (s : World) (e : Time) (h : s.csrfTokens k = some e)
    (hexp : e < s.clock s.ticks) :
    ValidateToken k s =
      (false, { s with
        ticks := s.ticks + 1
        csrfTokens := fun k' => if k' = k then none else s.csrfTokens k' }) := by
  simp [ValidateToken, h, World.timeNow, Time.After, hexp]

/-- The three cases of `ValidateToken`. -/
theorem ValidateToken_cases (k : String) (s : World) :
    (s.csrfTokens k = none ∧ ValidateToken k s = (false, s)) ∨
    (∃ e, s.csrfTokens k = some e ∧ s.clock s.ticks ≤ e ∧
      ValidateToken k s = (true, { s with ticks := s.ticks + 1 })) ∨
    (∃ e, s.csrfTokens k = some e ∧ e < s.clock s.ticks ∧
      ValidateToken k s =
        (false, { s with
          ticks := s.ticks + 1
          csrfTokens := fun k' => if k' = k then none else s.csrfTokens k' })) := by
  cases h : s.csrfTokens k with
  | none => exact Or.inl ⟨rfl, ValidateToken_absent k s h⟩
  | some e =>
    by_cases hexp : e < s.clock s.ticks
    · exact Or.inr (Or.inr ⟨e, rfl, hexp, ValidateToken_expired k s e h hexp⟩)
    · exact Or.inr (Or.inl ⟨e, rfl, Nat.not_lt.mp hexp, ValidateToken_live k s e h (Nat.not_lt.mp hexp)⟩)

/-- The response writer is never touched by `ValidateToken`. -/
theorem ValidateToken_w (k : String) (s : World) : (ValidateToken k s).2.w = s.w := by
  rcases ValidateToken_cases k s with ⟨_, h⟩ | ⟨e, _, _, h⟩ | ⟨e, _, _, h⟩ <;> rw [h]

/-- A successful validation leaves the pool as it is. -/
theorem ValidateToken_true_pool (k : String) (s : World) (h : (ValidateToken k s).1 = true) :
    (ValidateToken k s).2.csrfTokens = s.csrfTokens := by
  rcases ValidateToken_cases k s with ⟨_, h'⟩ | ⟨e, _, _, h'⟩ | ⟨e, _, _, h'⟩
  · rw [h']
  · rw [h']
  · rw [h'] at h; simp at h

/-- After a failed validation the token is not in the pool. -/
theorem ValidateToken_false_absent (k : String) (s : World) (h : (ValidateToken k s).1 = false) :
    (ValidateToken k s).2.csrfTokens k = none := by
  rcases ValidateToken_cases k s with ⟨h0, h'⟩ | ⟨e, _, _, h'⟩ | ⟨e, _, _, h'⟩
  · rw [h']; exact h0
  · rw [h'] at h; simp at h
  · rw [h']; simp

/-- A validation that failed fails again, without any further effect. -/
theorem ValidateToken_false_again (k : String) (s : World) (h : (ValidateToken k s).1 = false) :
    ValidateToken k (ValidateToken k s).2 = (false, (ValidateToken k s).2) :=
  ValidateToken_absent k _ (ValidateToken_false_absent k s h)

theorem validateSupplied_accept (next : Handler) (token : String) (r : Request) (s : World)
    (h1 : token ≠ "") (h2 : (ValidateToken token s).1 = true) :
    CSRFProtection.validateSupplied next token r s = next r (ValidateToken token s).2 := by
  simp [CSRFProtection.validateSupplied, h1, h2]

theorem validateSupplied_reject (next : Handler) (token : String) (r : Request) (s : World)
    (h : ¬ (token ≠ "" ∧ (ValidateToken token s).1 = true)) :
    CSRFProtection.validateSupplied next token r s =
      csrfReject (if token = "" then s else (ValidateToken token s).2) := by
  by_cases h1 : token = ""
  · simp [CSRFProtection.validateSupplied, h1]
  · have h2 : (ValidateToken token s).1 = false := by
      cases hv : (ValidateToken token s).1 with
      | false => rfl
      | true => exact absurd ⟨h1, hv⟩ h
    simp [CSRFProtection.validateSupplied, h1, h2]

/-- A request the middleware does not skip: the exempt-path loop and the
method test both fall through. -/
theorem skips_iff (c : CSRFProtection) (r : Request) :
    c.skips r ↔
      (c.exemptPaths.any (fun path => r.URLPath == path) = true ∨
        (r.Method = "GET" ∨ r.Method = "HEAD" ∨ r.Method = "OPTIONS")) := by
  unfold CSRFProtection.skips
  have : c.exemptPaths.any (fun path => r.URLPath == path) = true ↔ r.URLPath ∈ c.exemptPaths := by
    simp [List.any_eq_true]
  rw [this]

theorem Middleware_skipped (c : CSRFProtection) (next : Handler) (r : Request) (s : World)
    (h : c.skips r) : c.Middleware next r s = next r s := by
  rw [skips_iff] at h
  unfold CSRFProtection.Middleware
  rcases h with h | h
  · simp only [h, if_true]
  · split_ifs <;> rfl

/-- For a request that is not skipped the decision is that of the supplied
token alone: the cookie branch changes nothing. -/
theorem Middleware_not_skipped (c : CSRFProtection) (next : Handler) (r : Request) (s : World)
    (h : ¬ c.skips r) :
    c.Middleware next r s = CSRFProtection.validateSupplied next (suppliedToken r) r s := by
  rw [skips_iff, not_or] at h
  obtain ⟨h1, h2⟩ := h
  have e : (if r.HeaderGet "X-CSRF-Token" = "" then r.FormValue "csrf_token"
      else r.HeaderGet "X-CSRF-Token") = suppliedToken r := rfl
  unfold CSRFProtection.Middleware
  simp only [h1, h2, if_false, e]
  cases hc : r.Cookie "csrf_token" with
  | none => rfl
  | some v =>
    simp only
    by_cases hv : v = ""
    · simp [hv]
    · by_cases hm : suppliedToken r = v
      · subst hm
        cases hok : (ValidateToken (suppliedToken r) s).1 with
        | true =>
          rw [validateSupplied_accept next _ r s hv hok]
          simp [hv, hok]
        | false =>
          have again := ValidateToken_false_again (suppliedToken r) s hok
          simp [hv, hok, CSRFProtection.validateSupplied, again]
      · simp [hv, hm]

end CSRF

section CSRFClaims

open middleware

/-- C4, as stated, fails: a POST to a path that is not exempt, with header
token `"tok"` and the different, non-empty cookie token `"other"`, reaches
the next handler when `"tok"` is a live token of the pool: the only call on
the response writer is the next handler's `WriteHeader(200)`, there is no
403. -/
theorem csrf_mismatch_reaches_next :
    sample.mismatchRequest.Method ≠ "GET" ∧
    sample.mismatchRequest.Method ≠ "HEAD" ∧
    sample.mismatchRequest.Method ≠ "OPTIONS" ∧
    sample.mismatchRequest.URLPath ∉ sample.csrf.exemptPaths ∧
    sample.mismatchRequest.Cookie "csrf_token" = some "other" ∧
    "other" ≠ "" ∧
    suppliedToken sample.mismatchRequest = "tok" ∧
    "other" ≠ suppliedToken sample.mismatchRequest ∧
    (sample.csrf.Middleware sample.okHandler sample.mismatchRequest sample.poolWorld).w =
      [WriterCall.WriteHeader 200] := by
  refine ⟨by decide, by decide, by decide, by decide, by decide, by decide, by decide,
    by decide, ?_⟩
  rfl

/-- C4, amended: for a request that is not skipped and carries a non-empty
`csrf_token` cookie different from the supplied token, the decision is that
of the supplied token alone: the middleware answers 403 without running the
next handler when the supplied token is empty or `ValidateToken` rejects
it, and runs the next handler, despite the mismatch, when the supplied
token is non-empty and `ValidateToken` accepts it. -/
theorem csrf_mismatch_decided_by_supplied_token (c : CSRFProtection) (next : Handler)
    (r : Request) (s : World) (v : String)
    (hskip : ¬ c.skips r) (_hcookie : r.Cookie "csrf_token" = some v) (_hv : v ≠ "")
    (_hmis : v ≠ suppliedToken r) :
    ((suppliedToken r = "" ∨ (ValidateToken (suppliedToken r) s).1 = false) →
      c.Middleware next r s =
          csrfReject (if suppliedToken r = "" then s else (ValidateToken (suppliedToken r) s).2) ∧
        (c.Middleware next r s).w = s.w ++ [WriterCall.Error "Invalid CSRF token" 403]) ∧
    ((suppliedToken r ≠ "" ∧ (ValidateToken (suppliedToken r) s).1 = true) →
      c.Middleware next r s = next r (ValidateToken (suppliedToken r) s).2) := by
  rw [Middleware_not_skipped c next r s hskip]
  constructor
  · intro h
    have hn : ¬ (suppliedToken r ≠ "" ∧ (ValidateToken (suppliedToken r) s).1 = true) := by
      rintro ⟨h1, h2⟩
      rcases h with h | h
      · exact h1 h
      · rw [h] at h2; exact Bool.noConfusion h2
    rw [validateSupplied_reject next _ r s hn]
    refine ⟨rfl, ?_⟩
    by_cases h0 : suppliedToken r = ""
    · simp [h0, csrfReject, World.write, http.StatusForbidden]
    · simp [h0, csrfReject, World.write, http.StatusForbidden, ValidateToken_w]
  · rintro ⟨h1, h2⟩
    exact validateSupplied_accept next _ r s h1 h2

/-- C4, amended, at a concrete request: `sample.mismatchRequest` against an
empty pool is answered 403. -/
theorem csrf_mismatch_decided_by_supplied_token_witness :
    (sample.csrf.Middleware sample.okHandler sample.mismatchRequest { }).w =
      [WriterCall.Error "Invalid CSRF token" 403] :=
  ((csrf_mismatch_decided_by_supplied_token sample.csrf sample.okHandler
      sample.mismatchRequest { } "other"
      (by unfold CSRFProtection.skips; decide) (by decide) (by decide) (by decide)).1
    (Or.inr rfl)).2

/-- C5: the decision of the CSRF middleware.  A request whose path is one
of the exempt paths or whose method is GET, HEAD or OPTIONS goes to the next
handler with no token check (the world is handed on untouched).  Any other
request goes to the next handler if and only if the supplied token is
non-empty and `ValidateToken` accepts it (the pool is then unchanged and
nothing has been written); in every other case the middleware writes
`Invalid CSRF token` with status 403 and the result does not depend on the
next handler. -/
theorem csrf_middleware_decision (c : CSRFProtection) (next : Handler) (r : Request)
    (s : World) :
    (c.skips r → c.Middleware next r s = next r s) ∧
    (¬ c.skips r →
      ((suppliedToken r ≠ "" ∧ (ValidateToken (suppliedToken r) s).1 = true) →
        c.Middleware next r s = next r (ValidateToken (suppliedToken r) s).2 ∧
          (ValidateToken (suppliedToken r) s).2.csrfTokens = s.csrfTokens ∧
          (ValidateToken (suppliedToken r) s).2.w = s.w) ∧
      (¬ (suppliedToken r ≠ "" ∧ (ValidateToken (suppliedToken r) s).1 = true) →
        (∀ next' : Handler, c.Middleware next' r s =
          csrfReject (if suppliedToken r = "" then s else (ValidateToken (suppliedToken r) s).2)) ∧
          (c.Middleware next r s).w = s.w ++ [WriterCall.Error "Invalid CSRF token" 403])) := by
  refine ⟨Middleware_skipped c next r s, fun hskip => ⟨?_, ?_⟩⟩
  · rintro ⟨h1, h2⟩
    rw [Middleware_not_skipped c next r s hskip]
    exact ⟨validateSupplied_accept next _ r s h1 h2, ValidateToken_true_pool _ s h2,
      ValidateToken_w _ s⟩
  · intro hn
    refine ⟨fun next' => ?_, ?_⟩
    · rw [Middleware_not_skipped c next' r s hskip]
      exact validateSupplied_reject next' _ r s hn
    · rw [Middleware_not_skipped c next r s hskip, validateSupplied_reject next _ r s hn]
      by_cases h0 : suppliedToken r = ""
      · simp [h0, csrfReject, World.write, http.StatusForbidden]
      · simp [h0, csrfReject, World.write, http.StatusForbidden, ValidateToken_w]

/-- C5, at concrete requests: a GET is handed on, a POST with the live
token `"tok"` is handed on, and a POST against an empty pool is answered
403. -/
theorem csrf_middleware_decision_witness :
    (sample.csrf.Middleware sample.okHandler { Method := "GET" } sample.poolWorld).w =
        [WriterCall.WriteHeader 200] ∧
    (sample.csrf.Middleware sample.okHandler sample.mismatchRequest sample.poolWorld).w =
        [WriterCall.WriteHeader 200] ∧
    (sample.csrf.Middleware sample.okHandler sample.mismatchRequest { }).w =
        [WriterCall.Error "Invalid CSRF token" 403] :=
  ⟨congrArg World.w
      ((csrf_middleware_decision sample.csrf sample.okHandler { Method := "GET" }
        sample.poolWorld).1 (by unfold CSRFProtection.skips; decide)),
    congrArg World.w
      (((csrf_middleware_decision sample.csrf sample.okHandler sample.mismatchRequest
        sample.poolWorld).2 (by unfold CSRFProtection.skips; decide)).1 ⟨by decide, rfl⟩).1,
    (((csrf_middleware_decision sample.csrf sample.okHandler sample.mismatchRequest
        { }).2 (by unfold CSRFProtection.skips; decide)).2
          (fun h => Bool.noConfusion (h.2 : false = true))).2⟩

theorem validateRepeatedly_live (k : String) (e : Time) :
    ∀ (n : Nat) (s : World), s.csrfTokens k = some e →
      (∀ i, i < n → s.clock (s.ticks + i) ≤ e) →
      (validateRepeatedly k n s).1 = List.replicate n true ∧
        (validateRepeatedly k n s).2.csrfTokens = s.csrfTokens ∧
        (validateRepeatedly k n s).2.w = s.w := by
  intro n
  induction n with
  | zero => intro s _ _; exact ⟨rfl, rfl, rfl⟩
  | succ n ih =>
    intro s hk hlive
    have h0 : s.clock s.ticks ≤ e := by simpa using hlive 0 (Nat.succ_pos n)
    have hv := ValidateToken_live k s e hk h0
    have hrest := ih { s with ticks := s.ticks + 1 } hk (fun i hi => by
      have := hlive (i + 1) (Nat.succ_lt_succ hi)
      simpa [Nat.add_assoc, Nat.add_comm 1 i] using this)
    simp only [validateRepeatedly, hv]
    exact ⟨by rw [hrest.1]; rfl, hrest.2.1, hrest.2.2⟩

theorem validateRepeatedly_absent (k : String) :
    ∀ (n : Nat) (s : World), s.csrfTokens k = none →
      validateRepeatedly k n s = (List.replicate n false, s) := by
  intro n
  induction n with
  | zero => intro s _; rfl
  | succ n ih =>
    intro s hk
    simp only [validateRepeatedly, ValidateToken_absent k s hk, ih s hk]
    rfl

/-- C6: a freshly generated token validates, and validation does not
consume it.  When `GenerateToken` reads the time `t` and returns the token
`k`, the pool holds `k` with expiry `t + 24h`; in every later world that
still holds that entry, `ValidateToken(k)` at a time not after `t + 24h`
returns true and leaves the pool unchanged, and so do any number `n` of
successive validations whose clock readings are all not after `t + 24h`. -/
theorem csrf_fresh_token_validates (s : World) (bytes : List Nat) (s2 : World) (n : Nat) :
    (GenerateToken (.ok bytes) s).1 = .ok (base64.URLEncoding.EncodeToString bytes) ∧
    (GenerateToken (.ok bytes) s).2.csrfTokens (base64.URLEncoding.EncodeToString bytes) =
        some (s.clock s.ticks + 24 * 3600 * 1000000000) ∧
    (s2.csrfTokens (base64.URLEncoding.EncodeToString bytes) =
        (GenerateToken (.ok bytes) s).2.csrfTokens (base64.URLEncoding.EncodeToString bytes) →
      (s2.clock s2.ticks ≤ s.clock s.ticks + 24 * 3600 * 1000000000 →
        (ValidateToken (base64.URLEncoding.EncodeToString bytes) s2).1 = true ∧
        (ValidateToken (base64.URLEncoding.EncodeToString bytes) s2).2.csrfTokens =
          s2.csrfTokens) ∧
      ((∀ i, i < n → s2.clock (s2.ticks + i) ≤ s.clock s.ticks + 24 * 3600 * 1000000000) →
        (validateRepeatedly (base64.URLEncoding.EncodeToString bytes) n s2).1 =
            List.replicate n true ∧
        (validateRepeatedly (base64.URLEncoding.EncodeToString bytes) n s2).2.csrfTokens =
            s2.csrfTokens)) := by
  have hgen : (GenerateToken (.ok bytes) s).2.csrfTokens
      (base64.URLEncoding.EncodeToString bytes) =
        some (s.clock s.ticks + 24 * 3600 * 1000000000) := by
    simp [GenerateToken, World.timeNow, csrfTTL, time.Hour]
  refine ⟨rfl, hgen, fun h2 => ⟨fun hlive => ?_, fun hlive => ?_⟩⟩
  · rw [hgen] at h2
    rw [ValidateToken_live _ s2 _ h2 hlive]
    exact ⟨rfl, rfl⟩
  · rw [hgen] at h2
    have := validateRepeatedly_live _ _ n s2 h2 hlive
    exact ⟨this.1, this.2.1⟩

/-- C6, at a concrete world: a token generated when the clock reads 10
passes the next two validations (clock readings 11 and 12). -/
theorem csrf_fresh_token_validates_witness :
    (validateRepeatedly (base64.URLEncoding.EncodeToString [1, 2, 3]) 2
        (GenerateToken (.ok [1, 2, 3]) sample.tickingWorld).2).1 = [true, true] ∧
    (ValidateToken (base64.URLEncoding.EncodeToString [1, 2, 3])
        (GenerateToken (.ok [1, 2, 3]) sample.tickingWorld).2).1 = true :=
  have h := (csrf_fresh_token_validates sample.tickingWorld [1, 2, 3]
    (GenerateToken (.ok [1, 2, 3]) sample.tickingWorld).2 2).2.2 rfl
  ⟨(h.2 (by
      intro i hi
      have hi' : i ≤ 1 := Nat.lt_succ_iff.mp hi
      show 10 + (1 + i) ≤ 10 + 24 * 3600 * 1000000000
      omega)).1,
    (h.1 (by decide)).1⟩

/-- C7: `ValidateToken` on absent and expired tokens.  A token that is not
in the pool is rejected and the world is left exactly as it was.  A token
that is in the pool with an expiry before the current time is rejected, the
pool afterwards has no entry for it and every other entry as before, and
every later validation of it, on that pool or any pool without it, is
rejected as well. -/
theorem csrf_validate_absent_expired (s : World) (k : String) (n : Nat) :
    (s.csrfTokens k = none → ValidateToken k s = (false, s)) ∧
    (∀ e, s.csrfTokens k = some e → e < s.clock s.ticks →
      (ValidateToken k s).1 = false ∧
      (ValidateToken k s).2.csrfTokens k = none ∧
      (∀ k', k' ≠ k → (ValidateToken k s).2.csrfTokens k' = s.csrfTokens k') ∧
      (ValidateToken k (ValidateToken k s).2).1 = false ∧
      (validateRepeatedly k n (ValidateToken k s).2).1 = List.replicate n false ∧
      (∀ s' : World, s'.csrfTokens k = none → (ValidateToken k s').1 = false)) := by
  refine ⟨ValidateToken_absent k s, fun e he hexp => ?_⟩
  have hv := ValidateToken_expired k s e he hexp
  have hfalse : (ValidateToken k s).1 = false := by rw [hv]
  have habsent := ValidateToken_false_absent k s hfalse
  refine ⟨hfalse, habsent, ?_, ?_, ?_, ?_⟩
  · intro k' hk'
    rw [hv]
    simp [hk']
  · rw [ValidateToken_false_again k s hfalse]
  · rw [validateRepeatedly_absent k n _ habsent]
  · intro s' hs'
    rw [ValidateToken_absent k s' hs']

/-- C7, at concrete worlds: in the empty pool `"tok"` is rejected, and when
the clock reads 101 the token `"tok"` of expiry 100 is rejected and
removed. -/
theorem csrf_validate_absent_expired_witness :
    ValidateToken "tok" { } = (false, { }) ∧
    (ValidateToken "tok" { sample.poolWorld with clock := fun _ => 101 }).1 = false ∧
    (ValidateToken "tok" { sample.poolWorld with clock := fun _ => 101 }).2.csrfTokens "tok" =
      none :=
  have h := (csrf_validate_absent_expired { sample.poolWorld with clock := fun _ => 101 }
    "tok" 0).2 100 rfl (by decide)
  ⟨(csrf_validate_absent_expired { } "tok" 0).1 rfl, h.1, h.2.1⟩

end CSRFClaims

section Splitting

open strings

theorem splitChars_ne_nil (sep : Char) (l : List Char) : splitChars sep l ≠ [] := by
  cases l with
  | nil => simp [splitChars]
  | cons c cs =>
    unfold splitChars
    split_ifs
    · simp
    · split <;> simp

theorem splitChars_no_sep (sep : Char) (l : List Char) (h : sep ∉ l) :
    splitChars sep l = [l] := by
  induction l with
  | nil => rfl
  | cons c cs ih =>
    have hc : c ≠ sep := fun e => h (by rw [e]; exact List.mem_cons_self _ _)
    have hcs : sep ∉ cs := fun e => h (List.mem_cons_of_mem _ e)
    simp [splitChars, hc, ih hcs]

theorem splitChars_append_sep (sep : Char) (a b : List Char) (h : sep ∉ a) :
    splitChars sep (a ++ sep :: b) = a :: splitChars sep b := by
  induction a with
  | nil => simp [splitChars]
  | cons c cs ih =>
    have hc : c ≠ sep := fun e => h (by rw [e]; exact List.mem_cons_self _ _)
    have hcs : sep ∉ cs := fun e => h (List.mem_cons_of_mem _ e)
    simp [splitChars, hc, ih hcs]

theorem splitChars_single (sep : Char) :
    ∀ (l p : List Char), splitChars sep l = [p] → l = p ∧ sep ∉ p := by
  intro l
  induction l with
  | nil =>
    intro p h
    simp only [splitChars, List.cons.injEq, and_true] at h
    subst h
    exact ⟨rfl, List.not_mem_nil _⟩
  | cons c cs ih =>
    intro p h
    unfold splitChars at h
    split_ifs at h with hc
    · simp only [List.cons.injEq] at h
      exact absurd h.2 (splitChars_ne_nil sep cs)
    · cases hs : splitChars sep cs with
      | nil => exact absurd hs (splitChars_ne_nil sep cs)
      | cons p' ps =>
        rw [hs] at h
        simp only [List.cons.injEq] at h
        obtain ⟨h1, h2⟩ := h
        subst h2
        obtain ⟨e1, e2⟩ := ih p' hs
        subst h1
        refine ⟨by rw [e1], ?_⟩
        intro hm
        rcases List.mem_cons.mp hm with hm | hm
        · exact hc hm.symm
        · exact e2 hm

theorem splitChars_pair (sep : Char) :
    ∀ (l a b : List Char), splitChars sep l = [a, b] → l = a ++ sep :: b ∧ sep ∉ a ∧ sep ∉ b := by
  intro l
  induction l with
  | nil =>
    intro a b h
    simp [splitChars] at h
  | cons c cs ih =>
    intro a b h
    unfold splitChars at h
    split_ifs at h with hc
    · simp only [List.cons.injEq] at h
      obtain ⟨h1, h2⟩ := h
      subst h1
      obtain ⟨e1, e2⟩ := splitChars_single sep cs b h2
      exact ⟨by rw [hc, e1]; rfl, List.not_mem_nil _, e2⟩
    · cases hs : splitChars sep cs with
      | nil => exact absurd hs (splitChars_ne_nil sep cs)
      | cons p' ps =>
        rw [hs] at h
        simp only [List.cons.injEq] at h
        obtain ⟨h1, h2⟩ := h
        subst h2
        obtain ⟨e1, e2, e3⟩ := ih p' b hs
        subst h1
        refine ⟨by rw [e1]; rfl, ?_, e3⟩
        intro hm
        rcases List.mem_cons.mp hm with hm | hm
        · exact hc hm.symm
        · exact e2 hm

/-- What it is for a string to split on spaces into exactly `["Bearer", token]`:
it is `"Bearer "` followed by a token without a space. -/
theorem Split_bearer_iff (cred token : String) :
    Split cred ' ' = ["Bearer", token] ↔ cred = "Bearer " ++ token ∧ ' ' ∉ token.toList := by
  have hmap : ∀ xs : List (List Char),
      xs.map String.mk = ["Bearer", token] ↔ xs = ["Bearer".toList, token.toList] := by
    intro xs
    constructor
    · intro h
      have h' := congrArg (List.map String.toList) h
      simpa [List.map_map, Function.comp_def] using h'
    · intro h
      subst h
      rfl
  unfold Split
  rw [hmap]
  constructor
  · intro h
    obtain ⟨e1, _, e3⟩ := splitChars_pair ' ' _ _ _ h
    refine ⟨?_, e3⟩
    apply String.ext
    rw [String.data_append]
    exact e1
  · rintro ⟨h1, h2⟩
    subst h1
    have e : ("Bearer " ++ token).toList = "Bearer".toList ++ ' ' :: token.toList := by
      show ("Bearer " ++ token).data = _
      rw [String.data_append]
      rfl
    rw [e, splitChars_append_sep ' ' _ _ (by decide), splitChars_no_sep ' ' _ h2]

end Splitting

section AuthChain

open middleware

theorem withIdentity_values (ctx : Context) (claims : auth.Claims) :
    (withIdentity ctx claims).Value UserIDKey = Any.int claims.UserID ∧
    (withIdentity ctx claims).Value UserEmailKey = Any.string claims.Email ∧
    (withIdentity ctx claims).Value UserRoleKey = Any.string claims.Role := by
  exact ⟨rfl, rfl, rfl⟩

/-- The handler of `AuthMiddleware` in terms of the credential string. -/
theorem AuthMiddleware_eq (jwtManager : auth.JWTManager) (next : Handler) (r : Request)
    (s : World) :
    AuthMiddleware jwtManager next r s =
      match credential r with
      | none => next r s
      | some cred =>
        if (strings.Split cred ' ').length ≠ 2 ∨ (strings.Split cred ' ').getD 0 "" ≠ "Bearer" then
          next r s
        else
          match jwtManager.ValidateToken ((strings.Split cred ' ').getD 1 "") with
          | .error _ => next r s
          | .ok claims => next (r.WithContext (withIdentity r.ctx claims)) s := by
  unfold AuthMiddleware credential
  by_cases hh : r.HeaderGet "Authorization" = ""
  · cases hc : r.Cookie "auth_token" with
    | none => simp [hh, hc]
    | some v => simp only [hh, hc, if_true, ne_eq, not_true_eq_false, if_false, Option.map_some']; rfl
  · simp only [hh, if_false, ne_eq, not_false_eq_true, if_true]; rfl

/-- A list of two strings whose first is `"Bearer"`. -/
theorem parts_bearer_iff (parts : List String) :
    ¬ (parts.length ≠ 2 ∨ parts.getD 0 "" ≠ "Bearer") ↔
      ∃ token, parts = ["Bearer", token] := by
  constructor
  · intro h
    rw [not_or, not_not, not_not] at h
    obtain ⟨hl, hb⟩ := h
    match parts, hl, hb with
    | [a, b], _, hb =>
      simp only [List.getD_cons_zero] at hb
      exact ⟨b, by rw [hb]⟩
  · rintro ⟨token, rfl⟩
    simp

/-- C8: `AuthMiddleware` never rejects and attaches an identity exactly
when a bearer token validates.  The next handler is run exactly once, on
the world as it was (nothing is written).  The credential string is the
`Authorization` header when that is non-empty, whatever the cookie, and
otherwise `"Bearer "` followed by the `auth_token` cookie.  The context
handed on carries user id, email and role of the validated claims when the
credential string splits on spaces into exactly `["Bearer", token]` and the
token manager validates `token`; in every other case it is the context of
the request. -/
theorem auth_middleware_attaches_identity (jwtManager : auth.JWTManager) (next : Handler)
    (r : Request) (s : World) :
    (∃ ctx, AuthMiddleware jwtManager next r s = next (r.WithContext ctx) s) ∧
    (r.HeaderGet "Authorization" ≠ "" →
      credential r = some (r.HeaderGet "Authorization") ∧
      ∀ cookies,
        AuthMiddleware jwtManager (fun r' s' => next { r' with Cookies := r.Cookies } s')
          { r with Cookies := cookies } s = AuthMiddleware jwtManager next r s) ∧
    (r.HeaderGet "Authorization" = "" →
      credential r = (r.Cookie "auth_token").map (fun v => "Bearer " ++ v)) ∧
    (∀ cred token claims, credential r = some cred →
      strings.Split cred ' ' = ["Bearer", token] → jwtManager.ValidateToken token = .ok claims →
      AuthMiddleware jwtManager next r s = next (r.WithContext (withIdentity r.ctx claims)) s ∧
      (withIdentity r.ctx claims).Value UserIDKey = Any.int claims.UserID ∧
      (withIdentity r.ctx claims).Value UserEmailKey = Any.string claims.Email ∧
      (withIdentity r.ctx claims).Value UserRoleKey = Any.string claims.Role) ∧
    ((¬ ∃ cred token claims, credential r = some cred ∧
        strings.Split cred ' ' = ["Bearer", token] ∧ jwtManager.ValidateToken token = .ok claims) →
      AuthMiddleware jwtManager next r s = next r s) ∧
    (∀ cred token, strings.Split cred ' ' = ["Bearer", token] ↔
      cred = "Bearer " ++ token ∧ ' ' ∉ token.toList) := by
  refine ⟨?_, ?_, ?_, ?_, ?_, Split_bearer_iff⟩
  · rw [AuthMiddleware_eq]
    cases hc : credential r with
    | none => exact ⟨r.ctx, rfl⟩
    | some cred =>
      simp only
      split_ifs
      · exact ⟨r.ctx, rfl⟩
      · cases jwtManager.ValidateToken ((strings.Split cred ' ').getD 1 "") with
        | error e => exact ⟨r.ctx, rfl⟩
        | ok claims => exact ⟨_, rfl⟩
  · intro hh
    refine ⟨by simp [credential, hh], fun cookies => ?_⟩
    have h0 : credential r = some (r.HeaderGet "Authorization") := by simp [credential, hh]
    have h1 : credential { r with Cookies := cookies } = some (r.HeaderGet "Authorization") := by
      have hh' : ({ r with Cookies := cookies } : Request).HeaderGet "Authorization" ≠ "" := hh
      unfold credential
      rw [if_pos hh']
      rfl
    rw [AuthMiddleware_eq, AuthMiddleware_eq, h1, h0]
    simp only
    split_ifs
    · rfl
    · cases jwtManager.ValidateToken
          ((strings.Split (r.HeaderGet "Authorization") ' ').getD 1 "") with
      | error e => rfl
      | ok claims => rfl
  · intro hh
    simp [credential, hh]
  · intro cred token claims hc hs hv
    refine ⟨?_, withIdentity_values r.ctx claims⟩
    rw [AuthMiddleware_eq, hc]
    simp [hs, hv]
  · intro hn
    rw [AuthMiddleware_eq]
    cases hc : credential r with
    | none => rfl
    | some cred =>
      simp only
      by_cases hp : (strings.Split cred ' ').length ≠ 2 ∨
          (strings.Split cred ' ').getD 0 "" ≠ "Bearer"
      · rw [if_pos hp]
      · rw [if_neg hp]
        obtain ⟨token, ht⟩ := (parts_bearer_iff _).mp hp
        cases hv : jwtManager.ValidateToken ((strings.Split cred ' ').getD 1 "") with
        | error e => rfl
        | ok claims =>
          exfalso
          refine hn ⟨cred, token, claims, hc, ht, ?_⟩
          rw [ht] at hv
          simpa using hv

/-- C8, at concrete requests: `Bearer good` in the header attaches the
identity of the claims; a header that is not of the bearer form leaves the
context as it is, although the cookie holds a valid token. -/
theorem auth_middleware_attaches_identity_witness :
    AuthMiddleware sample.jwtManager sample.okHandler sample.bearerRequest { } =
        sample.okHandler (sample.bearerRequest.WithContext sample.adminContext) { } ∧
    sample.adminContext.Value UserRoleKey = Any.string "admin" ∧
    AuthMiddleware sample.jwtManager sample.okHandler sample.basicRequest { } =
        sample.okHandler sample.basicRequest { } :=
  have h := (auth_middleware_attaches_identity sample.jwtManager sample.okHandler
    sample.bearerRequest { }).2.2.2.1 "Bearer good" "good"
      { UserID := 1, Email := "admin@example.org", Role := "admin" } rfl (by decide) rfl
  ⟨h.1, h.2.2.2,
    (auth_middleware_attaches_identity sample.jwtManager sample.okHandler
      sample.basicRequest { }).2.2.2.2.1 (by
        rintro ⟨cred, token, claims, hc, hs, _⟩
        have hc' : cred = "Basic good" := by
          have : credential sample.basicRequest = some "Basic good" := by decide
          rw [this] at hc
          exact (Option.some.inj hc).symm
        subst hc'
        have e : strings.Split "Basic good" ' ' = ["Basic", "good"] := by decide
        rw [e] at hs
        exact absurd (List.cons.inj hs).1 (by decide))⟩

/-- C9: `RequireAuth`.  When the context carries no user id the next
handler is not run: for `Accept: application/json` the response is status
401 with content type `application/json` and the JSON body with error code
`UNAUTHORIZED` and message `Unauthorized`, and otherwise it is a 303
redirect to `/admin/login`.  When the context carries a user id the next
handler is run and `RequireAuth` writes nothing. -/
theorem require_auth_decision (next : Handler) (r : Request) (s : World) :
    (r.ctx.Value UserIDKey = Any.nil →
      (r.HeaderGet "Accept" = "application/json" →
        ∀ next' : Handler, RequireAuth next' r s =
          s.write
            [ WriterCall.HeaderSet "Content-Type" "application/json",
              WriterCall.WriteHeader 401,
              WriterCall.JSONEncode
                (JSONValue.obj
                  [("error", JSONValue.obj
                    [("code", JSONValue.str "UNAUTHORIZED"),
                     ("message", JSONValue.str "Unauthorized")])]) ]) ∧
      (r.HeaderGet "Accept" ≠ "application/json" →
        ∀ next' : Handler, RequireAuth next' r s =
          s.write [WriterCall.Redirect "/admin/login" 303])) ∧
    (r.ctx.Value UserIDKey ≠ Any.nil → RequireAuth next r s = next r s) := by
  refine ⟨fun hnil => ⟨fun hacc next' => ?_, fun hacc next' => ?_⟩, fun hid => ?_⟩
  · simp [RequireAuth, hnil, hacc, http.StatusUnauthorized]
  · simp [RequireAuth, hnil, hacc, http.StatusSeeOther]
  · simp [RequireAuth, hid]

/-- C9, at concrete requests: without identity a JSON client gets 401, a
browser is redirected to the login page, and with the identity of
`sample.adminContext` the next handler runs. -/
theorem require_auth_decision_witness :
    (RequireAuth sample.okHandler { Header := [("Accept", "application/json")] } { }).w =
      [ WriterCall.HeaderSet "Content-Type" "application/json",
        WriterCall.WriteHeader 401,
        WriterCall.JSONEncode
          (JSONValue.obj
            [("error", JSONValue.obj
              [("code", JSONValue.str "UNAUTHORIZED"),
               ("message", JSONValue.str "Unauthorized")])]) ] ∧
    (RequireAuth sample.okHandler { Header := [("Accept", "text/html")] } { }).w =
      [WriterCall.Redirect "/admin/login" 303] ∧
    (RequireAuth sample.okHandler { ctx := sample.adminContext } { }).w =
      [WriterCall.WriteHeader 200] :=
  ⟨congrArg World.w
      (((require_auth_decision sample.okHandler { Header := [("Accept", "application/json")] }
        { }).1 rfl).1 (by decide) sample.okHandler),
    congrArg World.w
      (((require_auth_decision sample.okHandler { Header := [("Accept", "text/html")] }
        { }).1 rfl).2 (by decide) sample.okHandler),
    congrArg World.w
      ((require_auth_decision sample.okHandler { ctx := sample.adminContext } { }).2
        (by decide))⟩

/-- C10: `RequireRole`.  The next handler is run if and only if the
context carries a role string that is one of the allowed roles; otherwise
(no role string attached, a role not in the list, an empty list) the
response is `Forbidden` with status 403 and the next handler is not run. -/
theorem require_role_decision (roles : List String) (next : Handler) (r : Request)
    (s : World) :
    ((∃ role, r.ctx.Value UserRoleKey = Any.string role ∧ role ∈ roles) →
      RequireRole roles next r s = next r s) ∧
    ((¬ ∃ role, r.ctx.Value UserRoleKey = Any.string role ∧ role ∈ roles) →
      ∀ next' : Handler, RequireRole roles next' r s =
        s.write [WriterCall.Error "Forbidden" 403]) ∧
    (RequireRole [] next r s = s.write [WriterCall.Error "Forbidden" 403]) := by
  have hany : ∀ userRole : String,
      roles.any (fun role => userRole == role) = decide (userRole ∈ roles) := by
    intro userRole
    induction roles with
    | nil => simp
    | cons a l ih =>
      rw [List.any_cons, ih]
      by_cases h : userRole = a
      · subst h; simp
      · simp [h]
  refine ⟨?_, ?_, ?_⟩
  · rintro ⟨role, hr, hm⟩
    simp [RequireRole, hr, hany, hm]
  · intro hn next'
    unfold RequireRole
    cases hv : r.ctx.Value UserRoleKey with
    | string role =>
      have hm : role ∉ roles := fun hm => hn ⟨role, hv, hm⟩
      simp [hany, hm, http.StatusForbidden]
    | nil => rfl
    | int n => rfl
    | other a b => rfl
  · unfold RequireRole
    cases hv : r.ctx.Value UserRoleKey <;> rfl

/-- C10, at concrete requests: with the roles `admin` and `editor`
allowed, the admin identity passes, and a request without identity and a
viewer are answered 403. -/
theorem require_role_decision_witness :
    (RequireRole ["admin", "editor"] sample.okHandler { ctx := sample.adminContext } { }).w =
      [WriterCall.WriteHeader 200] ∧
    (RequireRole ["admin", "editor"] sample.okHandler { } { }).w =
      [WriterCall.Error "Forbidden" 403] ∧
    (RequireRole ["admin", "editor"] sample.okHandler
        { ctx := [(UserRoleKey, Any.string "viewer")] } { }).w =
      [WriterCall.Error "Forbidden" 403] :=
  ⟨congrArg World.w
      ((require_role_decision ["admin", "editor"] sample.okHandler
        { ctx := sample.adminContext } { }).1 ⟨"admin", rfl, by decide⟩),
    congrArg World.w
      ((require_role_decision ["admin", "editor"] sample.okHandler { } { }).2.1
        (by rintro ⟨role, hr, _⟩; exact Any.noConfusion hr) sample.okHandler),
    congrArg World.w
      ((require_role_decision ["admin", "editor"] sample.okHandler
        { ctx := [(UserRoleKey, Any.string "viewer")] } { }).2.1
        (by
          rintro ⟨role, hr, hm⟩
          have hr' : Any.string "viewer" = Any.string role := hr
          have e : role = "viewer" := (Any.string.inj hr').symm
          subst e
          revert hm
          decide) sample.okHandler)⟩

end AuthChain

section MergeFields

open domain.component

/-- C16: `MergeWithDefaults` is field-wise.  With `d = Defaults(c)`, each
of Title, Subtitle, Content, LinkText and LinkURL of the merged component is
the value of `c` when that is non-empty and the value of `d` when it is
empty, and ID, Type, Name, ImageURL and DataJSON are unchanged. -/
theorem MergeWithDefaults_fieldwise (c : Component) :
    c.MergeWithDefaults.Title = (if c.Title = "" then c.Defaults.Title else c.Title) ∧
    c.MergeWithDefaults.Subtitle =
      (if c.Subtitle = "" then c.Defaults.Subtitle else c.Subtitle) ∧
    c.MergeWithDefaults.Content = (if c.Content = "" then c.Defaults.Content else c.Content) ∧
    c.MergeWithDefaults.LinkText =
      (if c.LinkText = "" then c.Defaults.LinkText else c.LinkText) ∧
    c.MergeWithDefaults.LinkURL = (if c.LinkURL = "" then c.Defaults.LinkURL else c.LinkURL) ∧
    c.MergeWithDefaults.ID = c.ID ∧
    c.MergeWithDefaults.Type_ = c.Type_ ∧
    c.MergeWithDefaults.Name = c.Name ∧
    c.MergeWithDefaults.ImageURL = c.ImageURL ∧
    c.MergeWithDefaults.DataJSON = c.DataJSON := by
  rw [merge_fields]
  exact ⟨rfl, rfl, rfl, rfl, rfl, rfl, rfl, rfl, rfl, rfl⟩

/-- C17, as stated, fails: the component `sample.galleryComponent` has the
type `image`, which is none of hero, about and text, and its `Defaults` has
the title `Gallery`, which is not empty. -/
theorem Defaults_unknown_type_not_empty :
    sample.galleryComponent.Type_ ≠ TypeHero ∧
    sample.galleryComponent.Type_ ≠ TypeAbout ∧
    sample.galleryComponent.Type_ ≠ TypeText ∧
    sample.galleryComponent.Defaults.Title = "Gallery" ∧
    sample.galleryComponent.Defaults.Title ≠ "" := by
  decide

/-- C17, amended: for every component whose type is not hero, about or
text, `Defaults` returns the component it was called on, with every field
as it is; so Title, Subtitle, Content, LinkText and LinkURL of the result
are those of the component, and `MergeWithDefaults` substitutes nothing. -/
theorem Defaults_unknown_type_is_receiver (c : Component)
    (h1 : c.Type_ ≠ TypeHero) (h2 : c.Type_ ≠ TypeAbout) (h3 : c.Type_ ≠ TypeText) :
    c.Defaults = c ∧
    c.Defaults.Title = c.Title ∧
    c.Defaults.Subtitle = c.Subtitle ∧
    c.Defaults.Content = c.Content ∧
    c.Defaults.LinkText = c.LinkText ∧
    c.Defaults.LinkURL = c.LinkURL ∧
    c.MergeWithDefaults = c := by
  have hk : ¬ KnownType c.Type_ := by
    unfold KnownType
    rintro (h | h | h)
    · exact h1 h
    · exact h2 h
    · exact h3 h
  have hd := Defaults_unknown c hk
  rw [hd]
  exact ⟨rfl, rfl, rfl, rfl, rfl, rfl, merge_unknown c hk⟩

/-- C17, amended, at `sample.galleryComponent`. -/
theorem Defaults_unknown_type_is_receiver_witness :
    sample.galleryComponent.Defaults = sample.galleryComponent ∧
    sample.galleryComponent.MergeWithDefaults = sample.galleryComponent :=
  have h := Defaults_unknown_type_is_receiver sample.galleryComponent
    (by decide) (by decide) (by decide)
  ⟨h.1, h.2.2.2.2.2.2⟩

end MergeFields

section RenderOrder

open domain.component shared.component

theorem MergeWithDefaults_fieldwise_Name (c : Component) : c.MergeWithDefaults.Name = c.Name := by
  rw [merge_fields]

/-- The loop of `RenderMultiple` succeeds exactly when every component,
merged with its defaults, renders, and then it appends the rendered
components, in order, to the ones it started with. -/
theorem RenderMultiple_loop_ok_iff (r : Renderer) :
    ∀ (cs : List Component) (acc out : List templ.Component),
      Renderer.RenderMultiple.loop r cs acc = .ok out ↔
        ∃ ts : List templ.Component,
          cs.map (fun c => r.Render c.MergeWithDefaults) = ts.map Except.ok ∧
            out = acc ++ ts := by
  intro cs
  induction cs with
  | nil =>
    intro acc out
    simp only [Renderer.RenderMultiple.loop, Except.ok.injEq, List.map_nil]
    constructor
    · intro h
      exact ⟨[], rfl, by simp [h]⟩
    · rintro ⟨ts, hts, hout⟩
      have : ts = [] := by
        cases ts with
        | nil => rfl
        | cons t ts => simp at hts
      subst this
      simp [hout]
  | cons c rest ih =>
    intro acc out
    simp only [Renderer.RenderMultiple.loop, List.map_cons]
    cases hc : r.Render c.MergeWithDefaults with
    | error e =>
      simp only
      constructor
      · intro h; simp at h
      · rintro ⟨ts, hts, _⟩
        cases ts with
        | nil => simp at hts
        | cons t ts => simp at hts
    | ok comp =>
      simp only
      rw [ih]
      constructor
      · rintro ⟨ts, hts, hout⟩
        exact ⟨comp :: ts, by simp [hts], by simp [hout]⟩
      · rintro ⟨ts, hts, hout⟩
        cases ts with
        | nil => simp at hts
        | cons t ts =>
          simp only [List.map_cons, List.cons.injEq, Except.ok.injEq] at hts
          obtain ⟨h1, h2⟩ := hts
          subst h1
          exact ⟨ts, h2, by simp [hout]⟩

/-- The loop of `RenderMultiple` stops at the first component that fails
to render, with an error that names it. -/
theorem RenderMultiple_loop_error (r : Renderer) (c : Component) (post : List Component)
    (e : String) (hc : r.Render c.MergeWithDefaults = .error e) :
    ∀ (pre : List Component) (acc : List templ.Component),
      (∀ p ∈ pre, ∃ t, r.Render p.MergeWithDefaults = .ok t) →
      Renderer.RenderMultiple.loop r (pre ++ c :: post) acc =
        .error ("failed to render component " ++ c.Name ++ ": " ++ e) := by
  intro pre
  induction pre with
  | nil =>
    intro acc _
    simp only [List.nil_append, Renderer.RenderMultiple.loop, hc]
    rw [(MergeWithDefaults_fieldwise_Name c)]
  | cons p pre ih =>
    intro acc hpre
    obtain ⟨t, ht⟩ := hpre p (List.mem_cons_self _ _)
    simp only [List.cons_append, Renderer.RenderMultiple.loop, ht]
    exact ih _ (fun q hq => hpre q (List.mem_cons_of_mem _ hq))

end RenderOrder

section RenderClaims

open domain.component shared.component

theorem Render_of_registered (r : Renderer) (c : Component) (f : RenderFunc)
    (h : r.registry c.Type_ = some f) :
    r.Render c.MergeWithDefaults = f c.MergeWithDefaults := by
  unfold Renderer.Render
  rw [merge_Type, h]

theorem Render_of_unregistered (r : Renderer) (c : Component) (h : r.registry c.Type_ = none) :
    r.Render c.MergeWithDefaults =
      .error ("no renderer registered for component type: " ++ c.Type_) := by
  unfold Renderer.Render
  rw [merge_Type, h]

theorem map_ok_of_forall {α β : Type} (g : α → Except String β) :
    ∀ l : List α, (∀ a ∈ l, ∃ b, g a = .ok b) → ∃ bs : List β, l.map g = bs.map Except.ok := by
  intro l
  induction l with
  | nil => intro _; exact ⟨[], rfl⟩
  | cons a l ih =>
    intro h
    obtain ⟨b, hb⟩ := h a (List.mem_cons_self _ _)
    obtain ⟨bs, hbs⟩ := ih (fun x hx => h x (List.mem_cons_of_mem _ hx))
    exact ⟨b :: bs, by simp [hb, hbs]⟩

theorem Contains_middle (a b c : String) : strings.Contains (a ++ b ++ c) b := by
  unfold strings.Contains
  refine ⟨a.toList, c.toList, ?_⟩
  simp [String.toList, String.data_append]

/-- C18: `RenderMultiple` preserves order.  When the type of every
component of the list has a registered render function that succeeds on the
component merged with its defaults, `RenderMultiple` returns no error and a
list of the same length as the input, whose `i`-th element is the result of
rendering `MergeWithDefaults` of the `i`-th input component. -/
theorem RenderMultiple_preserves_order (r : Renderer) (cs : List Component)
    (h : ∀ c ∈ cs, ∃ f t, r.registry c.Type_ = some f ∧ f c.MergeWithDefaults = .ok t) :
    ∃ out : List templ.Component,
      r.RenderMultiple cs = .ok out ∧
      out.length = cs.length ∧
      cs.map (fun c => r.Render c.MergeWithDefaults) = out.map Except.ok ∧
      ∀ (i : Nat) (hi : i < cs.length) (ho : i < out.length),
        r.Render (cs.get ⟨i, hi⟩).MergeWithDefaults = .ok (out.get ⟨i, ho⟩) := by
  have h' : ∀ c ∈ cs, ∃ t, r.Render c.MergeWithDefaults = .ok t := by
    intro c hc
    obtain ⟨f, t, hf, ht⟩ := h c hc
    exact ⟨t, by rw [Render_of_registered r c f hf, ht]⟩
  obtain ⟨out, hout⟩ := map_ok_of_forall (fun c => r.Render c.MergeWithDefaults) cs h'
  have hlen : out.length = cs.length := by
    have := congrArg List.length hout
    simpa using this.symm
  refine ⟨out, ?_, hlen, hout, ?_⟩
  · unfold Renderer.RenderMultiple
    rw [RenderMultiple_loop_ok_iff]
    exact ⟨out, hout, by simp⟩
  · intro i hi ho
    have key := congrArg (fun l => l[i]?) hout
    simp only [List.getElem?_map, List.getElem?_eq_getElem hi, List.getElem?_eq_getElem ho] at key
    simpa using key

/-- C18, at the default renderer and the two components
`sample.textComponent` and a hero: both render, in the order given. -/
theorem RenderMultiple_preserves_order_witness :
    ∃ out : List templ.Component,
      (NewRenderer sample.policy).RenderMultiple
          [sample.textComponent, { Type_ := "hero", Name := "top" }] = .ok out ∧
      out.length = 2 :=
  have h := RenderMultiple_preserves_order (NewRenderer sample.policy)
    [sample.textComponent, { Type_ := "hero", Name := "top" }]
    (by
      intro c hc
      simp only [List.mem_cons, List.mem_singleton, List.not_mem_nil, or_false] at hc
      rcases hc with rfl | rfl
      · exact ⟨renderText sample.policy, _, rfl, rfl⟩
      · exact ⟨renderHero, _, rfl, rfl⟩)
  h.imp (fun _ ho => ⟨ho.1, ho.2.1⟩)

end RenderClaims

section RenderFailure

open domain.component shared.component

/-- C19, as stated, fails: in `sample.failingRenderer` the type of
`sample.clipComponent` has no render function, and it is the first such
component of the list `[gallery, clip]`; `RenderMultiple` returns an error,
but the message names `gallery`, whose render function failed before, and
does not contain the name `clip`. -/
theorem RenderMultiple_error_names_other_component :
    (sample.failingRenderer.registry sample.clipComponent.Type_).isNone = true ∧
    (sample.failingRenderer.registry sample.galleryComponent.Type_).isSome = true ∧
    sample.failingRenderer.RenderMultiple [sample.galleryComponent, sample.clipComponent] =
      .error "failed to render component gallery: boom" ∧
    ¬ strings.Contains "failed to render component gallery: boom" sample.clipComponent.Name := by
  refine ⟨rfl, rfl, rfl, ?_⟩
  unfold strings.Contains
  decide

/-- C19, amended: for every renderer and every list of components in which
at least one component's type has no registered render function,
`RenderMultiple` returns an error and no rendered components; the error
names the first component of the list that fails to render: that is the
first component without a registered render function when every component
before it renders, and the error message then contains its Name; and it is
a component whose render function returned an error when that comes
first. -/
theorem RenderMultiple_fails_as_a_whole (r : Renderer) (cs : List Component)
    (h : ∃ c ∈ cs, r.registry c.Type_ = none) :
    (∃ msg, r.RenderMultiple cs = .error msg) ∧
    (∀ pre c post, cs = pre ++ c :: post →
      (∀ p ∈ pre, ∃ t, r.Render p.MergeWithDefaults = .ok t) →
      r.registry c.Type_ = none →
        r.RenderMultiple cs =
          .error ("failed to render component " ++ c.Name ++
            ": no renderer registered for component type: " ++ c.Type_) ∧
        strings.Contains ("failed to render component " ++ c.Name ++
            ": no renderer registered for component type: " ++ c.Type_) c.Name) ∧
    (∀ pre c post e, cs = pre ++ c :: post →
      (∀ p ∈ pre, ∃ t, r.Render p.MergeWithDefaults = .ok t) →
      r.Render c.MergeWithDefaults = .error e →
        r.RenderMultiple cs = .error ("failed to render component " ++ c.Name ++ ": " ++ e)) := by
  refine ⟨?_, ?_, ?_⟩
  · obtain ⟨c, hc, hreg⟩ := h
    cases hres : r.RenderMultiple cs with
    | error msg => exact ⟨msg, rfl⟩
    | ok out =>
      exfalso
      unfold Renderer.RenderMultiple at hres
      rw [RenderMultiple_loop_ok_iff] at hres
      obtain ⟨ts, hts, _⟩ := hres
      have hmem : r.Render c.MergeWithDefaults ∈
          cs.map (fun c => r.Render c.MergeWithDefaults) :=
        List.mem_map.mpr ⟨c, hc, rfl⟩
      rw [hts, Render_of_unregistered r c hreg] at hmem
      obtain ⟨t, _, ht⟩ := List.mem_map.mp hmem
      exact Except.noConfusion ht
  · intro pre c post hcs hpre hreg
    subst hcs
    refine ⟨?_, ?_⟩
    · unfold Renderer.RenderMultiple
      rw [RenderMultiple_loop_error r c post _ (Render_of_unregistered r c hreg) pre [] hpre]
      have e : ": " ++ "no renderer registered for component type: " =
          ": no renderer registered for component type: " := by decide
      rw [← e]
      simp only [String.append_assoc]
    · have := Contains_middle "failed to render component " c.Name
        (": no renderer registered for component type: " ++ c.Type_)
      simpa [String.append_assoc] using this
  · intro pre c post e hcs hpre herr
    subst hcs
    unfold Renderer.RenderMultiple
    exact RenderMultiple_loop_error r c post e herr pre [] hpre

/-- C19, amended, at the default renderer: the list `[text, clip]` fails
with an error that names `clip`. -/
theorem RenderMultiple_fails_as_a_whole_witness :
    (NewRenderer sample.policy).RenderMultiple [sample.textComponent, sample.clipComponent] =
      .error "failed to render component clip: no renderer registered for component type: video" :=
  ((RenderMultiple_fails_as_a_whole (NewRenderer sample.policy)
      [sample.textComponent, sample.clipComponent]
      ⟨sample.clipComponent, by simp, rfl⟩).2.1
    [sample.textComponent] sample.clipComponent [] rfl
    (by
      intro p hp
      rw [List.mem_singleton] at hp
      subst hp
      exact ⟨_, rfl⟩)
    rfl).1

end RenderFailure

section LoginClaims

open application.auth domain.user

/-- The steps of `Login`, one equation per branch. -/
theorem Login_lookup_fails {σ : Type} (kdf : argon2.KDF) (s : Service σ) (req : LoginRequest)
    (db : σ) (e : error) (h : s.userService.repo.FindByEmail req.Email db = .error e) :
    s.Login kdf req db =
      .returned (.error (error.AppError "UNAUTHORIZED" "Invalid credentials" 401 error.nil), db) := by
  simp [Service.Login, application.user.Service.GetUserByEmail, h, errors.NewUnauthorized,
    errors.New, errors.ErrCodeUnauthorized, http.StatusUnauthorized]

theorem Login_inactive {σ : Type} (kdf : argon2.KDF) (s : Service σ) (req : LoginRequest)
    (db : σ) (u : User) (h : s.userService.repo.FindByEmail req.Email db = .ok u)
    (ha : u.IsActive = false) :
    s.Login kdf req db =
      .returned
        (.error (error.AppError "FORBIDDEN" "User account is inactive" 403 error.nil), db) := by
  simp [Service.Login, application.user.Service.GetUserByEmail, h, ha, errors.NewForbidden,
    errors.New, errors.ErrCodeForbidden, http.StatusForbidden]

theorem Login_verified {σ : Type} (kdf : argon2.KDF) (s : Service σ) (req : LoginRequest)
    (db : σ) (u : User) (h : s.userService.repo.FindByEmail req.Email db = .ok u)
    (ha : u.IsActive = true) (valid : Bool) (err : error)
    (hv : s.hasher.VerifyPassword kdf req.Password u.PasswordHash = .returned (valid, err)) :
    s.Login kdf req db =
      if err ≠ error.nil then
        .returned
          (.error (error.AppError "INTERNAL_ERROR" "Failed to verify password" 500 err), db)
      else if valid = false then
        .returned (.error (error.AppError "UNAUTHORIZED" "Invalid credentials" 401 error.nil), db)
      else
        match s.jwtManager.GenerateToken u.ID u.Email u.Role with
        | .error e =>
          .returned
            (.error (error.AppError "INTERNAL_ERROR" "Failed to generate token" 500 e), db)
        | .ok token =>
          .returned (.ok { Token := token, User := u },
            (s.userService.repo.UpdateLastLogin u.ID db).2) := by
  simp only [Service.Login, application.user.Service.GetUserByEmail, h, ha, hv]
  by_cases he : err = error.nil
  · cases valid
    · simp [he, errors.NewUnauthorized, errors.New, errors.ErrCodeUnauthorized,
        http.StatusUnauthorized]
    · cases hg : s.jwtManager.GenerateToken u.ID u.Email u.Role with
      | error e =>
        simp [he, errors.NewInternal, errors.Wrap, errors.ErrCodeInternal,
          http.StatusInternalServerError]
      | ok token =>
        simp [he, application.user.Service.UpdateLastLogin]
  · simp [he, errors.NewInternal, errors.Wrap, errors.ErrCodeInternal,
      http.StatusInternalServerError]

/-- C11: `Login` does not distinguish an unknown email from a wrong
password.  The error returned when the lookup by email fails and the error
returned when the user exists, is active and `VerifyPassword` returns
`(false, nil)` are the same `AppError`: code `UNAUTHORIZED`, message
`Invalid credentials`, HTTP status 401 and no wrapped cause; and in both
cases the store is left as it was. -/
theorem login_unknown_email_like_wrong_password {σ : Type} (kdf : argon2.KDF) (s : Service σ)
    (req req' : LoginRequest) (db db' : σ) (e : error) (u : User)
    (hmiss : s.userService.repo.FindByEmail req.Email db = .error e)
    (hfound : s.userService.repo.FindByEmail req'.Email db' = .ok u)
    (hactive : u.IsActive = true)
    (hwrong : s.hasher.VerifyPassword kdf req'.Password u.PasswordHash =
      .returned (false, error.nil)) :
    s.Login kdf req db =
        .returned
          (.error (error.AppError "UNAUTHORIZED" "Invalid credentials" 401 error.nil), db) ∧
    s.Login kdf req' db' =
        .returned
          (.error (error.AppError "UNAUTHORIZED" "Invalid credentials" 401 error.nil), db') := by
  refine ⟨Login_lookup_fails kdf s req db e hmiss, ?_⟩
  rw [Login_verified kdf s req' db' u hfound hactive false error.nil hwrong]
  simp

/-- C11, at `sample.authService` with the one user `sample.alice`: an
unknown email and a wrong password for `alice` get the same error. -/
theorem login_unknown_email_like_wrong_password_witness :
    Service.Login sample.kdf sample.authService ⟨"bob@example.com", "secretpw"⟩ [sample.alice] =
        .returned
          (.error (error.AppError "UNAUTHORIZED" "Invalid credentials" 401 error.nil),
            [sample.alice]) ∧
    Service.Login sample.kdf sample.authService ⟨"alice@example.com", "wrong"⟩ [sample.alice] =
        .returned
          (.error (error.AppError "UNAUTHORIZED" "Invalid credentials" 401 error.nil),
            [sample.alice]) :=
  login_unknown_email_like_wrong_password sample.kdf sample.authService
    ⟨"bob@example.com", "secretpw"⟩ ⟨"alice@example.com", "wrong"⟩ [sample.alice] [sample.alice]
    (error.New "user not found") sample.alice (by decide) (by decide) (by decide) (by decide)

/-- C12, amended: whenever the password verification returns, the outcome
of `Login` is decided in this order.  The lookup by email fails:
Unauthorized (401).  Else the user is inactive: Forbidden (403).  Else
`VerifyPassword` returns an error: Internal (500), wrapping it.  Else it
returns false: Unauthorized (401).  Else `GenerateToken` fails: Internal
(500), wrapping its error.  Else success with the issued token and the
looked-up user, whatever `UpdateLastLogin` returns; the store is the one
`UpdateLastLogin` leaves. -/
theorem login_outcome_order {σ : Type} (kdf : argon2.KDF) (s : Service σ) (req : LoginRequest)
    (db : σ) :
    (∀ e, s.userService.repo.FindByEmail req.Email db = .error e →
      s.Login kdf req db =
        .returned
          (.error (error.AppError "UNAUTHORIZED" "Invalid credentials" 401 error.nil), db)) ∧
    (∀ u, s.userService.repo.FindByEmail req.Email db = .ok u →
      (u.IsActive = false →
        s.Login kdf req db =
          .returned
            (.error (error.AppError "FORBIDDEN" "User account is inactive" 403 error.nil),
              db)) ∧
      (u.IsActive = true →
        ∀ valid err,
          s.hasher.VerifyPassword kdf req.Password u.PasswordHash = .returned (valid, err) →
          (err ≠ error.nil →
            s.Login kdf req db =
              .returned
                (.error (error.AppError "INTERNAL_ERROR" "Failed to verify password" 500 err),
                  db)) ∧
          (err = error.nil → valid = false →
            s.Login kdf req db =
              .returned
                (.error (error.AppError "UNAUTHORIZED" "Invalid credentials" 401 error.nil),
                  db)) ∧
          (err = error.nil → valid = true →
            (∀ e, s.jwtManager.GenerateToken u.ID u.Email u.Role = .error e →
              s.Login kdf req db =
                .returned
                  (.error (error.AppError "INTERNAL_ERROR" "Failed to generate token" 500 e),
                    db)) ∧
            (∀ token, s.jwtManager.GenerateToken u.ID u.Email u.Role = .ok token →
              s.Login kdf req db =
                .returned (.ok { Token := token, User := u },
                  (s.userService.repo.UpdateLastLogin u.ID db).2))))) := by
  refine ⟨fun e h => Login_lookup_fails kdf s req db e h, fun u h => ⟨?_, ?_⟩⟩
  · intro ha
    exact Login_inactive kdf s req db u h ha
  · intro ha valid err hv
    have key := Login_verified kdf s req db u h ha valid err hv
    refine ⟨?_, ?_, ?_⟩
    · intro he
      rw [key, if_pos he]
    · intro he hf
      rw [key, if_neg (by simp [he]), if_pos hf]
    · intro he ht
      refine ⟨?_, ?_⟩
      · intro e hg
        rw [key, if_neg (by simp [he]), if_neg (by simp [ht]), hg]
      · intro token hg
        rw [key, if_neg (by simp [he]), if_neg (by simp [ht]), hg]

/-- C12, amended, at `sample.authService`, whose `UpdateLastLogin` always fails:
`alice` logs in with her password all the same. -/
theorem login_outcome_order_witness :
    Service.Login sample.kdf sample.authService ⟨"alice@example.com", "secretpw"⟩ [sample.alice] =
        .returned (.ok { Token := "token:alice@example.com", User := sample.alice },
          [sample.alice]) ∧
    (sample.userRepo.UpdateLastLogin 5 [sample.alice]).1 ≠ error.nil :=
  ⟨(((((login_outcome_order sample.kdf sample.authService ⟨"alice@example.com", "secretpw"⟩
      [sample.alice]).2 sample.alice (by decide)).2 (by decide) true error.nil
        (by decide)).2.2 rfl rfl).2 "token:alice@example.com" (by decide)),
    by decide⟩

end LoginClaims

section RegisterClaims

open application.auth domain.user

theorem registerRole_cases (requested : String) :
    (requested = "admin" → registerRole requested = "admin") ∧
    (requested = "editor" → registerRole requested = "editor") ∧
    (requested = "author" → registerRole requested = "author") ∧
    (requested ∉ ["admin", "editor", "author"] → registerRole requested = "viewer") := by
  refine ⟨?_, ?_, ?_, ?_⟩
  · rintro rfl; decide
  · rintro rfl; decide
  · rintro rfl; decide
  · intro h
    simp only [List.mem_cons, List.mem_singleton, List.not_mem_nil, or_false, not_or] at h
    obtain ⟨h1, h2, h3⟩ := h
    unfold registerRole
    simp [h1, h2, h3, RoleViewer]

theorem registerRole_ne_empty (requested : String) : registerRole requested ≠ "" := by
  unfold registerRole
  split_ifs <;> decide

/-- The user `Register` hands to the store. -/
theorem CreateUser_of_free_email {σ : Type} (us : application.user.Service σ) (u : User)
    (now : Time) (db : σ) (e : error) (hfree : us.repo.FindByEmail u.Email db = .error e)
    (hrole : u.Role ≠ "") :
    us.CreateUser u now db =
      match us.repo.Create { u with CreatedAt := now, UpdatedAt := now, IsActive := true } db with
      | (.error err, db') =>
        ((err, { u with CreatedAt := now, UpdatedAt := now, IsActive := true }), db')
      | (.ok id, db') =>
        ((error.nil, { u with CreatedAt := now, UpdatedAt := now, IsActive := true, ID := id }),
          db') := by
  simp only [application.user.Service.CreateUser, hfree, if_neg hrole]

/-- C20: the role defaulting of `Register`.  Whenever `Register` creates a
user, its role is admin, editor or author when the requested role is
exactly that string and viewer for every other requested string (the empty
string and strings that differ in case included); the user is active, has
the email and name of the request, and its `PasswordHash` is the encoded
hash `HashPassword` returned for the password.  And `Register` does create
that user when the email is not taken, `HashPassword` returns and the store
accepts the user. -/
theorem register_role_defaulting {σ : Type} (kdf : argon2.KDF) (s : Service σ)
    (randRead : Except error (List Nat)) (now : Time) (req : RegisterRequest) (db : σ) :
    (∀ u db', s.Register kdf randRead now req db = .returned (.ok u, db') →
      (req.Role = "admin" → u.Role = "admin") ∧
      (req.Role = "editor" → u.Role = "editor") ∧
      (req.Role = "author" → u.Role = "author") ∧
      (req.Role ∉ ["admin", "editor", "author"] → u.Role = "viewer") ∧
      u.IsActive = true ∧ u.Email = req.Email ∧ u.Name = req.Name ∧
      s.hasher.HashPassword kdf randRead req.Password = .returned (u.PasswordHash, error.nil)) ∧
    (∀ e passwordHash id db',
      s.userService.repo.FindByEmail req.Email db = .error e →
      s.hasher.HashPassword kdf randRead req.Password = .returned (passwordHash, error.nil) →
      s.userService.repo.Create
          { Email := req.Email, PasswordHash := passwordHash, Name := req.Name,
            Role := registerRole req.Role, IsActive := true, CreatedAt := now,
            UpdatedAt := now } db = (.ok id, db') →
      s.Register kdf randRead now req db =
        .returned
          (.ok { ID := id, Email := req.Email, PasswordHash := passwordHash, Name := req.Name,
                 Role := registerRole req.Role, IsActive := true, CreatedAt := now,
                 UpdatedAt := now }, db')) := by
  have hreg := registerRole_cases req.Role
  constructor
  · intro u db' h
    unfold Service.Register application.user.Service.GetUserByEmail at h
    cases hf : s.userService.repo.FindByEmail req.Email db with
    | ok u0 => rw [hf] at h; simp at h
    | error e =>
      rw [hf] at h
      simp only at h
      cases hh : s.hasher.HashPassword kdf randRead req.Password with
      | panicked => rw [hh] at h; simp at h
      | returned res =>
        obtain ⟨passwordHash, err⟩ := res
        rw [hh] at h
        simp only at h
        by_cases he : err = error.nil
        · subst he
          simp only [ne_eq, not_true_eq_false, if_false] at h
          rw [CreateUser_of_free_email s.userService _ now db e hf
            (registerRole_ne_empty req.Role)] at h
          rcases hc : s.userService.repo.Create
              { Email := req.Email, PasswordHash := passwordHash, Name := req.Name,
                Role := registerRole req.Role, IsActive := true, CreatedAt := now,
                UpdatedAt := now } db with ⟨res, db''⟩
          rw [hc] at h
          cases res with
          | error err' =>
            simp only at h
            by_cases he' : err' = error.nil
            · simp only [he', ne_eq, not_true_eq_false, if_false, MayPanic.returned.injEq,
                Prod.mk.injEq, Except.ok.injEq] at h
              obtain ⟨hu, _⟩ := h
              subst hu
              exact ⟨hreg.1, hreg.2.1, hreg.2.2.1, hreg.2.2.2, rfl, rfl, rfl, rfl⟩
            · simp [he'] at h
          | ok id =>
            simp only [ne_eq, not_true_eq_false, if_false, MayPanic.returned.injEq,
              Prod.mk.injEq, Except.ok.injEq] at h
            obtain ⟨hu, _⟩ := h
            subst hu
            exact ⟨hreg.1, hreg.2.1, hreg.2.2.1, hreg.2.2.2, rfl, rfl, rfl, rfl⟩
        · simp [he] at h
  · intro e passwordHash id db' hf hh hc
    unfold Service.Register application.user.Service.GetUserByEmail
    rw [hf]
    simp only [hh, ne_eq, not_true_eq_false, if_false]
    rw [CreateUser_of_free_email s.userService _ now db e hf (registerRole_ne_empty req.Role)]
    rw [hc]
    simp

end RegisterClaims

section RegisterInstance

open application.auth domain.user

/-- C20, at `sample.authService`: registering `bob` with the requested
role `Admin` (which differs from `admin` in case) creates an active user
with the role `viewer` and the encoded hash as `PasswordHash`. -/
theorem register_role_defaulting_witness :
    Service.Register sample.kdf sample.authService (.ok [115, 97, 108, 116]) 1000
        ⟨"bob@example.com", "hunter22", "Bob", "Admin"⟩ [sample.alice] =
      .returned
        (.ok { ID := 2, Email := "bob@example.com",
               PasswordHash := sample.alice.PasswordHash, Name := "Bob",
               Role := "viewer", IsActive := true, CreatedAt := 1000, UpdatedAt := 1000 },
          [sample.alice,
           { ID := 2, Email := "bob@example.com",
             PasswordHash := sample.alice.PasswordHash, Name := "Bob",
             Role := "viewer", IsActive := true, CreatedAt := 1000, UpdatedAt := 1000 }]) ∧
    ("Admin" ∉ ["admin", "editor", "author"] →
      ({ ID := 2, Email := "bob@example.com",
         PasswordHash := sample.alice.PasswordHash, Name := "Bob",
         Role := "viewer", IsActive := true, CreatedAt := 1000, UpdatedAt := 1000 } : User).Role =
        "viewer") :=
  have h := (register_role_defaulting sample.kdf sample.authService (.ok [115, 97, 108, 116]) 1000
    ⟨"bob@example.com", "hunter22", "Bob", "Admin"⟩ [sample.alice]).2
      (error.New "user not found") sample.alice.PasswordHash 2 _ (by decide) (by decide) rfl
  ⟨h, ((register_role_defaulting sample.kdf sample.authService (.ok [115, 97, 108, 116]) 1000
    ⟨"bob@example.com", "hunter22", "Bob", "Admin"⟩ [sample.alice]).1 _ _ h).2.2.2.1⟩

end RegisterInstance

section Base64RoundTrip

open base64

theorem sextets_lt : ∀ (bytes : List Nat), ∀ v ∈ sextets bytes, v < 64 := by
  intro bytes
  induction bytes using sextets.induct with
  | case1 a b c rest ih =>
    intro v hv
    simp only [sextets, List.mem_cons] at hv
    rcases hv with h | h | h | h | h
    · rw [h]; exact Nat.mod_lt _ (by decide)
    · rw [h]; exact Nat.mod_lt _ (by decide)
    · rw [h]; exact Nat.mod_lt _ (by decide)
    · rw [h]; exact Nat.mod_lt _ (by decide)
    · exact ih v h
  | case2 a b =>
    intro v hv
    simp only [sextets, List.mem_cons, List.mem_singleton, List.not_mem_nil, or_false] at hv
    rcases hv with h | h | h <;> rw [h] <;> exact Nat.mod_lt _ (by decide)
  | case3 a =>
    intro v hv
    simp only [sextets, List.mem_cons, List.mem_singleton, List.not_mem_nil, or_false] at hv
    rcases hv with h | h <;> rw [h] <;> exact Nat.mod_lt _ (by decide)
  | case4 =>
    intro v hv
    simp [sextets] at hv

/-- Every character of the alphabet decodes to its index, and is none of
`\n`, `\r` and `$`. -/
theorem encodeStd_decode :
    ∀ v, v < 64 →
      decodeMapStd (encodeStd.getD v 'A') = some v ∧ encodeStd.getD v 'A' ≠ '\n' ∧
        encodeStd.getD v 'A' ≠ '\r' ∧ encodeStd.getD v 'A' ≠ '$' := by
  decide

theorem decodeValues_map (vs : List Nat) (h : ∀ v ∈ vs, v < 64) :
    decodeValues (vs.map (fun v => encodeStd.getD v 'A')) = .ok vs := by
  induction vs with
  | nil => rfl
  | cons v vs ih =>
    have hv := encodeStd_decode v (h v (List.mem_cons_self _ _))
    have ih' := ih (fun x hx => h x (List.mem_cons_of_mem _ hx))
    simp only [List.map_cons, decodeValues, hv.1, hv.2.1, hv.2.2.1, or_self, if_false, ih']

theorem decodeQuanta_sextets :
    ∀ (bytes : List Nat), (∀ b ∈ bytes, b < 256) → decodeQuanta (sextets bytes) = .ok bytes := by
  intro bytes
  induction bytes using sextets.induct with
  | case1 a b c rest ih =>
    intro h
    have ha : a < 256 := h a (by simp)
    have hb : b < 256 := h b (by simp)
    have hc : c < 256 := h c (by simp)
    have ih' := ih (fun x hx => h x (by simp [hx]))
    simp only [sextets, decodeQuanta, ih']
    have e1 : a % 256 = a := Nat.mod_eq_of_lt ha
    have e2 : b % 256 = b := Nat.mod_eq_of_lt hb
    have e3 : c % 256 = c := Nat.mod_eq_of_lt hc
    simp only [e1, e2, e3]
    congr 1
    congr 1
    · omega
    · congr 1
      · omega
      · congr 1
        omega
  | case2 a b =>
    intro h
    have ha : a < 256 := h a (by simp)
    have hb : b < 256 := h b (by simp)
    simp only [sextets, decodeQuanta]
    have e1 : a % 256 = a := Nat.mod_eq_of_lt ha
    have e2 : b % 256 = b := Nat.mod_eq_of_lt hb
    simp only [e1, e2]
    congr 1
    congr 1
    · omega
    · congr 1
      omega
  | case3 a =>
    intro h
    have ha : a < 256 := h a (by simp)
    simp only [sextets, decodeQuanta]
    have e1 : a % 256 = a := Nat.mod_eq_of_lt ha
    simp only [e1]
    congr 1
    congr 1
    omega
  | case4 =>
    intro _
    rfl

/-- Decoding an encoded byte sequence gives the sequence back. -/
theorem DecodeString_EncodeToString (bytes : List Nat) (h : ∀ b ∈ bytes, b < 256) :
    RawStdEncoding.DecodeString (RawStdEncoding.EncodeToString bytes) = .ok bytes := by
  unfold RawStdEncoding.DecodeString RawStdEncoding.EncodeToString
  simp only [String.toList]
  rw [decodeValues_map _ (sextets_lt bytes)]
  exact decodeQuanta_sextets bytes h

/-- An encoded byte sequence has no `$`. -/
theorem EncodeToString_no_dollar (bytes : List Nat) :
    '$' ∉ (RawStdEncoding.EncodeToString bytes).toList := by
  unfold RawStdEncoding.EncodeToString
  simp only [String.toList]
  intro hm
  obtain ⟨v, hv, he⟩ := List.mem_map.mp hm
  exact (encodeStd_decode v (sextets_lt bytes v hv)).2.2.2 he

end Base64RoundTrip

section ScannerErrors

open fmt

theorem SkipSpace_error : ∀ (l : List Char) (e : error),
    SkipSpace l = .error e → e = error.New "unexpected newline" := by
  intro l
  induction l with
  | nil => intro e h; simp [SkipSpace] at h
  | cons c cs ih =>
    intro e h
    unfold SkipSpace at h
    split_ifs at h
    · simp only [Except.error.injEq] at h
      exact h.symm
    · exact ih e h

theorem advance_error : ∀ (f l : List Char) (e : error),
    advance f l = .error e →
      e = error.New "unexpected EOF" ∨ e = error.New "input does not match format" := by
  intro f
  induction f with
  | nil => intro l e h; simp [advance] at h
  | cons a fs ih =>
    intro l e h
    cases l with
    | nil =>
      simp only [advance, Except.error.injEq] at h
      exact Or.inl h.symm
    | cons c cs =>
      unfold advance at h
      split_ifs at h
      · exact ih cs e h
      · simp only [Except.error.injEq] at h
        exact Or.inr h.symm

theorem scanNumber_error (l : List Char) (e : error) (h : scanNumber l = .error e) :
    e = error.New "EOF" ∨ e = error.New "expected integer" := by
  cases l with
  | nil =>
    simp only [scanNumber, Except.error.injEq] at h
    exact Or.inl h.symm
  | cons c cs =>
    simp only [scanNumber] at h
    split_ifs at h
    simp only [Except.error.injEq] at h
    exact Or.inr h.symm

theorem scanInt_error (bitSize : Nat) (l : List Char) (e : error)
    (h : scanInt bitSize l = .error e) : e ∈ scanErrors := by
  unfold scanInt at h
  split at h
  · rename_i err hs
    simp only [Except.error.injEq] at h
    subst h
    rw [SkipSpace_error _ _ hs]
    decide
  · simp only [Except.error.injEq] at h
    subst h
    decide
  · simp only at h
    split at h
    · rename_i err hn
      simp only [Except.error.injEq] at h
      subst h
      rcases scanNumber_error _ _ hn with h' | h' <;> rw [h'] <;> decide
    · split_ifs at h <;> simp only [Except.error.injEq] at h <;> subst h <;> decide

theorem scanUint_error (bitSize : Nat) (l : List Char) (e : error)
    (h : scanUint bitSize l = .error e) : e ∈ scanErrors := by
  unfold scanUint at h
  split at h
  · rename_i err hs
    simp only [Except.error.injEq] at h
    subst h
    rw [SkipSpace_error _ _ hs]
    decide
  · split at h
    · rename_i err hn
      simp only [Except.error.injEq] at h
      subst h
      rcases scanNumber_error _ _ hn with h' | h' <;> rw [h'] <;> decide
    · simp only at h
      split_ifs at h <;> simp only [Except.error.injEq] at h <;> subst h <;> decide

theorem advance_error_mem (f l : List Char) (e : error) (h : advance f l = .error e) :
    e ∈ scanErrors := by
  rcases advance_error f l e h with h' | h' <;> rw [h'] <;> decide

theorem SkipSpace_error_mem (l : List Char) (e : error) (h : SkipSpace l = .error e) :
    e ∈ scanErrors := by
  rw [SkipSpace_error l e h]
  decide

theorem Sscanf_v_error (s : String) (e : error) (h : Sscanf_v s = .error e) :
    e ∈ scanErrors := by
  unfold Sscanf_v at h
  split at h
  · rename_i err h1
    simp only [Except.error.injEq] at h; subst h
    exact advance_error_mem _ _ _ h1
  · split at h
    · rename_i err h2
      simp only [Except.error.injEq] at h; subst h
      exact SkipSpace_error_mem _ _ h2
    · split at h
      · rename_i err h3
        simp only [Except.error.injEq] at h; subst h
        exact scanInt_error _ _ _ h3
      · simp at h

theorem Sscanf_mtp_error (s : String) (e : error) (h : Sscanf_mtp s = .error e) :
    e ∈ scanErrors := by
  unfold Sscanf_mtp at h
  repeat' split at h
  all_goals first
    | (simp at h; done)
    | (simp only [Except.error.injEq] at h; subst h
       first
        | (apply advance_error_mem; assumption)
        | (apply SkipSpace_error_mem; assumption)
        | (apply scanUint_error; assumption))

theorem scanErrors_ne (e : error) (h : e ∈ scanErrors) :
    e ≠ error.nil ∧ e ≠ auth.ErrInvalidHash ∧ e ≠ auth.ErrIncompatibleVersion := by
  revert e
  decide

theorem decodeValues_error : ∀ (l : List Char) (e : error),
    base64.decodeValues l = .error e → e = error.New "illegal base64 data" := by
  intro l
  induction l with
  | nil => intro e h; simp [base64.decodeValues] at h
  | cons c cs ih =>
    intro e h
    unfold base64.decodeValues at h
    split_ifs at h
    · exact ih e h
    · split at h
      · simp only [Except.error.injEq] at h
        exact h.symm
      · split at h
        · rename_i err h'
          simp only [Except.error.injEq] at h
          subst h
          exact ih _ h'
        · simp at h

theorem decodeQuanta_error : ∀ (l : List Nat) (e : error),
    base64.decodeQuanta l = .error e → e = error.New "illegal base64 data" := by
  intro l
  induction l using base64.decodeQuanta.induct with
  | case1 a b c d rest err h' ih =>
    intro e h
    simp only [base64.decodeQuanta, h', Except.error.injEq] at h
    subst h
    exact ih _ h'
  | case2 a b c d rest bytes h' ih =>
    intro e h
    simp [base64.decodeQuanta, h'] at h
  | case3 a b c => intro e h; simp [base64.decodeQuanta] at h
  | case4 a b => intro e h; simp [base64.decodeQuanta] at h
  | case5 a =>
    intro e h
    simp only [base64.decodeQuanta, Except.error.injEq] at h
    exact h.symm
  | case6 => intro e h; simp [base64.decodeQuanta] at h

theorem DecodeString_error (s : String) (e : error)
    (h : base64.RawStdEncoding.DecodeString s = .error e) :
    e ≠ error.nil ∧ e ≠ auth.ErrInvalidHash ∧ e ≠ auth.ErrIncompatibleVersion := by
  have he : e = error.New "illegal base64 data" := by
    unfold base64.RawStdEncoding.DecodeString at h
    split at h
    · rename_i err h'
      simp only [Except.error.injEq] at h
      subst h
      exact decodeValues_error _ _ h'
    · exact decodeQuanta_error _ _ h
  subst he
  decide

end ScannerErrors

section PasswordHashing

open auth

/-- Splitting at a separator: the pieces before it, then the pieces after it. -/
theorem splitChars_append (sep : Char) (b : List Char) :
    ∀ a : List Char,
      strings.splitChars sep (a ++ sep :: b) =
        strings.splitChars sep a ++ strings.splitChars sep b := by
  intro a
  induction a with
  | nil => simp [strings.splitChars]
  | cons c cs ih =>
    by_cases hc : c = sep
    · simp [strings.splitChars, hc, ih]
    · cases hs : strings.splitChars sep cs with
      | nil => exact absurd hs (splitChars_ne_nil sep cs)
      | cons p ps =>
        simp [strings.splitChars, hc, ih, hs]

/-- The six parts of an encoded hash with the default parameters. -/
theorem Split_encoded (b64Salt b64Hash : String) (hs : '$' ∉ b64Salt.toList)
    (hh : '$' ∉ b64Hash.toList) :
    strings.Split ("$argon2id$v=19$m=65536,t=3,p=2$" ++ b64Salt ++ "$" ++ b64Hash) '$' =
      ["", "argon2id", "v=19", "m=65536,t=3,p=2", b64Salt, b64Hash] := by
  have e : ("$argon2id$v=19$m=65536,t=3,p=2$" ++ b64Salt ++ "$" ++ b64Hash).toList =
      "$argon2id$v=19$m=65536,t=3,p=2".toList ++
        '$' :: (b64Salt.toList ++ '$' :: b64Hash.toList) := by
    simp only [String.toList, String.data_append]
    simp
  unfold strings.Split
  rw [e, splitChars_append, splitChars_append_sep '$' _ _ hs, splitChars_no_sep '$' _ hh]
  have e3 : strings.splitChars '$' "$argon2id$v=19$m=65536,t=3,p=2".toList =
      ["".toList, "argon2id".toList, "v=19".toList, "m=65536,t=3,p=2".toList] := by decide
  rw [e3]
  rfl

/-- The first two checks of `VerifyPassword`. -/
theorem VerifyPassword_bad_parts (kdf : argon2.KDF) (h : PasswordHasher)
    (password encodedHash : String)
    (hp : (strings.Split encodedHash '$').length ≠ 6 ∨
      (strings.Split encodedHash '$').getD 1 "" ≠ "argon2id") :
    h.VerifyPassword kdf password encodedHash = .returned (false, ErrInvalidHash) := by
  unfold PasswordHasher.VerifyPassword
  by_cases h6 : (strings.Split encodedHash '$').length ≠ 6
  · rw [if_pos h6]
  · have h1 : (strings.Split encodedHash '$').getD 1 "" ≠ "argon2id" := by
      rcases hp with hp | hp
      · exact absurd hp h6
      · exact hp
    rw [if_neg h6, if_pos h1]

/-- The rest of `VerifyPassword`, on an encoded hash of six parts with the
tag `argon2id`. -/
theorem VerifyPassword_of_parts (kdf : argon2.KDF) (h : PasswordHasher)
    (password encodedHash p0 p2 p3 p4 p5 : String)
    (hs : strings.Split encodedHash '$' = [p0, "argon2id", p2, p3, p4, p5]) :
    h.VerifyPassword kdf password encodedHash =
      match fmt.Sscanf_v p2 with
      | .error err => .returned (false, err)
      | .ok version =>
        if version ≠ 19 then .returned (false, ErrIncompatibleVersion)
        else
          match fmt.Sscanf_mtp p3 with
          | .error err => .returned (false, err)
          | .ok (memory, iterations, parallelism) =>
            match base64.RawStdEncoding.DecodeString p4 with
            | .error err => .returned (false, err)
            | .ok salt =>
              match base64.RawStdEncoding.DecodeString p5 with
              | .error err => .returned (false, err)
              | .ok hash =>
                if kdf.panics iterations memory parallelism hash.length = true then .panicked
                else if hash = kdf.derive password salt iterations memory parallelism hash.length
                then .returned (true, error.nil)
                else .returned (false, error.nil) := by
  unfold PasswordHasher.VerifyPassword
  simp only [hs, List.length_cons, List.length_nil, List.getD_cons_succ, List.getD_cons_zero]
  simp only [ne_eq, not_true_eq_false, if_false]
  cases fmt.Sscanf_v p2 with
  | error err => rfl
  | ok version =>
    simp only
    by_cases hv : version = 19
    · have hv' : ¬ version ≠ (argon2.Version : Int) := by
        simp [hv, argon2.Version]
      simp only [hv', if_false]
      simp only [hv, ne_eq, not_true_eq_false, if_false]
      cases fmt.Sscanf_mtp p3 with
      | error err => rfl
      | ok mtp =>
        obtain ⟨memory, iterations, parallelism⟩ := mtp
        simp only
        cases base64.RawStdEncoding.DecodeString p4 with
        | error err => rfl
        | ok salt =>
          simp only
          cases base64.RawStdEncoding.DecodeString p5 with
          | error err => rfl
          | ok hash =>
            simp only [argon2.IDKey, subtle.ConstantTimeCompare]
            by_cases hpan : kdf.panics iterations memory parallelism hash.length = true
            · simp [hpan]
            · simp only [hpan, if_false]
              by_cases he : hash = kdf.derive password salt iterations memory parallelism hash.length
              · simp [← he]
              · simp [he]
    · have hv' : version ≠ (argon2.Version : Int) := by
        simpa [argon2.Version] using hv
      simp only [hv', if_true]
      simp [hv]

/-- What `HashPassword` returns with the default parameters. -/
theorem HashPassword_default (kdf : argon2.KDF) (salt : List Nat) (password : String) :
    NewPasswordHasher.HashPassword kdf (.ok salt) password =
      .returned
        ("$argon2id$v=19$m=65536,t=3,p=2$" ++ base64.RawStdEncoding.EncodeToString salt ++ "$" ++
          base64.RawStdEncoding.EncodeToString (kdf.derive password salt 3 65536 2 32),
         error.nil) := by
  have hp : kdf.panics 3 65536 2 32 = false :=
    kdf.returns_normally 3 65536 2 32 (by decide) (by decide) (by decide)
  have e : "$argon2id$v=" ++ fmt.formatDecimal argon2.Version ++ "$m=" ++
      fmt.formatDecimal NewPasswordHasher.memory ++ ",t=" ++
      fmt.formatDecimal NewPasswordHasher.iterations ++ ",p=" ++
      fmt.formatDecimal NewPasswordHasher.parallelism ++ "$" =
        "$argon2id$v=19$m=65536,t=3,p=2$" := by decide
  simp only [PasswordHasher.HashPassword, argon2.IDKey]
  have hm : NewPasswordHasher.memory = 65536 := rfl
  have hi : NewPasswordHasher.iterations = 3 := rfl
  have hpar : NewPasswordHasher.parallelism = 2 := rfl
  have hk : NewPasswordHasher.keyLength = 32 := rfl
  simp only [hi, hm, hpar, hk, hp]
  rw [← e]
  simp [hm, hi, hpar]

end PasswordHashing

section PasswordClaims

open auth

/-- C13: the password hash round trip.  With the default parameters, for
every password and every salt of bytes, `HashPassword` returns an encoded
string that splits into the six parts `VerifyPassword` reads, from which
the version 19, memory 65536, iterations 3, parallelism 2, the salt and the
digest are parsed back, so that `VerifyPassword` of the password and the
encoded string returns `(true, nil)`. -/
theorem password_hash_round_trip (kdf : argon2.KDF) (h : PasswordHasher) (salt : List Nat)
    (password : String) (hsalt : ∀ b ∈ salt, b < 256) :
    ∃ encoded : String,
      NewPasswordHasher.HashPassword kdf (.ok salt) password = .returned (encoded, error.nil) ∧
      strings.Split encoded '$' =
        ["", "argon2id", "v=19", "m=65536,t=3,p=2",
          base64.RawStdEncoding.EncodeToString salt,
          base64.RawStdEncoding.EncodeToString (kdf.derive password salt 3 65536 2 32)] ∧
      fmt.Sscanf_v "v=19" = .ok 19 ∧
      fmt.Sscanf_mtp "m=65536,t=3,p=2" = .ok (65536, 3, 2) ∧
      base64.RawStdEncoding.DecodeString (base64.RawStdEncoding.EncodeToString salt) = .ok salt ∧
      base64.RawStdEncoding.DecodeString
          (base64.RawStdEncoding.EncodeToString (kdf.derive password salt 3 65536 2 32)) =
        .ok (kdf.derive password salt 3 65536 2 32) ∧
      h.VerifyPassword kdf password encoded = .returned (true, error.nil) := by
  have hsplit := Split_encoded (base64.RawStdEncoding.EncodeToString salt)
    (base64.RawStdEncoding.EncodeToString (kdf.derive password salt 3 65536 2 32))
    (EncodeToString_no_dollar _) (EncodeToString_no_dollar _)
  have hv : fmt.Sscanf_v "v=19" = .ok 19 := by decide
  have hm : fmt.Sscanf_mtp "m=65536,t=3,p=2" = .ok (65536, 3, 2) := by decide
  have hds := DecodeString_EncodeToString salt hsalt
  have hdh := DecodeString_EncodeToString (kdf.derive password salt 3 65536 2 32)
    (kdf.derive_bytes password salt 3 65536 2 32)
  have hlen := kdf.derive_length password salt 3 65536 2 32
  have hp : kdf.panics 3 65536 2 32 = false :=
    kdf.returns_normally 3 65536 2 32 (by decide) (by decide) (by decide)
  refine ⟨_, HashPassword_default kdf salt password, hsplit, hv, hm, hds, hdh, ?_⟩
  rw [VerifyPassword_of_parts kdf h password _ _ _ _ _ _ hsplit, hv]
  simp only [ne_eq, not_true_eq_false, if_false, hm, hds, hdh, hlen, hp]
  simp

/-- C13, at `sample.kdf` with the salt `salt`: the hash of `secretpw` is
the one stored for `sample.alice`, and it verifies. -/
theorem password_hash_round_trip_witness :
    ∃ encoded : String,
      NewPasswordHasher.HashPassword sample.kdf (.ok [115, 97, 108, 116]) "secretpw" =
        .returned (encoded, error.nil) ∧
      NewPasswordHasher.VerifyPassword sample.kdf "secretpw" encoded =
        .returned (true, error.nil) :=
  (password_hash_round_trip sample.kdf NewPasswordHasher [115, 97, 108, 116] "secretpw"
    (by decide)).imp (fun _ h => ⟨h.1, h.2.2.2.2.2.2⟩)

/-- C14, at the failing inputs: an encoded hash with `t=0`, and one with
`p=0`, pass every check of `VerifyPassword` and reach `argon2.IDKey` with
zero rounds, or zero threads, where the library panics: the call does not
return. -/
theorem verify_password_panics_on_zero_parameters (kdf : argon2.KDF) (h : PasswordHasher)
    (password : String) :
    h.VerifyPassword kdf password "$argon2id$v=19$m=65536,t=0,p=2$c2FsdA$aGFzaA" = .panicked ∧
    h.VerifyPassword kdf password "$argon2id$v=19$m=65536,t=3,p=0$c2FsdA$aGFzaA" = .panicked := by
  have hs1 : strings.Split "$argon2id$v=19$m=65536,t=0,p=2$c2FsdA$aGFzaA" '$' =
      ["", "argon2id", "v=19", "m=65536,t=0,p=2", "c2FsdA", "aGFzaA"] := by decide
  have hs2 : strings.Split "$argon2id$v=19$m=65536,t=3,p=0$c2FsdA$aGFzaA" '$' =
      ["", "argon2id", "v=19", "m=65536,t=3,p=0", "c2FsdA", "aGFzaA"] := by decide
  have hv : fmt.Sscanf_v "v=19" = .ok 19 := by decide
  have hm1 : fmt.Sscanf_mtp "m=65536,t=0,p=2" = .ok (65536, 0, 2) := by decide
  have hm2 : fmt.Sscanf_mtp "m=65536,t=3,p=0" = .ok (65536, 3, 0) := by decide
  have hd1 : base64.RawStdEncoding.DecodeString "c2FsdA" = .ok [115, 97, 108, 116] := by decide
  have hd2 : base64.RawStdEncoding.DecodeString "aGFzaA" = .ok [104, 97, 115, 104] := by decide
  constructor
  · rw [VerifyPassword_of_parts kdf h password _ _ _ _ _ _ hs1, hv]
    simp only [ne_eq, not_true_eq_false, if_false, hm1, hd1, hd2, kdf.panics_time, if_true]
  · rw [VerifyPassword_of_parts kdf h password _ _ _ _ _ _ hs2, hv]
    simp only [ne_eq, not_true_eq_false, if_false, hm2, hd1, hd2, kdf.panics_threads, if_true]

/-- A list of six strings whose second is `argon2id`. -/
theorem parts_six (l : List String) (h6 : l.length = 6) (h1 : l.getD 1 "" = "argon2id") :
    ∃ p0 p2 p3 p4 p5, l = [p0, "argon2id", p2, p3, p4, p5] := by
  match l, h6, h1 with
  | [p0, p1, p2, p3, p4, p5], _, h1 =>
    simp only [List.getD_cons_succ, List.getD_cons_zero] at h1
    exact ⟨p0, p2, p3, p4, p5, by rw [h1]⟩

/-- The parts of an encoded hash: either `VerifyPassword` rejects them at
its first two checks, or they are six with the tag `argon2id`. -/
theorem parts_cases (encodedHash : String) :
    ((strings.Split encodedHash '$').length ≠ 6 ∨
      (strings.Split encodedHash '$').getD 1 "" ≠ "argon2id") ∨
    ∃ p0 p2 p3 p4 p5, strings.Split encodedHash '$' = [p0, "argon2id", p2, p3, p4, p5] := by
  by_cases h6 : (strings.Split encodedHash '$').length = 6
  · by_cases h1 : (strings.Split encodedHash '$').getD 1 "" = "argon2id"
    · exact Or.inr (parts_six _ h6 h1)
    · exact Or.inl (Or.inr h1)
  · exact Or.inl (Or.inl h6)

/-- Whenever `VerifyPassword` returns, it returns false together with any
error, and true only without error. -/
theorem VerifyPassword_fails_closed (kdf : argon2.KDF) (h : PasswordHasher)
    (password encodedHash : String) (b : Bool) (err : error)
    (hr : h.VerifyPassword kdf password encodedHash = .returned (b, err)) :
    (err ≠ error.nil → b = false) ∧ (b = true → err = error.nil) := by
  have key : b = true → err = error.nil := by
    intro hb
    subst hb
    rcases parts_cases encodedHash with hbad | ⟨p0, p2, p3, p4, p5, hs⟩
    · rw [VerifyPassword_bad_parts kdf h password encodedHash hbad] at hr
      simp at hr
    · rw [VerifyPassword_of_parts kdf h password encodedHash _ _ _ _ _ hs] at hr
      cases h1 : fmt.Sscanf_v p2 with
      | error e => rw [h1] at hr; simp at hr
      | ok version =>
        rw [h1] at hr
        simp only at hr
        split_ifs at hr with hv
        · simp at hr
        · cases h2 : fmt.Sscanf_mtp p3 with
          | error e => rw [h2] at hr; simp at hr
          | ok mtp =>
            obtain ⟨memory, iterations, parallelism⟩ := mtp
            rw [h2] at hr
            simp only at hr
            cases h3 : base64.RawStdEncoding.DecodeString p4 with
            | error e => rw [h3] at hr; simp at hr
            | ok salt =>
              rw [h3] at hr
              simp only at hr
              cases h4 : base64.RawStdEncoding.DecodeString p5 with
              | error e => rw [h4] at hr; simp at hr
              | ok hash =>
                rw [h4] at hr
                simp only at hr
                split_ifs at hr
                · simp only [MayPanic.returned.injEq, Prod.mk.injEq, true_and] at hr
                  exact hr.symm
                · simp at hr
  refine ⟨?_, key⟩
  intro he
  cases b with
  | false => rfl
  | true => exact absurd (key rfl) he

/-- C15, as stated, fails.  The string with the version field `v=x` is not
a well-formed encoding, and `VerifyPassword` returns the scanner's error
`expected integer` for it, which is not `ErrInvalidHash`.  And the hash
stored for `sample.alice` with the version field changed to `v=19abc` is
not well-formed either, yet `VerifyPassword` accepts it without any
error. -/
theorem verify_password_malformed_without_ErrInvalidHash :
    wellFormedEncoding "$argon2id$v=x$m=65536,t=3,p=2$c2FsdA$aGFzaA" = false ∧
    NewPasswordHasher.VerifyPassword sample.kdf "secretpw"
        "$argon2id$v=x$m=65536,t=3,p=2$c2FsdA$aGFzaA" =
      .returned (false, error.New "expected integer") ∧
    error.New "expected integer" ≠ ErrInvalidHash ∧
    wellFormedEncoding
        "$argon2id$v=19abc$m=65536,t=3,p=2$c2FsdA$CAgICAgICAgICAgICAgICAgICAgICAgICAgICAgICAg" =
      false ∧
    NewPasswordHasher.VerifyPassword sample.kdf "secretpw"
        "$argon2id$v=19abc$m=65536,t=3,p=2$c2FsdA$CAgICAgICAgICAgICAgICAgICAgICAgICAgICAgICAg" =
      .returned (true, error.nil) := by
  decide

end PasswordClaims

section PasswordFailureModes

open auth

/-- C15, amended: the failure modes of `VerifyPassword`.  An encoded hash
that does not split at `$` into six parts, or whose second part is not
`argon2id`, gives `(false, ErrInvalidHash)`.  Otherwise a version field
that `fmt.Sscanf` cannot scan gives false with the scanner's error; a
version other than 19 gives `(false, ErrIncompatibleVersion)`; a parameter
field that cannot be scanned, and a salt or digest that is not unpadded
base64, give false with the scanner's or decoder's error; none of these
errors is `nil` or `ErrInvalidHash`.  And an encoded hash that parses, with
the version 19, iterations and parallelism at least 1 and a digest that is
not empty, gives `(false, nil)` when the digest derived from the password
differs from the stored one and `(true, nil)` when it is the same. -/
theorem verify_password_failure_modes (kdf : argon2.KDF) (h : PasswordHasher)
    (password encodedHash : String) :
    (((strings.Split encodedHash '$').length ≠ 6 ∨
        (strings.Split encodedHash '$').getD 1 "" ≠ "argon2id") →
      h.VerifyPassword kdf password encodedHash = .returned (false, ErrInvalidHash)) ∧
    (∀ p0 p2 p3 p4 p5, strings.Split encodedHash '$' = [p0, "argon2id", p2, p3, p4, p5] →
      (∀ e, fmt.Sscanf_v p2 = .error e →
        h.VerifyPassword kdf password encodedHash = .returned (false, e) ∧
          e ≠ error.nil ∧ e ≠ ErrInvalidHash) ∧
      (∀ version, fmt.Sscanf_v p2 = .ok version → version ≠ 19 →
        h.VerifyPassword kdf password encodedHash = .returned (false, ErrIncompatibleVersion)) ∧
      (fmt.Sscanf_v p2 = .ok 19 →
        (∀ e, fmt.Sscanf_mtp p3 = .error e →
          h.VerifyPassword kdf password encodedHash = .returned (false, e) ∧
            e ≠ error.nil ∧ e ≠ ErrInvalidHash) ∧
        (∀ memory iterations parallelism,
          fmt.Sscanf_mtp p3 = .ok (memory, iterations, parallelism) →
          (∀ e, base64.RawStdEncoding.DecodeString p4 = .error e →
            h.VerifyPassword kdf password encodedHash = .returned (false, e) ∧
              e ≠ error.nil ∧ e ≠ ErrInvalidHash) ∧
          (∀ salt, base64.RawStdEncoding.DecodeString p4 = .ok salt →
            (∀ e, base64.RawStdEncoding.DecodeString p5 = .error e →
              h.VerifyPassword kdf password encodedHash = .returned (false, e) ∧
                e ≠ error.nil ∧ e ≠ ErrInvalidHash) ∧
            (∀ hash, base64.RawStdEncoding.DecodeString p5 = .ok hash →
              1 ≤ iterations → 1 ≤ parallelism → 1 ≤ hash.length →
              (hash ≠ kdf.derive password salt iterations memory parallelism hash.length →
                h.VerifyPassword kdf password encodedHash = .returned (false, error.nil)) ∧
              (hash = kdf.derive password salt iterations memory parallelism hash.length →
                h.VerifyPassword kdf password encodedHash =
                  .returned (true, error.nil))))))) := by
  refine ⟨VerifyPassword_bad_parts kdf h password encodedHash, ?_⟩
  intro p0 p2 p3 p4 p5 hs
  have key := VerifyPassword_of_parts kdf h password encodedHash p0 p2 p3 p4 p5 hs
  refine ⟨?_, ?_, ?_⟩
  · intro e he
    have hne := scanErrors_ne e (Sscanf_v_error p2 e he)
    rw [key, he]
    exact ⟨rfl, hne.1, hne.2.1⟩
  · intro version hv hne
    rw [key, hv]
    simp only [if_pos hne]
  · intro hv
    rw [hv] at key
    simp only [ne_eq, not_true_eq_false, if_false] at key
    refine ⟨?_, ?_⟩
    · intro e he
      have hne := scanErrors_ne e (Sscanf_mtp_error p3 e he)
      rw [key, he]
      exact ⟨rfl, hne.1, hne.2.1⟩
    · intro memory iterations parallelism hm
      rw [hm] at key
      simp only at key
      refine ⟨?_, ?_⟩
      · intro e he
        have hne := DecodeString_error p4 e he
        rw [key, he]
        exact ⟨rfl, hne.1, hne.2.1⟩
      · intro salt hsalt
        rw [hsalt] at key
        simp only at key
        refine ⟨?_, ?_⟩
        · intro e he
          have hne := DecodeString_error p5 e he
          rw [key, he]
          exact ⟨rfl, hne.1, hne.2.1⟩
        · intro hash hhash h1 h2 h3
          rw [hhash] at key
          simp only at key
          have hp := kdf.returns_normally iterations memory parallelism hash.length h1 h2 h3
          rw [hp] at key
          simp only [Bool.false_eq_true, if_false] at key
          refine ⟨?_, ?_⟩
          · intro hne
            rw [key, if_neg hne]
          · intro heq
            rw [key, if_pos heq]

/-- C15, amended, at concrete strings: a string without `$` gives
`ErrInvalidHash`, the version 18 gives `ErrIncompatibleVersion`, and the
hash stored for `sample.alice` gives `(false, nil)` for a password of
another length than hers. -/
theorem verify_password_failure_modes_witness :
    NewPasswordHasher.VerifyPassword sample.kdf "secretpw" "plaintext" =
      .returned (false, ErrInvalidHash) ∧
    NewPasswordHasher.VerifyPassword sample.kdf "secretpw"
        "$argon2id$v=18$m=65536,t=3,p=2$c2FsdA$aGFzaA" =
      .returned (false, ErrIncompatibleVersion) ∧
    NewPasswordHasher.VerifyPassword sample.kdf "wrong" sample.alice.PasswordHash =
      .returned (false, error.nil) :=
  ⟨(verify_password_failure_modes sample.kdf NewPasswordHasher "secretpw" "plaintext").1
      (Or.inl (by decide)),
    ((verify_password_failure_modes sample.kdf NewPasswordHasher "secretpw"
      "$argon2id$v=18$m=65536,t=3,p=2$c2FsdA$aGFzaA").2
        "" "v=18" "m=65536,t=3,p=2" "c2FsdA" "aGFzaA" (by decide)).2.1 18 (by decide) (by decide),
    ((((((verify_password_failure_modes sample.kdf NewPasswordHasher "wrong"
      sample.alice.PasswordHash).2
        "" "v=19" "m=65536,t=3,p=2" "c2FsdA" "CAgICAgICAgICAgICAgICAgICAgICAgICAgICAgICAg"
        (by decide)).2.2 (by decide)).2 65536 3 2 (by decide)).2 [115, 97, 108, 116]
          (by decide)).2 (List.replicate 32 8) (by decide) (by decide) (by decide)
            (by decide)).1 (by decide)⟩

end PasswordFailureModes

/-! ### Error taxonomy and error responses -/

namespace ErrorClaims

theorem As_eq_find (err : error) : errors.As err = (error.chain err).find? error.isAppError := by
  induction err with
  | nil => rfl
  | New text => rfl
  | Errorf text err ih => simpa [errors.As, error.chain, error.isAppError] using ih
  | AppError Code Message HTTPStatus Err _ => simp [errors.As, error.chain, error.isAppError]

theorem As_isAppError (err a : error) (h : errors.As err = some a) : a.isAppError = true := by
  rw [As_eq_find] at h
  exact (List.find?_some h)

theorem AsAppError_isAppError (err : error) : (errors.AsAppError err).isAppError = true := by
  unfold errors.AsAppError
  cases h : errors.As err with
  | none => rfl
  | some a => exact As_isAppError err a h

theorem AsAppError_ne_nil (err : error) : errors.AsAppError err ≠ error.nil := by
  intro h
  have := AsAppError_isAppError err
  rw [h] at this
  exact Bool.noConfusion this

theorem handleError_of_error (statusCode : Int) (err : error) (cfg : config.Config) (s : World)
    (h : err ≠ error.nil) :
    middleware.handleError statusCode err cfg s =
      if http.validWriteHeaderCode (errors.AsAppError err).HTTPStatus = true then
        MayPanic.returned
          (s.write (errorResponseCalls (errors.AsAppError err).HTTPStatus.toNat
            (errors.AsAppError err).Code
            (if cfg.IsProduction && decide (statusCode ≥ 500) then "An internal error occurred"
             else (errors.AsAppError err).Message)))
      else MayPanic.panicked := by
  simp only [middleware.handleError, if_pos h, errorResponseCalls, errorBody, World.write,
    List.append_assoc, List.singleton_append]

/-- Without an error, `ErrorResponse` answers with the predefined internal error. -/
theorem ErrorResponse_nil (cfg : config.Config) (s : World) :
    middleware.ErrorResponse error.nil cfg s =
      MayPanic.returned (s.write (errorResponseCalls 500 "INTERNAL_ERROR"
        (if cfg.IsProduction then "An internal error occurred" else "Internal server error"))) := by
  cases h : cfg.IsProduction <;>
    simp [middleware.ErrorResponse, middleware.handleError, errors.AsAppError, errors.As,
      errors.NewInternal, errors.Wrap, error.HTTPStatus, http.StatusInternalServerError,
      http.StatusNotFound, http.StatusUnauthorized, http.StatusForbidden, errors.ErrInternal,
      errors.New, errors.ErrCodeInternal, error.Message, error.Code, errorResponseCalls,
      errorBody, h, World.write, http.validWriteHeaderCode]

/-- C22. For every message the constructors build an `AppError` with the
code and HTTP status of the taxonomy (NOT_FOUND/404, VALIDATION_ERROR/400,
UNAUTHORIZED/401, FORBIDDEN/403, CONFLICT/409, BAD_REQUEST/400,
INTERNAL_ERROR/500, the last one wrapping the error it is given), and
`AsAppError` returns the first `AppError` of the error's chain when the
chain has one and otherwise an INTERNAL_ERROR/500 error that wraps the
original error. -/
theorem error_taxonomy (message : String) (err : error) :
    errors.NewNotFound message = error.AppError "NOT_FOUND" message 404 error.nil ∧
    errors.NewValidation message = error.AppError "VALIDATION_ERROR" message 400 error.nil ∧
    errors.NewUnauthorized message =
      error.AppError "UNAUTHORIZED" (if message = "" then "Unauthorized" else message) 401
        error.nil ∧
    errors.NewForbidden message =
      error.AppError "FORBIDDEN" (if message = "" then "Forbidden" else message) 403 error.nil ∧
    errors.NewConflict message = error.AppError "CONFLICT" message 409 error.nil ∧
    errors.NewBadRequest message = error.AppError "BAD_REQUEST" message 400 error.nil ∧
    errors.NewInternal message err = error.AppError "INTERNAL_ERROR" message 500 err ∧
    (∀ a, (error.chain err).find? error.isAppError = some a → errors.AsAppError err = a) ∧
    ((error.chain err).find? error.isAppError = none →
      errors.AsAppError err = error.AppError "INTERNAL_ERROR" "Unexpected error" 500 err) := by
  refine ⟨rfl, rfl, rfl, rfl, rfl, rfl, rfl, ?_, ?_⟩
  · intro a h
    rw [← As_eq_find] at h
    simp only [errors.AsAppError, h]
  · intro h
    rw [← As_eq_find] at h
    simp only [errors.AsAppError, h]
    rfl

theorem ErrorResponse_of_error (err : error) (cfg : config.Config) (s : World)
    (h : err ≠ error.nil) :
    middleware.ErrorResponse err cfg s =
      if http.validWriteHeaderCode (errors.AsAppError err).HTTPStatus = true then
        MayPanic.returned
          (s.write (errorResponseCalls (errors.AsAppError err).HTTPStatus.toNat
            (errors.AsAppError err).Code
            (if cfg.IsProduction = true ∧ 500 ≤ (errors.AsAppError err).HTTPStatus
              then "An internal error occurred" else (errors.AsAppError err).Message)))
      else MayPanic.panicked := by
  simp only [middleware.ErrorResponse]
  rw [handleError_of_error _ _ _ _ h]
  simp [Bool.and_eq_true]

/-- With a status that `net/http` does not accept, here 0, `ErrorResponse`
panics in `WriteHeader` and writes no body. -/
theorem ErrorResponse_invalid_status (cfg : config.Config) (s : World) :
    middleware.ErrorResponse sample.statuslessError cfg s = MayPanic.panicked := by
  rw [ErrorResponse_of_error _ _ _ (by decide)]
  rfl

/-- C21, as stated, fails: for a bad-request error whose message is the
text of the error it wraps, the body of the response holds that text, also
under a production configuration. -/
theorem error_response_echoes_wrapped_text :
    (errors.AsAppError sample.echoedError).Err.Error = "sql: no rows in result set" ∧
    sample.prodHttp.IsProduction = true ∧
    responseOf (middleware.ErrorResponse sample.echoedError sample.prodHttp {}) =
      some (errorResponseCalls 400 "BAD_REQUEST" "sql: no rows in result set") :=
  ⟨rfl, rfl, rfl⟩

/-- C21, amended. For every error handed to `ErrorResponse` whose
`AppError` (`AsAppError err`) has a status that `net/http` accepts (100 to
999), the response carries that status and the code of the `AppError`, and
its message is "An internal error occurred" when the configuration is a
production one and the status is at least 500, the `AppError`'s own
`Message` otherwise.  The response is built from the code, the message and
the status alone: the wrapped error is not read, so two errors whose
`AppError`s differ only in the wrapped error get the same response, and the
text of the wrapped error is in the body only where the code or the
message holds it. -/
theorem error_response_redacts (err : error) (cfg : config.Config) (s : World)
    (h : err ≠ error.nil)
    (hlo : 100 ≤ (errors.AsAppError err).HTTPStatus)
    (hhi : (errors.AsAppError err).HTTPStatus ≤ 999) :
    responseOf (middleware.ErrorResponse err cfg s) =
      some (s.w ++ errorResponseCalls (errors.AsAppError err).HTTPStatus.toNat
        (errors.AsAppError err).Code
        (if cfg.IsProduction = true ∧ 500 ≤ (errors.AsAppError err).HTTPStatus
          then "An internal error occurred" else (errors.AsAppError err).Message)) ∧
    (∀ err', err' ≠ error.nil →
      (errors.AsAppError err').Code = (errors.AsAppError err).Code →
      (errors.AsAppError err').Message = (errors.AsAppError err).Message →
      (errors.AsAppError err').HTTPStatus = (errors.AsAppError err).HTTPStatus →
      middleware.ErrorResponse err' cfg s = middleware.ErrorResponse err cfg s) := by
  have hv : http.validWriteHeaderCode (errors.AsAppError err).HTTPStatus = true := by
    simp [http.validWriteHeaderCode, hlo, hhi]
  refine ⟨?_, ?_⟩
  · rw [ErrorResponse_of_error err cfg s h, if_pos hv]
    rfl
  · intro err' h' hc hm hs
    rw [ErrorResponse_of_error err cfg s h, ErrorResponse_of_error err' cfg s h', hc, hm, hs]

theorem error_response_redacts_witness :
    sample.dbFailure ≠ error.nil ∧
    (100 : Int) ≤ (errors.AsAppError sample.dbFailure).HTTPStatus ∧
    (errors.AsAppError sample.dbFailure).HTTPStatus ≤ 999 ∧
    responseOf (middleware.ErrorResponse sample.dbFailure sample.prodHttp {}) =
      some ([] ++ errorResponseCalls 500 "INTERNAL_ERROR" "An internal error occurred") :=
  ⟨by decide, by decide, by decide,
    (error_response_redacts sample.dbFailure sample.prodHttp {} (by decide) (by decide)
      (by decide)).1⟩

end ErrorClaims

/-! ### The Secure flag of the session cookie -/

namespace CookieClaims

/-- C23, as stated, fails: in a production configuration without HTTPS the
cookie of the login handler is Secure although `UseHTTPS` is off. -/
theorem cookie_secure_differs_from_UseHTTPS :
    sample.prodHttp.UseHTTPS = false ∧ sample.prodHttp.GetCookieSecure = true ∧
    (controller.AuthController.loginCookie ⟨sample.prodHttp⟩ "t").Secure = true := by
  decide

/-- C23, amended. The Secure flag of the `auth_token` cookie of the login
handler is `GetCookieSecure()`, which is on when `UseHTTPS` is on or the
environment is a production one; it equals `UseHTTPS` in every
configuration that is not a production one. -/
theorem cookie_secure_is_https_or_production (c : controller.AuthController) (token : String) :
    (c.loginCookie token).Name = "auth_token" ∧
    (c.loginCookie token).Secure = c.config.GetCookieSecure ∧
    c.config.GetCookieSecure = (c.config.UseHTTPS || c.config.IsProduction) ∧
    (c.config.IsProduction = false → c.config.GetCookieSecure = c.config.UseHTTPS) := by
  refine ⟨rfl, rfl, rfl, ?_⟩
  intro h
  simp [config.Config.GetCookieSecure, h]

theorem cookie_secure_is_https_or_production_witness :
    sample.devHttp.IsProduction = false ∧
    sample.devHttp.GetCookieSecure = sample.devHttp.UseHTTPS :=
  ⟨by decide, (cookie_secure_is_https_or_production ⟨sample.devHttp⟩ "t").2.2.2 (by decide)⟩

end CookieClaims

/-! ### What the default renderer covers -/

section RendererCoverage

open domain.component shared.component

theorem NewRenderer_registry_unknown (UGC : sanitize.Policy) (ty : ComponentType)
    (h : ¬ (ty = TypeHero ∨ ty = TypeAbout ∨ ty = TypeText)) :
    (NewRenderer UGC).registry ty = none := by
  push_neg at h
  simp only [NewRenderer, Renderer.Register, if_neg h.1, if_neg h.2.1, if_neg h.2.2]

/-- C28. In the renderer that `NewRenderer` returns, `Render` succeeds
exactly for the components of type hero, about or text; for a component of
any other type, among them the declared types image, cta, grid and list, it
returns the error "no renderer registered for component type: " followed by
the type, and `RenderMultiple` returns an error for every list that
contains such a component. -/
theorem default_renderer_covers_three_types (UGC : sanitize.Policy) (c : Component) :
    ((∃ t, (NewRenderer UGC).Render c = .ok t) ↔
      (c.Type_ = TypeHero ∨ c.Type_ = TypeAbout ∨ c.Type_ = TypeText)) ∧
    (¬ (c.Type_ = TypeHero ∨ c.Type_ = TypeAbout ∨ c.Type_ = TypeText) →
      (NewRenderer UGC).Render c =
        .error ("no renderer registered for component type: " ++ c.Type_) ∧
      ∀ cs : List Component, c ∈ cs → ∃ msg, (NewRenderer UGC).RenderMultiple cs = .error msg) ∧
    (∀ ty ∈ [TypeImage, TypeCTA, TypeGrid, TypeList],
      ¬ (ty = TypeHero ∨ ty = TypeAbout ∨ ty = TypeText)) := by
  refine ⟨?_, ?_, by decide⟩
  · rw [NewRenderer_Render]
    constructor
    · rintro ⟨t, ht⟩
      by_contra hn
      push_neg at hn
      rw [if_neg hn.2.2, if_neg hn.2.1, if_neg hn.1] at ht
      exact Except.noConfusion ht
    · rintro (h | h | h)
      · have h1 : c.Type_ ≠ TypeText := by rw [h]; decide
        have h2 : c.Type_ ≠ TypeAbout := by rw [h]; decide
        rw [if_neg h1, if_neg h2, if_pos h]
        exact ⟨_, rfl⟩
      · have h1 : c.Type_ ≠ TypeText := by rw [h]; decide
        rw [if_neg h1, if_pos h]
        exact ⟨_, rfl⟩
      · rw [if_pos h]
        exact ⟨_, rfl⟩
  · intro hn
    have hreg := NewRenderer_registry_unknown UGC c.Type_ hn
    refine ⟨?_, ?_⟩
    · unfold Renderer.Render
      rw [hreg]
    · intro cs hc
      cases hres : (NewRenderer UGC).RenderMultiple cs with
      | error msg => exact ⟨msg, rfl⟩
      | ok out =>
        exfalso
        unfold Renderer.RenderMultiple at hres
        rw [RenderMultiple_loop_ok_iff] at hres
        obtain ⟨ts, hts, _⟩ := hres
        have hmem : (NewRenderer UGC).Render c.MergeWithDefaults ∈
            cs.map (fun c => (NewRenderer UGC).Render c.MergeWithDefaults) :=
          List.mem_map.mpr ⟨c, hc, rfl⟩
        rw [hts, Render_of_unregistered _ c hreg] at hmem
        obtain ⟨t, _, ht⟩ := List.mem_map.mp hmem
        exact Except.noConfusion ht

/-- C28 at the declared type `image`: the component does not render, and
neither does a list that holds it after a text component. -/
theorem default_renderer_covers_three_types_witness :
    (NewRenderer sample.policy).Render sample.imageComponent =
      .error ("no renderer registered for component type: " ++ "image") ∧
    ∃ msg, (NewRenderer sample.policy).RenderMultiple
      [sample.textComponent, sample.imageComponent] = .error msg :=
  have h := (default_renderer_covers_three_types sample.policy sample.imageComponent).2.1
    (by decide)
  ⟨h.1, h.2 [sample.textComponent, sample.imageComponent] (by simp)⟩

end RendererCoverage

/-! ### The active flag is checked before the password -/

section InactiveLogin

open application.auth domain.user

/-- C29. For every user that exists and is inactive, `Login` returns the
Forbidden error (403, "User account is inactive") whatever the password of
the request is and whatever the password hasher and the key derivation
would do, so the password is not verified; and this response differs from
the Unauthorized response that a request for an unknown email gets. -/
theorem login_inactive_before_password {σ : Type} (kdf kdf' : argon2.KDF) (s : Service σ)
    (hasher' : auth.PasswordHasher) (req : LoginRequest) (password' : String) (db : σ) (u : User)
    (h : s.userService.repo.FindByEmail req.Email db = .ok u) (ha : u.IsActive = false) :
    s.Login kdf req db =
      .returned
        (.error (error.AppError "FORBIDDEN" "User account is inactive" 403 error.nil), db) ∧
    Service.Login kdf' { s with hasher := hasher' } { req with Password := password' } db =
      s.Login kdf req db ∧
    (∀ (unknown : LoginRequest) (e : error),
      s.userService.repo.FindByEmail unknown.Email db = .error e →
      s.Login kdf unknown db =
        .returned
          (.error (error.AppError "UNAUTHORIZED" "Invalid credentials" 401 error.nil), db) ∧
      s.Login kdf unknown db ≠ s.Login kdf req db) := by
  have h1 := Login_inactive kdf s req db u h ha
  refine ⟨h1, ?_, ?_⟩
  · rw [h1]
    exact Login_inactive kdf' { s with hasher := hasher' } { req with Password := password' }
      db u h ha
  · intro unknown e he
    have h2 := Login_lookup_fails kdf s unknown db e he
    refine ⟨h2, ?_⟩
    rw [h1, h2]
    intro hc
    injection hc with hc
    injection hc with hc _
    injection hc with hc
    injection hc with hc
    exact absurd hc (by decide)

theorem login_inactive_before_password_witness :
    sample.userRepo.FindByEmail "mallory@example.com" [sample.alice, sample.mallory] =
      .ok sample.mallory ∧
    sample.mallory.IsActive = false ∧
    sample.authService.Login sample.kdf
        { Email := "mallory@example.com", Password := "not the password" }
        [sample.alice, sample.mallory] =
      .returned
        (.error (error.AppError "FORBIDDEN" "User account is inactive" 403 error.nil),
          [sample.alice, sample.mallory]) :=
  ⟨by decide, by decide,
    (login_inactive_before_password sample.kdf sample.kdf sample.authService
      auth.NewPasswordHasher { Email := "mallory@example.com", Password := "not the password" }
      "secretpw" [sample.alice, sample.mallory] sample.mallory (by decide) (by decide)).1⟩

end InactiveLogin

/-! ### Uploads: file names and MIME types -/

namespace UploadClaims

set_option maxRecDepth 100000 in
theorem SanitizeFilename_longExtension (t : unicode.Tables) :
    upload.SanitizeFilename t sample.longExtension = MayPanic.panicked := by
  rfl

set_option maxRecDepth 100000 in
/-- The cut at a byte offset may fall inside a rune: of 200 letters `é`
(two bytes each) the result keeps 127 and the first byte of the next. -/
theorem SanitizeFilename_accentedName (t : unicode.Tables) :
    upload.SanitizeFilename t sample.accentedName =
      MayPanic.returned (utf8.bytes (List.replicate 127 'é') ++ [0xC3]) := by
  rfl

set_option maxRecDepth 100000 in
theorem longExtension_sizes :
    sample.longExtension.length = 302 ∧ (filepath.Ext sample.longExtension).length = 301 :=
  ⟨rfl, rfl⟩

/-- C24 fails on the code: for the file name `a.` followed by 300 times `b`
(letters of ASCII, so whatever the Unicode tables are) the sanitized name
is longer than 255 bytes, its extension is 301 bytes long, the slice bound
`255-len(ext)` is negative and `SanitizeFilename` panics instead of
returning a name. -/
theorem SanitizeFilename_panics_on_long_extension (t : unicode.Tables) :
    sample.longExtension.length = 302 ∧
    (filepath.Ext sample.longExtension).length = 301 ∧
    upload.SanitizeFilename t sample.longExtension = MayPanic.panicked :=
  ⟨longExtension_sizes.1, longExtension_sizes.2, SanitizeFilename_longExtension t⟩

theorem any_eq_iff_mem (l : List String) (s : String) :
    l.any (fun allowed => s == allowed) = true ↔ s ∈ l := by
  induction l with
  | nil => simp
  | cons a l ih => simp [List.any_cons, ih]

/-- C25, as stated, fails: a file that starts with the PNG signature and is
named `photo.png` is accepted with the declared type `application/pdf`,
which is allowed but is neither the detected type nor the type of the
extension. -/
theorem mime_mismatch_is_accepted :
    upload.detectContentType (sample.pngReader.Read 512).1 = "image/png" ∧
    sample.TypeByExtension (filepath.Ext "photo.png") = "image/png" ∧
    upload.ValidateMimeType sample.TypeByExtension sample.pngReader "application/pdf"
      "photo.png" = (true, error.nil) := by
  decide

/-- C25, amended. `ValidateMimeType` returns true exactly when reading the
content did not fail (no error, or `io.EOF`) and the declared type is in
the allow-list; the detected type and the type of the extension do not
enter the result: a failed read is returned with `false`, a declared type
outside the list gives `false` with the error "MIME type not allowed", and
every other call gives `true` without an error. -/
theorem ValidateMimeType_checks_the_allow_list_only (TypeByExtension : String → String)
    (content : io.Reader) (declaredMimeType filename : String) :
    upload.ValidateMimeType TypeByExtension content declaredMimeType filename =
      (if (content.Read 512).2 ≠ error.nil ∧ (content.Read 512).2 ≠ io.EOF then
        (false, (content.Read 512).2)
      else if declaredMimeType ∈ upload.allowedTypes then (true, error.nil)
      else (false, error.New ("MIME type not allowed: " ++ declaredMimeType))) ∧
    ((upload.ValidateMimeType TypeByExtension content declaredMimeType filename).1 = true ↔
      ((content.Read 512).2 = error.nil ∨ (content.Read 512).2 = io.EOF) ∧
        declaredMimeType ∈ upload.allowedTypes) := by
  have key : upload.ValidateMimeType TypeByExtension content declaredMimeType filename =
      (if (content.Read 512).2 ≠ error.nil ∧ (content.Read 512).2 ≠ io.EOF then
        (false, (content.Read 512).2)
      else if declaredMimeType ∈ upload.allowedTypes then (true, error.nil)
      else (false, error.New ("MIME type not allowed: " ++ declaredMimeType))) := by
    unfold upload.ValidateMimeType
    simp only
    by_cases hr : (content.Read 512).2 ≠ error.nil ∧ (content.Read 512).2 ≠ io.EOF
    · rw [if_pos hr, if_pos hr]
    · rw [if_neg hr, if_neg hr]
      by_cases hm : declaredMimeType ∈ upload.allowedTypes
      · have ha := (any_eq_iff_mem upload.allowedTypes declaredMimeType).mpr hm
        rw [if_pos hm, ha]
        simp
      · have ha : upload.allowedTypes.any (fun allowed => declaredMimeType == allowed) = false := by
          rw [← Bool.not_eq_true, any_eq_iff_mem]
          exact hm
        rw [if_neg hm, ha]
        simp
  refine ⟨key, ?_⟩
  rw [key]
  by_cases hr : (content.Read 512).2 ≠ error.nil ∧ (content.Read 512).2 ≠ io.EOF
  · rw [if_pos hr]
    simp only [Bool.false_eq_true, false_iff, not_and]
    intro h
    exact absurd hr (by rcases h with h | h <;> simp [h])
  · rw [if_neg hr]
    have hr' : (content.Read 512).2 = error.nil ∨ (content.Read 512).2 = io.EOF := by
      by_contra hc
      push_neg at hc
      exact hr hc
    by_cases hm : declaredMimeType ∈ upload.allowedTypes
    · rw [if_pos hm]
      simp [hr', hm]
    · rw [if_neg hm]
      simp [hm]

end UploadClaims

/-! ### Slugs -/

section Slugs

open page

theorem build_eq (t : unicode.Tables) (l acc : List Char) :
    GenerateSlug.build t l acc = acc ++ GenerateSlug.writeAll t l := by
  induction l generalizing acc with
  | nil => simp [GenerateSlug.build, GenerateSlug.writeAll]
  | cons r rest ih => simp [GenerateSlug.build, GenerateSlug.writeAll, ih]

theorem lookup_mem {α β : Type} [BEq α] (a : α) (b : β) (l : List (α × β))
    (h : l.lookup a = some b) : b ∈ l.map Prod.snd := by
  induction l with
  | nil => simp at h
  | cons p rest ih =>
    obtain ⟨k, v⟩ := p
    simp only [List.lookup] at h
    split at h
    · injection h with h
      simp [h]
    · simp [ih h]

theorem replacements_some (r : Char) (s : String) (h : replacements r = some s) :
    ∃ x, s.toList = [x] ∧ x ∈ ['c', 'g', 'i', 'o', 's', 'u'] := by
  have hm := lookup_mem r s replacementEntries h
  simp only [replacementEntries, List.map_cons, List.map_nil, List.mem_cons, List.mem_singleton,
    List.not_mem_nil, or_false] at hm
  rcases hm with hm | hm | hm | hm | hm | hm | hm | hm | hm | hm | hm | hm <;> subst hm <;>
    exact ⟨_, rfl, by decide⟩

theorem fixed_of_replacement (t : unicode.Tables) (x : Char)
    (h : x ∈ ['c', 'g', 'i', 'o', 's', 'u']) : fixedRune t x ∧ slugRune t x := by
  simp only [List.mem_cons, List.mem_singleton, List.not_mem_nil, or_false] at h
  rcases h with h | h | h | h | h | h <;> subst h <;>
    exact ⟨⟨rfl, rfl⟩, Or.inl rfl⟩

theorem fixed_dash (t : unicode.Tables) : fixedRune t '-' := ⟨rfl, rfl⟩

theorem write_spec (t : unicode.Tables) (hlow : ∀ r, unicode.ToLower t (unicode.ToLower t r) = unicode.ToLower t r)
    (r0 : Char) : ∀ c ∈ GenerateSlug.write t (unicode.ToLower t r0), fixedRune t c := by
  intro c hc
  unfold GenerateSlug.write at hc
  cases hr : replacements (unicode.ToLower t r0) with
  | some s =>
    rw [hr] at hc
    obtain ⟨x, hx, hmem⟩ := replacements_some _ _ hr
    simp only [hx, List.mem_singleton] at hc
    subst hc
    exact (fixed_of_replacement t c hmem).1
  | none =>
    rw [hr] at hc
    simp only at hc
    split_ifs at hc with h1 h2
    · simp only [List.mem_singleton] at hc
      subst hc
      refine ⟨hlow r0, ?_⟩
      unfold GenerateSlug.write
      rw [hr]
      simp only [h1, if_true]
    · simp only [List.mem_singleton] at hc
      subst hc
      exact fixed_dash t
    · simp at hc

theorem write_slugRune (t : unicode.Tables) (r : Char) :
    ∀ c ∈ GenerateSlug.write t r, slugRune t c := by
  intro c hc
  unfold GenerateSlug.write at hc
  cases hr : replacements r with
  | some s =>
    rw [hr] at hc
    obtain ⟨x, hx, hmem⟩ := replacements_some _ _ hr
    simp only [hx, List.mem_singleton] at hc
    subst hc
    exact (fixed_of_replacement t c hmem).2
  | none =>
    rw [hr] at hc
    simp only at hc
    split_ifs at hc with h1 h2
    · simp only [List.mem_singleton] at hc
      subst hc
      simp only [Bool.or_eq_true] at h1
      rcases h1 with h1 | h1
      · exact Or.inl h1
      · exact Or.inr (Or.inl h1)
    · simp only [List.mem_singleton] at hc
      subst hc
      exact Or.inr (Or.inr rfl)
    · simp at hc

theorem writeAll_slugRune (t : unicode.Tables) (l : List Char) :
    ∀ c ∈ GenerateSlug.writeAll t l, slugRune t c := by
  induction l with
  | nil => simp [GenerateSlug.writeAll]
  | cons r rest ih =>
    intro c hc
    simp only [GenerateSlug.writeAll, List.mem_append] at hc
    rcases hc with hc | hc
    · exact write_slugRune t r c hc
    · exact ih c hc

theorem writeAll_fixed (t : unicode.Tables)
    (hlow : ∀ r, unicode.ToLower t (unicode.ToLower t r) = unicode.ToLower t r) (l : List Char) :
    ∀ c ∈ GenerateSlug.writeAll t (l.map (unicode.ToLower t)), fixedRune t c := by
  induction l with
  | nil => simp [GenerateSlug.writeAll]
  | cons r rest ih =>
    intro c hc
    simp only [List.map_cons, GenerateSlug.writeAll, List.mem_append] at hc
    rcases hc with hc | hc
    · exact write_spec t hlow r c hc
    · exact ih c hc

theorem writeAll_of_fixed (t : unicode.Tables) (l : List Char) (h : ∀ c ∈ l, fixedRune t c) :
    GenerateSlug.writeAll t (l.map (unicode.ToLower t)) = l := by
  induction l with
  | nil => rfl
  | cons r rest ih =>
    have hr := h r (List.mem_cons_self _ _)
    simp only [List.map_cons, GenerateSlug.writeAll]
    rw [hr.1, hr.2, ih (fun c hc => h c (List.mem_cons_of_mem _ hc))]
    rfl

end Slugs

section SlugShape

open strings

theorem Trim_mem (l : List Char) (c x : Char) (h : x ∈ Trim l c) : x ∈ l :=
  (List.dropWhile_sublist _).subset ((List.rdropWhile_prefix _ _).subset h)

theorem Trim_head (l : List Char) (c : Char) : (Trim l c).head? ≠ some c := by
  unfold Trim
  intro h
  have hne : List.rdropWhile (fun x => x == c) (List.dropWhile (fun x => x == c) l) ≠ [] := by
    intro e
    rw [e] at h
    exact Option.noConfusion h
  have hp := List.rdropWhile_prefix (fun x => x == c) (List.dropWhile (fun x => x == c) l)
  have hd := List.head?_dropWhile_not (fun x => x == c) l
  obtain ⟨suf, hs⟩ := hp
  cases hr : List.rdropWhile (fun x => x == c) (List.dropWhile (fun x => x == c) l) with
  | nil => exact hne hr
  | cons a rest =>
    rw [hr] at h hs
    simp only [List.head?_cons, Option.some.injEq] at h
    rw [← hs] at hd
    simp only [List.cons_append, List.head?_cons, beq_eq_false_iff_ne] at hd
    exact hd h

theorem Trim_last (l : List Char) (c : Char) : (Trim l c).getLast? ≠ some c := by
  unfold Trim
  intro h
  have hne : List.rdropWhile (fun x => x == c) (List.dropWhile (fun x => x == c) l) ≠ [] := by
    intro e
    rw [e] at h
    exact Option.noConfusion h
  have hl := List.rdropWhile_last_not (fun x => x == c) (List.dropWhile (fun x => x == c) l) hne
  rw [List.getLast?_eq_getLast _ hne] at h
  injection h with h
  rw [h] at hl
  simp at hl

theorem Trim_of_edges (l : List Char) (c : Char) (hh : l.head? ≠ some c)
    (hl : l.getLast? ≠ some c) : Trim l c = l := by
  unfold Trim
  have h1 : List.dropWhile (fun x => x == c) l = l := by
    cases l with
    | nil => rfl
    | cons a rest =>
      simp only [List.head?_cons, ne_eq, Option.some.injEq] at hh
      simp [List.dropWhile_cons, hh]
  rw [h1, List.rdropWhile_eq_self_iff]
  intro hne
  rw [List.getLast?_eq_getLast _ hne] at hl
  simp only [ne_eq, Option.some.injEq] at hl
  simpa using hl

theorem ReplaceAllDouble_mem (c : Char) (l : List Char) :
    ∀ x ∈ ReplaceAllDouble c l, x ∈ l := by
  induction l using ReplaceAllDouble.induct c with
  | case1 => simp [ReplaceAllDouble]
  | case2 a => simp [ReplaceAllDouble]
  | case3 a b rest h ih =>
    intro x hx
    simp only [ReplaceAllDouble, if_pos h, List.mem_cons] at hx
    rcases hx with hx | hx
    · subst hx; simp [h.1]
    · simp [ih x hx]
  | case4 a b rest h ih =>
    intro x hx
    simp only [ReplaceAllDouble, if_neg h, List.mem_cons] at hx
    rcases hx with hx | hx
    · subst hx; simp
    · have := ih x hx
      simp only [List.mem_cons] at this
      simp [this]

theorem ReplaceAllDouble_head (c : Char) (l : List Char) :
    (ReplaceAllDouble c l).head? = l.head? := by
  induction l using ReplaceAllDouble.induct c with
  | case1 => rfl
  | case2 a => rfl
  | case3 a b rest h ih =>
    obtain ⟨h1, h2⟩ := h
    subst h1 h2
    simp [ReplaceAllDouble]
  | case4 a b rest h ih => simp only [ReplaceAllDouble, if_neg h, List.head?_cons]

theorem ReplaceAllDouble_last (c : Char) (l : List Char) :
    (ReplaceAllDouble c l).getLast? = l.getLast? := by
  induction l using ReplaceAllDouble.induct c with
  | case1 => rfl
  | case2 a => rfl
  | case3 a b rest h ih =>
    simp only [ReplaceAllDouble, if_pos h]
    rw [List.getLast?_cons, ih, List.getLast?_cons_cons, List.getLast?_cons, h.2]
  | case4 a b rest h ih =>
    simp only [ReplaceAllDouble, if_neg h]
    rw [List.getLast?_cons, ih, List.getLast?_cons_cons]
    simp [List.getLast?_cons]

theorem ReplaceAllDouble_length (c : Char) (l : List Char) :
    (ReplaceAllDouble c l).length ≤ l.length ∧
      (ContainsDouble c l = true → (ReplaceAllDouble c l).length < l.length) := by
  induction l using ReplaceAllDouble.induct c with
  | case1 => simp [ReplaceAllDouble, ContainsDouble]
  | case2 a => simp [ReplaceAllDouble, ContainsDouble]
  | case3 a b rest h ih =>
    simp only [ReplaceAllDouble, if_pos h, List.length_cons]
    constructor
    · omega
    · intro _; omega
  | case4 a b rest h ih =>
    simp only [ReplaceAllDouble, if_neg h, List.length_cons]
    constructor
    · have := ih.1
      simp only [List.length_cons] at this
      omega
    · intro hc
      have hab : (a == c && b == c) = false := by
        rw [← Bool.not_eq_true]
        simpa using h
      simp only [ContainsDouble, hab, Bool.false_or] at hc
      have := ih.2 hc
      simp only [List.length_cons] at this
      omega

theorem ReplaceAllDouble_of_not_contains (c : Char) (l : List Char)
    (h : ContainsDouble c l = false) : ReplaceAllDouble c l = l := by
  induction l using ReplaceAllDouble.induct c with
  | case1 => rfl
  | case2 a => rfl
  | case3 a b rest hab ih =>
    simp [ContainsDouble, hab.1, hab.2] at h
  | case4 a b rest hab ih =>
    simp only [ContainsDouble, Bool.or_eq_false_iff] at h
    simp only [ReplaceAllDouble, if_neg hab, ih h.2]

theorem ContainsDouble_iff (c : Char) (l : List Char) :
    ContainsDouble c l = true ↔ [c, c] <:+: l := by
  induction l using ContainsDouble.induct c with
  | case1 => simp [ContainsDouble]
  | case2 a =>
    simp only [ContainsDouble, Bool.false_eq_true, false_iff]
    intro h
    have := h.length_le
    simp at this
  | case3 a b rest ih =>
    simp only [ContainsDouble, Bool.or_eq_true, Bool.and_eq_true, beq_iff_eq, ih]
    rw [List.infix_cons_iff (a := a)]
    constructor
    · rintro (⟨h1, h2⟩ | h)
      · left
        subst h1 h2
        exact ⟨rest, rfl⟩
      · right; exact h
    · rintro (h | h)
      · left
        obtain ⟨s, hs⟩ := h
        simp only [List.cons_append, List.cons.injEq, List.nil_append] at hs
        exact ⟨hs.1.symm, hs.2.1.symm⟩
      · right; exact h

end SlugShape

section SlugCollapse

open strings page

theorem collapse_mem : ∀ (fuel : Nat) (l : List Char),
    ∀ x ∈ GenerateSlug.collapse fuel l, x ∈ l := by
  intro fuel
  induction fuel with
  | zero => intro l x hx; exact hx
  | succ n ih =>
    intro l x hx
    simp only [GenerateSlug.collapse] at hx
    split_ifs at hx
    · exact ReplaceAllDouble_mem '-' l x (ih _ x hx)
    · exact hx

theorem collapse_head : ∀ (fuel : Nat) (l : List Char),
    (GenerateSlug.collapse fuel l).head? = l.head? := by
  intro fuel
  induction fuel with
  | zero => intro l; rfl
  | succ n ih =>
    intro l
    simp only [GenerateSlug.collapse]
    split_ifs
    · rw [ih, ReplaceAllDouble_head]
    · rfl

theorem collapse_last : ∀ (fuel : Nat) (l : List Char),
    (GenerateSlug.collapse fuel l).getLast? = l.getLast? := by
  intro fuel
  induction fuel with
  | zero => intro l; rfl
  | succ n ih =>
    intro l
    simp only [GenerateSlug.collapse]
    split_ifs
    · rw [ih, ReplaceAllDouble_last]
    · rfl

/-- The rounds given to the loop are enough: it ends because no double
dash is left. -/
theorem collapse_done : ∀ (fuel : Nat) (l : List Char), l.length ≤ fuel →
    ContainsDouble '-' (GenerateSlug.collapse fuel l) = false := by
  intro fuel
  induction fuel with
  | zero =>
    intro l hl
    have : l = [] := List.length_eq_zero.mp (Nat.le_zero.mp hl)
    subst this
    rfl
  | succ n ih =>
    intro l hl
    simp only [GenerateSlug.collapse]
    split_ifs with h
    · apply ih
      have := (ReplaceAllDouble_length '-' l).2 h
      omega
    · simpa using h

theorem collapse_of_not_contains (fuel : Nat) (l : List Char)
    (h : ContainsDouble '-' l = false) : GenerateSlug.collapse fuel l = l := by
  cases fuel with
  | zero => rfl
  | succ n => simp [GenerateSlug.collapse, h]

end SlugCollapse

section SlugCanonical

open strings page

theorem GenerateSlug_toList (t : unicode.Tables) (text : String) :
    (GenerateSlug t text).toList =
      GenerateSlug.collapse
        (Trim (GenerateSlug.writeAll t (text.toList.map (unicode.ToLower t))) '-').length
        (Trim (GenerateSlug.writeAll t (text.toList.map (unicode.ToLower t))) '-') := by
  simp only [GenerateSlug, strings.ToLower, build_eq, List.nil_append]
  rfl

theorem GenerateSlug_slugRune (t : unicode.Tables) (text : String) :
    ∀ c ∈ (GenerateSlug t text).toList, slugRune t c := by
  intro c hc
  rw [GenerateSlug_toList] at hc
  exact writeAll_slugRune t _ c (Trim_mem _ _ _ (collapse_mem _ _ c hc))

theorem GenerateSlug_head (t : unicode.Tables) (text : String) :
    (GenerateSlug t text).toList.head? ≠ some '-' := by
  rw [GenerateSlug_toList, collapse_head]
  exact Trim_head _ _

theorem GenerateSlug_last (t : unicode.Tables) (text : String) :
    (GenerateSlug t text).toList.getLast? ≠ some '-' := by
  rw [GenerateSlug_toList, collapse_last]
  exact Trim_last _ _

theorem GenerateSlug_no_double (t : unicode.Tables) (text : String) :
    ContainsDouble '-' (GenerateSlug t text).toList = false := by
  rw [GenerateSlug_toList]
  exact collapse_done _ _ (Nat.le_refl _)

theorem GenerateSlug_fixed (t : unicode.Tables)
    (hlow : ∀ r, unicode.ToLower t (unicode.ToLower t r) = unicode.ToLower t r) (text : String) :
    ∀ c ∈ (GenerateSlug t text).toList, fixedRune t c := by
  intro c hc
  rw [GenerateSlug_toList] at hc
  exact writeAll_fixed t hlow _ c (Trim_mem _ _ _ (collapse_mem _ _ c hc))

theorem GenerateSlug_idempotent (t : unicode.Tables)
    (hlow : ∀ r, unicode.ToLower t (unicode.ToLower t r) = unicode.ToLower t r) (text : String) :
    GenerateSlug t (GenerateSlug t text) = GenerateSlug t text := by
  apply String.ext
  show (GenerateSlug t (GenerateSlug t text)).toList = (GenerateSlug t text).toList
  rw [GenerateSlug_toList t (GenerateSlug t text),
    writeAll_of_fixed t _ (GenerateSlug_fixed t hlow text),
    Trim_of_edges _ _ (GenerateSlug_head t text) (GenerateSlug_last t text),
    collapse_of_not_contains _ _ (GenerateSlug_no_double t text)]

end SlugCanonical

section SlugClaims

open strings page

theorem ToLower_ascii (t : unicode.Tables) (r : Char) (h : r.toNat ≤ unicode.MaxASCII) :
    unicode.ToLower t (unicode.ToLower t r) = unicode.ToLower t r := by
  by_cases hu : 'A'.toNat ≤ r.toNat ∧ r.toNat ≤ 'Z'.toNat
  · have hr : r = Char.ofNat r.toNat := (Char.ofNat_toNat r).symm
    obtain ⟨h1, h2⟩ := hu
    generalize r.toNat = n at hr h1 h2
    subst hr
    have h1' : 65 ≤ n := h1
    have h2' : n ≤ 90 := h2
    clear h h1 h2
    interval_cases n <;> rfl
  · have e : unicode.ToLower t r = r := by
      unfold unicode.ToLower
      rw [if_pos h, if_neg hu]
    rw [e, e]

/-- The lower case of the sample tables is reached in one step. -/
theorem unicodeTables_lower (r : Char) :
    unicode.ToLower sample.unicodeTables (unicode.ToLower sample.unicodeTables r) =
      unicode.ToLower sample.unicodeTables r := by
  by_cases h : r.toNat ≤ unicode.MaxASCII
  · exact ToLower_ascii _ r h
  · have e : unicode.ToLower sample.unicodeTables r = sample.unicodeTables.LowerCase r := by
      unfold unicode.ToLower
      rw [if_neg h]
    rw [e]
    unfold sample.unicodeTables
    simp only
    by_cases h1 : r = 'İ'
    · rw [if_pos h1]; rfl
    rw [if_neg h1]
    by_cases h2 : r = 'Ö'
    · rw [if_pos h2]; rfl
    rw [if_neg h2]
    by_cases h3 : r = 'Ü'
    · rw [if_pos h3]; rfl
    rw [if_neg h3]
    by_cases h4 : r = 'Ç'
    · rw [if_pos h4]; rfl
    rw [if_neg h4]
    by_cases h5 : r = 'Ğ'
    · rw [if_pos h5]; rfl
    rw [if_neg h5]
    by_cases h6 : r = 'Ş'
    · rw [if_pos h6]; rfl
    rw [if_neg h6]
    unfold unicode.ToLower
    rw [if_neg h]
    simp only [if_neg h1, if_neg h2, if_neg h3, if_neg h4, if_neg h5, if_neg h6]

theorem CreatePage_slug (t : unicode.Tables) (s : Service) (Create : Page → error) (now : Time)
    (p : Page) (h : p.Slug = "") :
    (s.CreatePage t Create now p).1.Slug = GenerateSlug t p.Title := by
  unfold Service.CreatePage
  simp only [if_pos h]
  split_ifs <;> rfl

/-- C30, as stated, fails: the slug of `x² ½` is `x²-½`, and `²` (like
`½`) is a number for `unicode.IsNumber`, which the code tests, but neither a
letter nor a digit nor the dash.  The four characters of the text are in
Latin-1, where the predicates are those of package `unicode`, and `²` and
`½` have no other lower case. -/
theorem GenerateSlug_keeps_numbers_that_are_no_digits :
    GenerateSlug sample.unicodeTables "x² ½" = "x²-½" ∧
    '²' ∈ (GenerateSlug sample.unicodeTables "x² ½").toList ∧
    unicode.IsNumber sample.unicodeTables '²' = true ∧
    unicode.IsLetter sample.unicodeTables '²' = false ∧
    unicode.IsDigit sample.unicodeTables '²' = false ∧
    '²' ≠ '-' := by
  decide

/-- C30, amended. For every text, `GenerateSlug(text)` consists of letters,
numbers (`unicode.IsLetter`, `unicode.IsNumber`: the digits and the other
numeric characters) and dashes only, does not start or
end with a dash and holds no two dashes in a row; the loop that removes the
double dashes ends within the rounds it is given.  When the lower case of
the Unicode tables is reached in one step (`ToLower (ToLower r) = ToLower r`),
the slug is a fixed point of `GenerateSlug`, and so the slug that
`CreatePage` generates from the title of a page without a slug, when it is
not empty, passes the first two checks of `ValidateSlug`, which then
returns what the uniqueness check gives. -/
theorem GenerateSlug_canonical (t : unicode.Tables) (text : String) :
    (∀ c ∈ (GenerateSlug t text).toList,
      unicode.IsLetter t c = true ∨ unicode.IsNumber t c = true ∨ c = '-') ∧
    (GenerateSlug t text).toList.head? ≠ some '-' ∧
    (GenerateSlug t text).toList.getLast? ≠ some '-' ∧
    ¬ strings.Contains (GenerateSlug t text) "--" ∧
    ((∀ r, unicode.ToLower t (unicode.ToLower t r) = unicode.ToLower t r) →
      GenerateSlug t (GenerateSlug t text) = GenerateSlug t text ∧
      ∀ (s : Service) (Create : Page → error) (now : Time) (p : Page) (excludeID : Int),
        p.Slug = "" → p.Title = text → (s.CreatePage t Create now p).1.Slug ≠ "" →
          (s.CreatePage t Create now p).1.Slug = GenerateSlug t text ∧
          s.ValidateSlug t (s.CreatePage t Create now p).1.Slug excludeID =
            match s.repo.FindBySlug (GenerateSlug t text) with
            | .ok existing =>
              if existing.ID ≠ excludeID then error.New "slug already exists" else error.nil
            | .error _ => error.nil) := by
  refine ⟨GenerateSlug_slugRune t text, GenerateSlug_head t text, GenerateSlug_last t text,
    ?_, ?_⟩
  · intro hc
    have := (ContainsDouble_iff '-' (GenerateSlug t text).toList).mpr hc
    rw [GenerateSlug_no_double] at this
    exact Bool.noConfusion this
  · intro hlow
    refine ⟨GenerateSlug_idempotent t hlow text, ?_⟩
    intro s Create now p excludeID hs ht hne
    have e := CreatePage_slug t s Create now p hs
    rw [ht] at e
    rw [e] at hne
    refine ⟨e, ?_⟩
    rw [e]
    unfold Service.ValidateSlug
    rw [if_neg hne, if_neg (by rw [GenerateSlug_idempotent t hlow text]; exact fun h => h rfl)]

set_option maxRecDepth 100000 in
theorem GenerateSlug_title :
    GenerateSlug sample.unicodeTables sample.title = "hello-world-istanbul-ogle" := by
  decide

/-- C30, amended, at the sample title: the slug is `hello-world-istanbul-ogle`,
generating a slug from it gives it back, and it is the slug that
`CreatePage` gives to the sample page. -/
theorem GenerateSlug_canonical_witness :
    GenerateSlug sample.unicodeTables sample.title = "hello-world-istanbul-ogle" ∧
    GenerateSlug sample.unicodeTables (GenerateSlug sample.unicodeTables sample.title) =
      GenerateSlug sample.unicodeTables sample.title ∧
    (Service.CreatePage sample.unicodeTables ⟨sample.repo⟩ (fun _ => error.nil) 7
      sample.untitledPage).1.Slug = GenerateSlug sample.unicodeTables sample.title :=
  ⟨GenerateSlug_title,
    ((GenerateSlug_canonical sample.unicodeTables sample.title).2.2.2.2 unicodeTables_lower).1,
    (((GenerateSlug_canonical sample.unicodeTables sample.title).2.2.2.2 unicodeTables_lower).2
      ⟨sample.repo⟩ (fun _ => error.nil) 7 sample.untitledPage 0 rfl rfl
      (by
        rw [CreatePage_slug _ _ _ _ _ rfl]
        rw [show sample.untitledPage.Title = sample.title from rfl, GenerateSlug_title]
        decide)).1⟩

end SlugClaims

/-! ### Rate limiting -/

section RateLimiting

open httprate

theorem IncrementBy_same (counters : Counters) (key : String) (w : Time) (amount : Nat) :
    (counters.IncrementBy key w amount) key w = counters key w + amount := by
  simp [Counters.IncrementBy]

theorem IncrementBy_other_window (counters : Counters) (key : String) (w w' : Time)
    (amount : Nat) (h : w' ≠ w) : (counters.IncrementBy key w amount) key w' = counters key w' := by
  simp [Counters.IncrementBy, h]

theorem IncrementBy_other_key (counters : Counters) (key key' : String) (w w' : Time)
    (amount : Nat) (h : key' ≠ key) :
    (counters.IncrementBy key w amount) key' w' = counters key' w' := by
  simp [Counters.IncrementBy, h]

theorem Allow_decision (requestLimit windowLength : Nat) (counters : Counters) (key : String)
    (now : Time) :
    (Allow requestLimit windowLength counters key now).1 =
      decide (rate windowLength counters key now < requestLimit) := by
  unfold Allow
  by_cases h : rate windowLength counters key now + 1 > requestLimit
  · rw [if_pos h]
    have : ¬ rate windowLength counters key now < requestLimit := by omega
    simp [this]
  · rw [if_neg h]
    have : rate windowLength counters key now < requestLimit := by omega
    simp [this]

theorem Allow_other_key (requestLimit windowLength : Nat) (counters : Counters)
    (key key' : String) (now w : Time) (h : key' ≠ key) :
    (Allow requestLimit windowLength counters key now).2 key' w = counters key' w := by
  unfold Allow
  split_ifs
  · rfl
  · exact IncrementBy_other_key _ _ _ _ _ _ h

/-- With no request counted in the previous window, the rate is the count
of the current window. -/
theorem rate_of_idle_previous (windowLength : Nat) (hw : 0 < windowLength) (counters : Counters)
    (key : String) (now : Time) (hp : prevCount windowLength counters key now = 0) :
    rate windowLength counters key now = currCount windowLength counters key now := by
  unfold rate
  simp only [hp, Nat.mul_zero, Nat.zero_mul, Nat.zero_add]
  rw [Nat.div_eq_of_lt (by omega)]
  rfl

theorem prevCount_IncrementBy (windowLength : Nat) (hw : 0 < windowLength) (counters : Counters)
    (key : String) (now t : Time)
    (ht : Truncate t windowLength = Truncate now windowLength) :
    prevCount windowLength (counters.IncrementBy key (Truncate now windowLength) 1) key t =
      prevCount windowLength counters key t := by
  unfold prevCount
  rw [ht]
  split_ifs with h
  · exact IncrementBy_other_window _ _ _ _ _
      (Nat.ne_of_lt (Nat.sub_lt (Nat.lt_of_lt_of_le hw h) hw))
  · rfl

/-- Inside one clock-aligned window that follows a window without requests
of the key and holds `k` of them, the `i`-th further request is allowed
exactly when `k + i` is below the limit. -/
theorem decisions_in_window (requestLimit windowLength : Nat) (hw : 0 < windowLength)
    (key : String) (w : Time) :
    ∀ (ts : List Time) (k : Nat) (counters : Counters),
      (∀ t ∈ ts, Truncate t windowLength = w) →
      counters key w = k →
      (∀ t ∈ ts, prevCount windowLength counters key t = 0) →
      decisions requestLimit windowLength key counters ts =
        (List.range ts.length).map (fun i => decide (k + i < requestLimit)) := by
  intro ts
  induction ts with
  | nil => intro k counters _ _ _; rfl
  | cons t rest ih =>
    intro k counters hts hk hprev
    have ht : Truncate t windowLength = w := hts t (List.mem_cons_self _ _)
    have hrest : ∀ u ∈ rest, Truncate u windowLength = w :=
      fun u hu => hts u (List.mem_cons_of_mem _ hu)
    have hr : rate windowLength counters key t = k := by
      rw [rate_of_idle_previous windowLength hw counters key t (hprev t (List.mem_cons_self _ _))]
      unfold currCount
      rw [ht, hk]
    simp only [decisions, List.length_cons, List.range_succ_eq_map, List.map_cons, List.map_map]
    by_cases hlt : k < requestLimit
    · have hA : Allow requestLimit windowLength counters key t =
          (true, counters.IncrementBy key (Truncate t windowLength) 1) := by
        unfold Allow
        rw [hr, if_neg (by omega)]
      rw [hA]
      simp only [Nat.add_zero, hlt, decide_True]
      rw [ih (k + 1) _ hrest (by rw [ht, IncrementBy_same, hk])
        (fun u hu => by
          rw [prevCount_IncrementBy windowLength hw counters key t u (by rw [hrest u hu, ht])]
          exact hprev u (List.mem_cons_of_mem _ hu))]
      congr 1
      apply List.map_congr_left
      intro i _
      simp only [Function.comp_apply]
      congr 1
      rw [Nat.add_assoc, Nat.add_comm 1 i]
    · have hA : Allow requestLimit windowLength counters key t = (false, counters) := by
        unfold Allow
        rw [hr, if_pos (by omega)]
      rw [hA]
      simp only [Nat.add_zero, hlt, decide_False]
      rw [ih k _ hrest hk (fun u hu => hprev u (List.mem_cons_of_mem _ hu))]
      congr 1
      apply List.map_congr_left
      intro i _
      simp only [Function.comp_apply]
      have h1 : ¬ k + i < requestLimit := by omega
      have h2 : ¬ k + (i + 1) < requestLimit := by omega
      rw [decide_eq_false h1, decide_eq_false h2]

theorem RateLimit_of_key (KeyByIP : Request → String × error) (n : Nat) (next : Handler)
    (r : Request) (key : String) (counters : Counters) (s : World)
    (hkey : KeyByIP r = (key, error.nil)) :
    middleware.RateLimit KeyByIP n next r (counters, s) =
      if (Allow n time.Minute counters key (s.clock s.ticks)).1 = true then
        ((Allow n time.Minute counters key (s.clock s.ticks)).2, next r s.timeNow.2)
      else
        ((Allow n time.Minute counters key (s.clock s.ticks)).2,
          s.timeNow.2.write [WriterCall.Error "Too Many Requests" 429]) := by
  simp only [middleware.RateLimit, Limit, middleware.RateLimit.keyFunc, hkey, ne_eq,
    not_true_eq_false, if_false, World.timeNow, Nat.one_mul, http.StatusTooManyRequests]

end RateLimiting

section RateLimitClaims

open httprate middleware

/-- C26, as stated, fails, at the limit 5 of the authentication endpoints.
Five requests of one address at the instant 0 are allowed and a sixth, 61
seconds later, when the minute has elapsed, is rejected: the count is not
reset.  And of six requests within 19 seconds, five at 50 s and one at 69 s
on the clock, in two clock-aligned windows, all six are allowed. -/
theorem rate_limit_slides_over_windows :
    decisions 5 time.Minute "203.0.113.7" (fun _ _ => 0) [0, 0, 0, 0, 0, 61000000000] =
      [true, true, true, true, true, false] ∧
    decisions 5 time.Minute "203.0.113.7" (fun _ _ => 0)
      [50000000000, 50000000000, 50000000000, 50000000000, 50000000000, 69000000000] =
      [true, true, true, true, true, true] := by
  decide

/-- C26, amended. The limiter counts per key in clock-aligned windows of
one minute and slides over them: a request is rejected, with
`Too Many Requests` and without the handler being run, exactly when the
count of the current window plus the count of the previous window, weighed
by the part of the minute that is left in the current window and rounded,
has reached `n`; otherwise it is counted and reaches the handler.  So of
the requests that a key makes within one clock-aligned window that follows
a window without requests of that key, the first `n` are allowed and every
later one is rejected, and once the current and the previous window hold no
request of the key a request succeeds again; the requests of one key leave
the counts of the other keys alone; `RateLimitAuth` is the limiter with
`n = 5` and `RateLimitAPI` the one with `n = 60`. -/
theorem rate_limit_per_key (KeyByIP : Request → String × error) (n : Nat) (next : Handler)
    (key : String) (counters : Counters) :
    (∀ (r : Request) (s : World), KeyByIP r = (key, error.nil) →
      RateLimit KeyByIP n next r (counters, s) =
        if (Allow n time.Minute counters key (s.clock s.ticks)).1 = true then
          ((Allow n time.Minute counters key (s.clock s.ticks)).2, next r s.timeNow.2)
        else
          ((Allow n time.Minute counters key (s.clock s.ticks)).2,
            s.timeNow.2.write [WriterCall.Error "Too Many Requests" 429])) ∧
    (∀ now : Time, (Allow n time.Minute counters key now).1 =
      decide (currCount time.Minute counters key now +
        (2 * prevCount time.Minute counters key now *
            (time.Minute - (now - Truncate now time.Minute)) + time.Minute) /
          (2 * time.Minute) < n)) ∧
    (∀ (w : Time) (ts : List Time), (∀ t ∈ ts, Truncate t time.Minute = w) →
      counters key w = 0 → (w < time.Minute ∨ counters key (w - time.Minute) = 0) →
      decisions n time.Minute key counters ts =
        (List.range ts.length).map (fun i => decide (i < n))) ∧
    (∀ now : Time, currCount time.Minute counters key now = 0 →
      prevCount time.Minute counters key now = 0 →
      (Allow n time.Minute counters key now).1 = decide (0 < n)) ∧
    (∀ (key' : String) (now w : Time), key' ≠ key →
      (Allow n time.Minute counters key now).2 key' w = counters key' w) ∧
    RateLimitAuth KeyByIP next = RateLimit KeyByIP 5 next ∧
    RateLimitAPI KeyByIP next = RateLimit KeyByIP 60 next := by
  have hw : 0 < time.Minute := by decide
  refine ⟨?_, ?_, ?_, ?_, ?_, rfl, rfl⟩
  · intro r s hkey
    exact RateLimit_of_key KeyByIP n next r key counters s hkey
  · intro now
    rw [Allow_decision]
    rfl
  · intro w ts hts hk hprev
    have h := decisions_in_window n time.Minute hw key w ts 0 counters hts hk
      (fun t ht => by
        unfold prevCount
        rw [hts t ht]
        rcases hprev with hp | hp
        · rw [if_neg (Nat.not_le.mpr hp)]
        · split_ifs
          · exact hp
          · rfl)
    rw [h]
    apply List.map_congr_left
    intro i _
    rw [Nat.zero_add]
  · intro now hc hp
    rw [Allow_decision, rate_of_idle_previous time.Minute hw counters key now hp, hc]
  · intro key' now w h
    exact Allow_other_key n time.Minute counters key key' now w h

/-- C26, amended, at the limit of the authentication endpoints: of six
requests of one address within the first minute on the clock the first five
are allowed and the sixth is rejected. -/
theorem rate_limit_per_key_witness :
    decisions 5 time.Minute "203.0.113.7" (fun _ _ => 0)
      [0, 1000000000, 2000000000, 3000000000, 4000000000, 5000000000] =
      [true, true, true, true, true, false] :=
  (rate_limit_per_key sample.KeyByIP 5 sample.okHandler "203.0.113.7" (fun _ _ => 0)).2.2.1 0
    [0, 1000000000, 2000000000, 3000000000, 4000000000, 5000000000] (by decide) rfl
    (Or.inl (by decide))

end RateLimitClaims

/-! ### Tokens: issue and validate -/

section TokenCodec

open auth strings

theorem armourChar_pair (c : Char) : ∃ m x, armourChar c = [m, x] ∧ unarmourPair m x = some c ∧
    m ≠ '.' ∧ m ≠ '|' ∧ m ≠ ' ' ∧ x ≠ '.' ∧ x ≠ '|' ∧ x ≠ ' ' := by
  unfold armourChar
  by_cases h1 : c = '.'
  · subst h1
    exact ⟨'1', 'a', by decide, by decide, by decide, by decide, by decide, by decide, by decide,
      by decide⟩
  · by_cases h2 : c = '|'
    · subst h2
      exact ⟨'1', 'b', by decide, by decide, by decide, by decide, by decide, by decide,
        by decide, by decide⟩
    · by_cases h3 : c = ' '
      · subst h3
        exact ⟨'1', 'c', by decide, by decide, by decide, by decide, by decide, by decide,
          by decide, by decide⟩
      · refine ⟨'0', c, by rw [if_neg h1, if_neg h2, if_neg h3], ?_, by decide, by decide,
          by decide, h1, h2, h3⟩
        unfold unarmourPair
        rw [if_pos rfl, if_neg (by simp [h1, h2, h3])]

theorem unarmour_armour (l : List Char) : unarmour (armour l) = some l := by
  induction l with
  | nil => rfl
  | cons c rest ih =>
    obtain ⟨m, x, hc, hu, _⟩ := armourChar_pair c
    simp only [armour, hc, List.cons_append, List.nil_append, unarmour, hu, ih]

theorem armour_free (l : List Char) (s : Char) (hs : s = '.' ∨ s = '|' ∨ s = ' ') :
    s ∉ armour l := by
  induction l with
  | nil => simp [armour]
  | cons c rest ih =>
    obtain ⟨m, x, hc, _, h1, h2, h3, h4, h5, h6⟩ := armourChar_pair c
    simp only [armour, hc, List.cons_append, List.nil_append, List.mem_cons, not_or]
    refine ⟨?_, ?_, ih⟩
    · rcases hs with h | h | h <;> subst h <;> exact fun e => absurd e.symm (by assumption)
    · rcases hs with h | h | h <;> subst h <;> exact fun e => absurd e.symm (by assumption)

theorem armour_injective (a b : List Char) (h : armour a = armour b) : a = b := by
  have := congrArg unarmour h
  rw [unarmour_armour, unarmour_armour] at this
  exact Option.some.inj this

theorem digitsOf_lt : ∀ (fuel n : Nat), ∀ d ∈ digitsOf fuel n, d < 10 := by
  intro fuel
  induction fuel with
  | zero => intro n d hd; simp [digitsOf] at hd
  | succ f ih =>
    intro n d hd
    simp only [digitsOf] at hd
    split_ifs at hd with h
    · simp only [List.mem_singleton] at hd
      omega
    · simp only [List.mem_cons] at hd
      rcases hd with hd | hd
      · omega
      · exact ih _ d hd

theorem digitsOf_ne_nil (fuel n : Nat) : digitsOf (fuel + 1) n ≠ [] := by
  simp only [digitsOf]
  split_ifs <;> simp

theorem natOfDigits_digitsOf : ∀ (fuel n : Nat), n < fuel → natOfDigits (digitsOf fuel n) = n := by
  intro fuel
  induction fuel with
  | zero => intro n h; omega
  | succ f ih =>
    intro n h
    simp only [digitsOf]
    split_ifs with h10
    · simp [natOfDigits]
    · simp only [natOfDigits]
      rw [ih (n / 10) (by omega)]
      omega

theorem digit_char (d : Nat) (h : d < 10) :
    (Char.ofNat (48 + d)).toNat - 48 = d ∧
      decide (48 ≤ (Char.ofNat (48 + d)).toNat ∧ (Char.ofNat (48 + d)).toNat ≤ 57) = true ∧
      Char.ofNat (48 + d) ≠ '-' := by
  interval_cases d <;> decide

theorem charsNat_natChars (n : Nat) : charsNat (natChars n) = some n := by
  unfold charsNat natChars
  have hlt := digitsOf_lt (n + 1) n
  have hne : ((digitsOf (n + 1) n).map (fun d => Char.ofNat (48 + d))).reverse ≠ [] := by
    simp [digitsOf_ne_nil]
  have hall : (((digitsOf (n + 1) n).map (fun d => Char.ofNat (48 + d))).reverse).all
      (fun c => decide (48 ≤ c.toNat ∧ c.toNat ≤ 57)) = true := by
    rw [List.all_eq_true]
    intro c hc
    simp only [List.mem_reverse, List.mem_map] at hc
    obtain ⟨d, hd, rfl⟩ := hc
    exact (digit_char d (hlt d hd)).2.1
  rw [if_pos ⟨hne, hall⟩, List.reverse_reverse, List.map_map]
  have hid : (digitsOf (n + 1) n).map ((fun c : Char => c.toNat - 48) ∘
      (fun d => Char.ofNat (48 + d))) = digitsOf (n + 1) n := by
    conv_rhs => rw [← List.map_id (digitsOf (n + 1) n)]
    apply List.map_congr_left
    intro d hd
    exact (digit_char d (hlt d hd)).1
  rw [hid, natOfDigits_digitsOf (n + 1) n (Nat.lt_succ_self n)]

theorem natChars_head (n : Nat) : ∃ c rest, natChars n = c :: rest ∧ c ≠ '-' := by
  have hne : natChars n ≠ [] := by
    unfold natChars
    simp [digitsOf_ne_nil]
  cases h : natChars n with
  | nil => exact absurd h hne
  | cons c rest =>
    refine ⟨c, rest, rfl, ?_⟩
    have hc : c ∈ natChars n := by rw [h]; exact List.mem_cons_self _ _
    unfold natChars at hc
    simp only [List.mem_reverse, List.mem_map] at hc
    obtain ⟨d, hd, rfl⟩ := hc
    exact (digit_char d (digitsOf_lt _ _ d hd)).2.2

theorem charsInt_intChars (i : Int) : charsInt (intChars i) = some i := by
  unfold intChars
  by_cases h : i < 0
  · rw [if_pos h]
    simp only [charsInt, if_true, charsNat_natChars, Option.map_some']
    congr 1
    show -(i.natAbs : Int) = i
    rw [Int.ofNat_natAbs_of_nonpos (Int.le_of_lt h), Int.neg_neg]
  · rw [if_neg h]
    obtain ⟨c, rest, hcr, hc⟩ := natChars_head i.natAbs
    rw [hcr]
    simp only [charsInt, if_neg hc]
    rw [← hcr, charsNat_natChars, Option.map_some']
    congr 1
    show (i.natAbs : Int) = i
    exact Int.natAbs_of_nonneg (Int.not_lt.mp h)

theorem encodeClaims_toList (c : TokenClaims) :
    (encodeClaims c).toList =
      armour (intChars c.UserID) ++ '|' :: (armour c.Email.toList ++ '|' ::
        (armour c.Role.toList ++ '|' :: (armour (natChars c.IssuedAt) ++ '|' ::
          armour (natChars c.ExpiresAt)))) := rfl

theorem decodeClaims_encodeClaims (c : TokenClaims) : decodeClaims (encodeClaims c) = some c := by
  unfold decodeClaims
  rw [encodeClaims_toList]
  have hb : ∀ l, '|' ∉ armour l := fun l => armour_free l '|' (Or.inr (Or.inl rfl))
  rw [splitChars_append_sep '|' _ _ (hb _), splitChars_append_sep '|' _ _ (hb _),
    splitChars_append_sep '|' _ _ (hb _), splitChars_append_sep '|' _ _ (hb _),
    splitChars_no_sep '|' _ (hb _)]
  simp only [unarmour_armour, Option.some_bind, charsInt_intChars, charsNat_natChars]
  rfl

theorem encodeClaims_free (c : TokenClaims) (s : Char) (hs : s = '.' ∨ s = ' ') :
    s ∉ (encodeClaims c).toList := by
  have hs' : s = '.' ∨ s = '|' ∨ s = ' ' := by
    rcases hs with h | h
    · exact Or.inl h
    · exact Or.inr (Or.inr h)
  have hne : s ≠ '|' := by
    rcases hs with h | h <;> subst h <;> decide
  rw [encodeClaims_toList]
  simp only [List.mem_append, List.mem_cons, not_or]
  exact ⟨armour_free _ s hs', hne, armour_free _ s hs', hne, armour_free _ s hs', hne,
    armour_free _ s hs', hne, armour_free _ s hs'⟩

theorem sign_free (secretKey payload : String) (s : Char) (hs : s = '.' ∨ s = ' ') :
    s ∉ (sign secretKey payload).toList := by
  have hs' : s = '.' ∨ s = '|' ∨ s = ' ' := by
    rcases hs with h | h
    · exact Or.inl h
    · exact Or.inr (Or.inr h)
  exact armour_free _ s hs'

theorem sign_binds (secretKey payload payload' : String)
    (h : sign secretKey payload = sign secretKey payload') : payload = payload' := by
  have h' : armour (secretKey.toList ++ '|' :: payload.toList) =
      armour (secretKey.toList ++ '|' :: payload'.toList) := congrArg String.toList h
  have h2 := List.append_cancel_left (armour_injective _ _ h')
  simp only [List.cons.injEq, true_and] at h2
  exact String.ext h2

end TokenCodec

section TokenValidation

open auth strings middleware

theorem sep_decomposition_unique (sep : Char) :
    ∀ (a b p s : List Char), sep ∉ p → sep ∉ s → a ++ sep :: b = p ++ sep :: s →
      a = p ∧ b = s := by
  intro a
  induction a with
  | nil =>
    intro b p s hp _ h
    cases p with
    | nil =>
      simp only [List.nil_append, List.cons.injEq, true_and] at h
      exact ⟨rfl, h⟩
    | cons c p =>
      simp only [List.nil_append, List.cons_append, List.cons.injEq] at h
      exact absurd (by rw [← h.1]; exact List.mem_cons_self _ _) hp
  | cons c a ih =>
    intro b p s hp hs h
    cases p with
    | nil =>
      simp only [List.nil_append, List.cons_append, List.cons.injEq] at h
      exact absurd (by rw [← h.2]; simp) hs
    | cons d p =>
      simp only [List.cons_append, List.cons.injEq] at h
      obtain ⟨h1, h2⟩ := ih b p s (fun m => hp (List.mem_cons_of_mem _ m)) hs h.2
      exact ⟨by rw [h.1, h1], h2⟩

theorem Split_two (payload signature : String) (hp : '.' ∉ payload.toList)
    (hs : '.' ∉ signature.toList) :
    Split (payload ++ "." ++ signature) '.' = [payload, signature] := by
  have e : (payload ++ "." ++ signature).toList = payload.toList ++ '.' :: signature.toList := by
    show (payload ++ "." ++ signature).data = _
    rw [String.data_append, String.data_append]
    simp [String.toList]
  unfold Split
  rw [e, splitChars_append_sep '.' _ _ hp, splitChars_no_sep '.' _ hs]
  rfl

theorem Split_two_inv (token payload signature : String)
    (h : Split token '.' = [payload, signature]) :
    token.toList = payload.toList ++ '.' :: signature.toList ∧ '.' ∉ payload.toList ∧
      '.' ∉ signature.toList := by
  unfold Split at h
  have h' := congrArg (List.map String.toList) h
  simp only [List.map_map, List.map_cons, List.map_nil] at h'
  have hid : (String.toList ∘ String.mk) = id := by
    funext l
    rfl
  rw [hid, List.map_id] at h'
  exact splitChars_pair '.' _ _ _ h'

theorem validate_error_or_ok (secretKey : String) (now : Time) (token : String) :
    validate secretKey now token = .error "invalid or expired token" ∨
      ∃ payload signature c, Split token '.' = [payload, signature] ∧
        signature = sign secretKey payload ∧ decodeClaims payload = some c ∧
        ¬ c.ExpiresAt < now ∧
        validate secretKey now token =
          .ok { UserID := c.UserID, Email := c.Email, Role := c.Role } := by
  unfold validate
  split
  · rename_i payload signature hsplit
    by_cases hsig : signature = sign secretKey payload
    · cases hdec : decodeClaims payload with
      | none =>
        left
        simp only [hsig, if_true]
      | some c =>
        by_cases hexp : c.ExpiresAt < now
        · left
          simp only [hsig, if_true]
          rw [if_pos hexp]
        · right
          refine ⟨payload, signature, c, hsplit, hsig, hdec, hexp, ?_⟩
          simp only [hsig, if_true]
          rw [if_neg hexp]
    · left
      rw [if_neg hsig]
  · left
    rfl

theorem issue_toList (secretKey : String) (tokenDuration : Nat) (now : Time) (userID : Int)
    (email role : String) :
    (issue secretKey tokenDuration now userID email role).toList =
      (encodeClaims (issuedClaims tokenDuration now userID email role)).toList ++
        '.' :: (sign secretKey
          (encodeClaims (issuedClaims tokenDuration now userID email role))).toList := by
  unfold issue
  show (_ ++ "." ++ _ : String).data = _
  rw [String.data_append, String.data_append]
  simp [String.toList]

theorem issue_no_space (secretKey : String) (tokenDuration : Nat) (now : Time) (userID : Int)
    (email role : String) :
    ' ' ∉ (issue secretKey tokenDuration now userID email role).toList := by
  rw [issue_toList]
  simp only [List.mem_append, List.mem_cons, not_or]
  exact ⟨encodeClaims_free _ ' ' (Or.inr rfl), by decide, sign_free _ _ ' ' (Or.inr rfl)⟩

/-- An issued token validates until the clock has passed its expiry. -/
theorem validate_issued (secretKey : String) (tokenDuration : Nat) (now later : Time)
    (userID : Int) (email role : String) :
    validate secretKey later (issue secretKey tokenDuration now userID email role) =
      if now + tokenDuration < later then .error "invalid or expired token"
      else .ok { UserID := userID, Email := email, Role := role } := by
  unfold validate issue
  simp only
  rw [Split_two _ _ (encodeClaims_free _ '.' (Or.inl rfl)) (sign_free _ _ '.' (Or.inl rfl))]
  simp only [if_true, decodeClaims_encodeClaims]
  rfl

/-- A token that differs from an issued one in one byte does not validate. -/
theorem validate_tampered (secretKey : String) (tokenDuration : Nat) (now later : Time)
    (userID : Int) (email role : String) (token' : String)
    (hch : oneByteChanged (issue secretKey tokenDuration now userID email role) token') :
    validate secretKey later token' = .error "invalid or expired token" := by
  rcases validate_error_or_ok secretKey later token' with h | h
  · exact h
  · exfalso
    obtain ⟨payload', sig', _, hsplit, hsig, _, _, _⟩ := h
    obtain ⟨e', hp', hs'⟩ := Split_two_inv token' payload' sig' hsplit
    obtain ⟨pre, x, y, post, hxy, ha, hb⟩ := hch
    rw [issue_toList] at ha
    rw [e'] at hb
    have hpd := encodeClaims_free (issuedClaims tokenDuration now userID email role) '.'
      (Or.inl rfl)
    have hsd := sign_free secretKey
      (encodeClaims (issuedClaims tokenDuration now userID email role)) '.' (Or.inl rfl)
    generalize encodeClaims (issuedClaims tokenDuration now userID email role) = payload
      at ha hpd hsd
    by_cases hpre : '.' ∈ pre
    · obtain ⟨a, b, hab⟩ := List.append_of_mem hpre
      subst hab
      have h1 := sep_decomposition_unique '.' a (b ++ x :: post) _ _ hpd hsd
        (by rw [ha]; simp)
      have h2 := sep_decomposition_unique '.' a (b ++ y :: post) _ _ hp' hs'
        (by rw [hb]; simp)
      have hpay : payload' = payload :=
        String.ext (by show payload'.toList = payload.toList; rw [← h2.1, h1.1])
      have hS : sig'.toList = (sign secretKey payload).toList := by
        rw [hsig, hpay]
      rw [← h2.2, ← h1.2] at hS
      have := List.append_cancel_left hS
      simp only [List.cons.injEq, and_true] at this
      exact hxy this.symm
    · by_cases hx : x = '.'
      · subst hx
        have h1 := sep_decomposition_unique '.' pre post _ _ hpd hsd ha.symm
        have hmem : '.' ∈ pre ++ y :: post := by
          rw [← hb]
          simp
        simp only [List.mem_append, List.mem_cons] at hmem
        rcases hmem with hm | hm | hm
        · exact hpre hm
        · exact hxy hm
        · rw [h1.2] at hm
          exact hsd hm
      · have hmem : '.' ∈ pre ++ x :: post := by
          rw [← ha]
          simp
        simp only [List.mem_append, List.mem_cons] at hmem
        have hpost : '.' ∈ post := by
          rcases hmem with hm | hm | hm
          · exact absurd hm hpre
          · exact absurd hm.symm hx
          · exact hm
        obtain ⟨c, d, hcd⟩ := List.append_of_mem hpost
        subst hcd
        have h1 := sep_decomposition_unique '.' (pre ++ x :: c) d _ _ hpd hsd
          (by rw [ha]; simp)
        have h2 := sep_decomposition_unique '.' (pre ++ y :: c) d _ _ hp' hs'
          (by rw [hb]; simp)
        have hS : sig' = sign secretKey payload :=
          String.ext (by show sig'.toList = (sign secretKey payload).toList; rw [← h2.2, h1.2])
        have hpay : payload' = payload := sign_binds secretKey payload' payload (by rw [← hsig, hS])
        have hP' : pre ++ y :: c = pre ++ x :: c := by
          rw [h2.1, h1.1, hpay]
        have := List.append_cancel_left hP'
        simp only [List.cons.injEq, and_true] at this
        exact hxy this.symm

theorem Service_ValidateToken_ok {σ : Type} (s : application.auth.Service σ) (token : String)
    (claims : Claims) (h : s.jwtManager.ValidateToken token = .ok claims) :
    s.ValidateToken token = .ok claims := by
  simp only [application.auth.Service.ValidateToken, h]

theorem Service_ValidateToken_error {σ : Type} (s : application.auth.Service σ) (token : String)
    (e : String) (h : s.jwtManager.ValidateToken token = .error e) :
    s.ValidateToken token =
      .error (error.AppError "UNAUTHORIZED" "Invalid or expired token" 401 error.nil) := by
  simp only [application.auth.Service.ValidateToken, h]
  rfl

theorem bearer_token_eq (token tok : String) (h : "Bearer " ++ token = "Bearer " ++ tok) :
    token = tok := by
  have h' := congrArg String.toList h
  have e : ∀ x : String, ("Bearer " ++ x).toList = "Bearer ".toList ++ x.toList := by
    intro x
    show ("Bearer " ++ x).data = _
    rw [String.data_append]
    rfl
  rw [e, e] at h'
  exact String.ext (List.append_cancel_left h')

/-- With a bearer token that validates, `AuthMiddleware` hands the request
on with the identity of the claims. -/
theorem AuthMiddleware_valid (jwtManager : JWTManager) (next : Handler) (r : Request)
    (s : World) (token : String) (claims : Claims)
    (hcred : credential r = some ("Bearer " ++ token)) (hsp : ' ' ∉ token.toList)
    (hv : jwtManager.ValidateToken token = .ok claims) :
    AuthMiddleware jwtManager next r s = next (r.WithContext (withIdentity r.ctx claims)) s := by
  have hsplit : Split ("Bearer " ++ token) ' ' = ["Bearer", token] :=
    (Split_bearer_iff _ token).mpr ⟨rfl, hsp⟩
  rw [AuthMiddleware_eq, hcred]
  simp only [hsplit, List.length_cons, List.length_nil, List.getD_cons_zero,
    List.getD_cons_succ, ne_eq, not_true_eq_false, or_self, if_false, hv]

/-- With a bearer token that does not validate, `AuthMiddleware` hands the
request on as it is. -/
theorem AuthMiddleware_invalid (jwtManager : JWTManager) (next : Handler) (r : Request)
    (s : World) (token : String) (e : String)
    (hcred : credential r = some ("Bearer " ++ token))
    (hv : jwtManager.ValidateToken token = .error e) :
    AuthMiddleware jwtManager next r s = next r s := by
  rw [AuthMiddleware_eq, hcred]
  simp only
  by_cases hc : (Split ("Bearer " ++ token) ' ').length ≠ 2 ∨
      (Split ("Bearer " ++ token) ' ').getD 0 "" ≠ "Bearer"
  · rw [if_pos hc]
  · rw [if_neg hc]
    obtain ⟨tok, htok⟩ := (parts_bearer_iff _).mp hc
    have := bearer_token_eq token tok ((Split_bearer_iff _ tok).mp htok).1
    subst this
    simp only [htok, List.getD_cons_succ, List.getD_cons_zero, hv]

end TokenValidation

section TokenRoundTrip

open auth strings middleware

/-- C27, on the token manager as the specification describes it (signed
claims with an expiry fixed at issuance).  For every user id, email and
role, the token that the manager issues validates at the instant of its
issuance and up to its expiry, with claims that carry the same user id,
email and role: `Service.ValidateToken` returns them and `AuthMiddleware`
hands a request that bears the token on with that identity.  It fails once
the clock has passed the expiry, and every token that differs from it in one
byte fails at every instant: the manager returns the one error
`invalid or expired token`, `Service.ValidateToken` returns Unauthorized, and
`AuthMiddleware` hands the request on without an identity. -/
theorem token_issue_validate {σ : Type} (secretKey : String) (tokenDuration : Nat)
    (now later : Time) (userID : Int) (email role : String) (token' : String)
    (userService : application.user.Service σ) (next : Handler) (r r' : Request) (s : World)
    (hr : credential r =
      some ("Bearer " ++ issue secretKey tokenDuration now userID email role))
    (hr' : credential r' = some ("Bearer " ++ token')) :
    (NewJWTManager secretKey tokenDuration now).GenerateToken userID email role =
      .ok (issue secretKey tokenDuration now userID email role) ∧
    (NewJWTManager secretKey tokenDuration now).ValidateToken
        (issue secretKey tokenDuration now userID email role) =
      .ok { UserID := userID, Email := email, Role := role } ∧
    (later ≤ now + tokenDuration →
      (NewJWTManager secretKey tokenDuration later).ValidateToken
          (issue secretKey tokenDuration now userID email role) =
        .ok { UserID := userID, Email := email, Role := role } ∧
      (application.auth.NewService userService
          (NewJWTManager secretKey tokenDuration later)).ValidateToken
          (issue secretKey tokenDuration now userID email role) =
        .ok { UserID := userID, Email := email, Role := role } ∧
      AuthMiddleware (NewJWTManager secretKey tokenDuration later) next r s =
        next (r.WithContext
          (withIdentity r.ctx { UserID := userID, Email := email, Role := role })) s) ∧
    (now + tokenDuration < later →
      (NewJWTManager secretKey tokenDuration later).ValidateToken
          (issue secretKey tokenDuration now userID email role) =
        .error "invalid or expired token" ∧
      (application.auth.NewService userService
          (NewJWTManager secretKey tokenDuration later)).ValidateToken
          (issue secretKey tokenDuration now userID email role) =
        .error (error.AppError "UNAUTHORIZED" "Invalid or expired token" 401 error.nil) ∧
      AuthMiddleware (NewJWTManager secretKey tokenDuration later) next r s = next r s) ∧
    (oneByteChanged (issue secretKey tokenDuration now userID email role) token' →
      (NewJWTManager secretKey tokenDuration later).ValidateToken token' =
        .error "invalid or expired token" ∧
      (application.auth.NewService userService
          (NewJWTManager secretKey tokenDuration later)).ValidateToken token' =
        .error (error.AppError "UNAUTHORIZED" "Invalid or expired token" 401 error.nil) ∧
      AuthMiddleware (NewJWTManager secretKey tokenDuration later) next r' s = next r' s) := by
  have hv := fun t => validate_issued secretKey tokenDuration now t userID email role
  refine ⟨rfl, ?_, ?_, ?_, ?_⟩
  · show validate _ _ _ = _
    rw [hv now, if_neg (Nat.not_lt.mpr (Nat.le_add_right _ _))]
  · intro h
    have e : (NewJWTManager secretKey tokenDuration later).ValidateToken
        (issue secretKey tokenDuration now userID email role) =
        .ok { UserID := userID, Email := email, Role := role } := by
      show validate _ _ _ = _
      rw [hv later, if_neg (Nat.not_lt.mpr h)]
    exact ⟨e, Service_ValidateToken_ok _ _ _ e,
      AuthMiddleware_valid _ next r s _ _ hr (issue_no_space _ _ _ _ _ _) e⟩
  · intro h
    have e : (NewJWTManager secretKey tokenDuration later).ValidateToken
        (issue secretKey tokenDuration now userID email role) =
        .error "invalid or expired token" := by
      show validate _ _ _ = _
      rw [hv later, if_pos h]
    exact ⟨e, Service_ValidateToken_error _ _ _ e, AuthMiddleware_invalid _ next r s _ _ hr e⟩
  · intro hch
    have e : (NewJWTManager secretKey tokenDuration later).ValidateToken token' =
        .error "invalid or expired token" :=
      validate_tampered secretKey tokenDuration now later userID email role token' hch
    exact ⟨e, Service_ValidateToken_error _ _ _ e, AuthMiddleware_invalid _ next r' s _ _ hr' e⟩

set_option maxRecDepth 100000 in
theorem aliceToken_eq :
    sample.aliceToken =
      "05|0a0l0i0c0e0@0e0x0a0m0p0l0e1a0c0o0m|0v0i0e0w0e0r|01000000|0806040000000000000001000000.0s030c0r0e0t1b00051b000a000l000i000c000e000@000e000x000a000m000p000l000e010a000c000o000m1b000v000i000e000w000e000r1b00010000000000001b00080006000400000000000000000000000000000001000000000000" := by
  decide

set_option maxRecDepth 100000 in
theorem aliceToken_tampered : oneByteChanged sample.aliceToken sample.tamperedToken := by
  rw [aliceToken_eq]
  exact ⟨[], '0', '1', "5|0a0l0i0c0e0@0e0x0a0m0p0l0e1a0c0o0m|0v0i0e0w0e0r|01000000|0806040000000000000001000000.0s030c0r0e0t1b00051b000a000l000i000c000e000@000e000x000a000m000p000l000e010a000c000o000m1b000v000i000e000w000e000r1b00010000000000001b00080006000400000000000000000000000000000001000000000000".toList, by decide, rfl, rfl⟩

set_option maxRecDepth 100000 in
theorem tokenRequest_credential :
    middleware.credential sample.tokenRequest = some ("Bearer " ++ sample.aliceToken) := by
  rfl

set_option maxRecDepth 100000 in
theorem tamperedRequest_credential :
    middleware.credential sample.tamperedRequest = some ("Bearer " ++ sample.tamperedToken) := by
  rfl

/-- C27, at the token issued to `alice` under the key `s3cret` at the instant
1000 with a lifetime of 24 hours: it validates at once and at its expiry, a
request that bears it is handed on with the identity of `alice`, it fails
one nanosecond after its expiry, and with its first byte changed from `0` to
`1` it fails and the request that bears it is handed on as it is. -/
theorem token_issue_validate_witness :
    middleware.credential sample.tokenRequest = some ("Bearer " ++ sample.aliceToken) ∧
    middleware.credential sample.tamperedRequest =
      some ("Bearer " ++ sample.tamperedToken) ∧
    oneByteChanged sample.aliceToken sample.tamperedToken ∧
    (NewJWTManager "s3cret" (24 * time.Hour) 1000).GenerateToken 5 "alice@example.com"
        "viewer" = .ok sample.aliceToken ∧
    (NewJWTManager "s3cret" (24 * time.Hour) 1000).ValidateToken sample.aliceToken =
      .ok { UserID := 5, Email := "alice@example.com", Role := "viewer" } ∧
    (application.auth.NewService
        ({ repo := sample.userRepo } : application.user.Service sample.UserStore)
        (NewJWTManager "s3cret" (24 * time.Hour) (1000 + 24 * time.Hour))).ValidateToken
        sample.aliceToken =
      .ok { UserID := 5, Email := "alice@example.com", Role := "viewer" } ∧
    AuthMiddleware (NewJWTManager "s3cret" (24 * time.Hour) (1000 + 24 * time.Hour))
        sample.okHandler sample.tokenRequest {} =
      sample.okHandler (sample.tokenRequest.WithContext
        (withIdentity sample.tokenRequest.ctx
          { UserID := 5, Email := "alice@example.com", Role := "viewer" })) {} ∧
    (NewJWTManager "s3cret" (24 * time.Hour) (1000 + 24 * time.Hour + 1)).ValidateToken
        sample.aliceToken = .error "invalid or expired token" ∧
    (NewJWTManager "s3cret" (24 * time.Hour) 1000).ValidateToken sample.tamperedToken =
      .error "invalid or expired token" ∧
    AuthMiddleware (NewJWTManager "s3cret" (24 * time.Hour) 1000) sample.okHandler
        sample.tamperedRequest {} =
      sample.okHandler sample.tamperedRequest {} :=
  have h := fun later => token_issue_validate "s3cret" (24 * time.Hour) 1000 later 5
    "alice@example.com" "viewer" sample.tamperedToken
    ({ repo := sample.userRepo } : application.user.Service sample.UserStore)
    sample.okHandler sample.tokenRequest sample.tamperedRequest {}
    tokenRequest_credential tamperedRequest_credential
  ⟨tokenRequest_credential, tamperedRequest_credential, aliceToken_tampered,
    (h 1000).1, (h 1000).2.1,
    ((h (1000 + 24 * time.Hour)).2.2.1 (Nat.le_refl _)).2.1,
    ((h (1000 + 24 * time.Hour)).2.2.1 (Nat.le_refl _)).2.2,
    ((h (1000 + 24 * time.Hour + 1)).2.2.2.1 (Nat.lt_succ_self _)).1,
    ((h 1000).2.2.2.2 aliceToken_tampered).1,
    ((h 1000).2.2.2.2 aliceToken_tampered).2.2⟩

end TokenRoundTrip

/-! ### Login when the password verification does not return -/

section LoginWithoutOutcome

open application.auth domain.user auth

theorem VerifyPassword_zero_time (kdf : argon2.KDF) (h : auth.PasswordHasher)
    (password : String) :
    h.VerifyPassword kdf password "$argon2id$v=19$m=65536,t=0,p=2$c2FsdA$aGFzaA" =
      .panicked := by
  have hs : strings.Split "$argon2id$v=19$m=65536,t=0,p=2$c2FsdA$aGFzaA" '$' =
      ["", "argon2id", "v=19", "m=65536,t=0,p=2", "c2FsdA", "aGFzaA"] := by decide
  have hv : fmt.Sscanf_v "v=19" = .ok 19 := by decide
  have hm : fmt.Sscanf_mtp "m=65536,t=0,p=2" = .ok (65536, 0, 2) := by decide
  have hd1 : base64.RawStdEncoding.DecodeString "c2FsdA" = .ok [115, 97, 108, 116] := by decide
  have hd2 : base64.RawStdEncoding.DecodeString "aGFzaA" = .ok [104, 97, 115, 104] := by decide
  rw [VerifyPassword_of_parts kdf h password _ _ _ _ _ _ hs, hv]
  simp only [ne_eq, not_true_eq_false, if_false, hm, hd1, hd2, kdf.panics_time, if_true]

/-- When the password verification does not return, neither does `Login`. -/
theorem Login_verification_panics {σ : Type} (kdf : argon2.KDF) (s : Service σ)
    (req : LoginRequest) (db : σ) (u : User)
    (h : s.userService.repo.FindByEmail req.Email db = .ok u) (ha : u.IsActive = true)
    (hv : s.hasher.VerifyPassword kdf req.Password u.PasswordHash = .panicked) :
    s.Login kdf req db = .panicked := by
  simp [Service.Login, application.user.Service.GetUserByEmail, h, ha, hv]

/-- C12, as stated, fails: for an active user whose stored hash carries
`t=0` the password verification panics, and `Login` ends with none of the
six outcomes: it does not return. -/
theorem login_without_outcome_on_zero_rounds :
    sample.userRepo.FindByEmail "zero@example.com" [sample.zeroRounds] = .ok sample.zeroRounds ∧
    sample.zeroRounds.IsActive = true ∧
    Service.Login sample.kdf sample.authService ⟨"zero@example.com", "secretpw"⟩
      [sample.zeroRounds] = .panicked :=
  ⟨by decide, by decide,
    Login_verification_panics sample.kdf sample.authService ⟨"zero@example.com", "secretpw"⟩
      [sample.zeroRounds] sample.zeroRounds (by decide) (by decide)
      (VerifyPassword_zero_time sample.kdf _ "secretpw")⟩

end LoginWithoutOutcome
